import Mathlib

/-!
# MPD listener subsystem (`src/listen.c`): shallow embedding

The C code talks to the operating system and to other modules of the daemon.
Every such call is recorded as an `Event` in the `trace` of the program state,
and its result is supplied by an environment `Sys`, a deterministic function of
the history of calls made so far.  The file-level variables of `listen.c`
(`listenSockets`, `numberOfListenSockets`, `boundPort`) and `errno` are fields
of `State`.  `FATAL` terminates the process: a function that reaches it yields
`Outcome.fatal` together with the state at that point.
-/

namespace Mpd

/-! ## Platform and build configuration -/

/-- Compile-time switches of `config.h` and the object sizes the code takes with `sizeof`. -/
structure Build where
  HAVE_TCP : Bool
  HAVE_IPV6 : Bool
  HAVE_UN : Bool
  HAVE_STRUCT_UCRED : Bool
  sizeof_sockaddr : Nat
  sizeof_sockaddr_in : Nat
  sizeof_sockaddr_in6 : Nat
  sizeof_sockaddr_un : Nat
  sizeof_sun_path : Nat
deriving DecidableEq, Repr

/-- A Linux build with every feature enabled. -/
def Build.linux : Build :=
  { HAVE_TCP := true, HAVE_IPV6 := true, HAVE_UN := true, HAVE_STRUCT_UCRED := true,
    sizeof_sockaddr := 16, sizeof_sockaddr_in := 16, sizeof_sockaddr_in6 := 28,
    sizeof_sockaddr_un := 110, sizeof_sun_path := 108 }

def PF_UNIX : Int := 1
def PF_INET : Int := 2
def PF_INET6 : Int := 10
def EINTR : Int := 4
def EAGAIN : Int := 11
def INADDR_ANY : Nat := 0
def in6addr_any : Nat := 0
def STDIN_FILENO : Int := 0

def MAXHOSTNAME : Nat := 1024
def ALLOW_REUSE : Int := 1
def DEFAULT_PORT : Int := 6600

/-! ## Data passed to the operating system -/

/-- Socket addresses: `sockaddr_in` and `sockaddr_in6` hold a 16-bit port and an address,
`sockaddr_un` a path; `other` stands for any further family the resolver may return. -/
inductive SockAddr where
  | in4 (sin_port : Nat) (s_addr : Nat)
  | in6 (sin6_port : Nat) (sin6_addr : Nat)
  | un (sun_path : String)
  | other (family : Int) (data : List Nat)
deriving DecidableEq, Repr

/-- One node of the list `getaddrinfo` returns. -/
structure AddrInfo where
  ai_family : Int
  ai_addr : SockAddr
  ai_addrlen : Nat
deriving DecidableEq, Repr

inductive SockOpt where
  | SO_REUSEADDR
  | SO_PASSCRED
  | SO_PEERCRED
deriving DecidableEq, Repr

inductive LogLevel where
  | DEBUG
  | ERROR
deriving DecidableEq, Repr

/-- Calls that leave `listen.c`: system calls, libc, and functions of other modules. -/
inductive Call where
  | ipv6Supported
  | socket (pf : Int)
  | set_nonblocking (sock : Int)
  | setsockopt (sock : Int) (opt : SockOpt) (val : Int)
  | bind (sock : Int) (addr : SockAddr) (addrlen : Nat)
  | listen (sock : Int) (backlog : Int)
  | close (fd : Int)
  | unlink (path : String)
  | chmod (path : String) (mode : Nat)
  | getaddrinfo (node : String) (service : String)
  | freeaddrinfo
  | accept (sock : Int) (addrlen : Nat)
  | getsockopt (fd : Int) (opt : SockOpt)
  | client_new (fd : Int) (addr : SockAddr) (uid : Int)
  | log (level : LogLevel) (msg : String)
  | fstat (fd : Int)
  | isatty (fd : Int)
  | open_rdonly (path : String)
  | dup2 (oldfd : Int) (newfd : Int)
deriving DecidableEq, Repr

/-- A call together with the value it returned and the value of `errno` after it. -/
structure Event where
  call : Call
  ret : Int
  errno : Int
deriving DecidableEq, Repr

/-- The environment: what each call answers, given the calls made before it.
`ret` is the C return value, `errno` the error number a failing call leaves,
`addrinfo` the list `getaddrinfo` stores, `peer_addr` and `peer_addrlen` what `accept`
writes into its address buffer and length, `cred_uid` the `uid` that
`getsockopt(SO_PEERCRED)` writes. -/
structure Sys where
  ret : List Event → Call → Int
  errno : List Event → Call → Int
  addrinfo : List Event → Call → List AddrInfo
  peer_addr : List Event → Call → SockAddr
  peer_addrlen : List Event → Call → Nat
  cred_uid : List Event → Call → Int

/-! ## Program state -/

/-- File-level variables of `listen.c`, `errno`, and the calls made so far.
`listenSockets = none` is the NULL pointer; `some a` is a heap array of `int`. -/
structure State where
  listenSockets : Option (List Int)
  numberOfListenSockets : Int
  boundPort : Int
  errno : Int
  trace : List Event
deriving DecidableEq, Repr

/-- The state at program start: zero-initialised globals, no call made yet. -/
def State.init : State :=
  { listenSockets := none, numberOfListenSockets := 0, boundPort := 0, errno := 0, trace := [] }

/-- Reasons for which the code calls `FATAL`. -/
inductive Fatal where
  | socket
  | nonblocking (errno : Int)
  | setsockopt (errno : Int)
  | listen (errno : Int)
  | bind (port : Nat) (errno : Int)
  | tcpDisabled
  | pathTooLong
  | bindPath (value : String) (errno : Int)
  | lookup (value : String) (line : Int) (ret : Int)
  | port (value : String) (line : Int)
  | devnull (errno : Int)
  | dup2 (errno : Int)
deriving DecidableEq, Repr

/-- Result of running a C function: it returns a value, or the process ends in `FATAL`. -/
inductive Outcome (α : Type) where
  | ret (val : α) (s : State)
  | fatal (f : Fatal) (s : State)
deriving Repr

namespace Outcome

/-- The state in which the function returned or the process was terminated. -/
def state {α : Type} : Outcome α → State
  | ret _ s => s
  | fatal _ s => s

/-- The returned value, if the function returned. -/
def val? {α : Type} : Outcome α → Option α
  | ret v _ => some v
  | fatal _ _ => none

/-- The reason of the fatal error, if the process was terminated. -/
def fatal? {α : Type} : Outcome α → Option Fatal
  | ret _ _ => none
  | fatal f _ => some f

def isFatal {α : Type} : Outcome α → Bool
  | ret _ _ => false
  | fatal _ _ => true

/-- Sequencing: the continuation runs only if the process was not terminated. -/
def andThen {α β : Type} (o : Outcome α) (k : α → State → Outcome β) : Outcome β :=
  match o with
  | ret v s => k v s
  | fatal f s => fatal f s

end Outcome

/-- Perform a call: ask the environment for the result, set `errno` if the call failed,
and record the event. -/
def sysCall (sys : Sys) (c : Call) (s : State) : Int × State :=
  let r := sys.ret s.trace c
  let e := if r < 0 then sys.errno s.trace c else s.errno
  (r, { s with errno := e, trace := s.trace ++ [{ call := c, ret := r, errno := e }] })

/-- Call a `void` function of another module (logging, `client_new`): only recorded. -/
def emit (c : Call) (s : State) : State :=
  { s with trace := s.trace ++ [{ call := c, ret := 0, errno := s.errno }] }

def DEBUG (msg : String) (s : State) : State := emit (.log .DEBUG msg) s
def ERROR (msg : String) (s : State) : State := emit (.log .ERROR msg) s

/-- Reading `listenSockets[i]`. -/
def listenSocketAt (s : State) (i : Nat) : Int := (s.listenSockets.getD []).getD i 0

/-- The descriptors held by the registry: `listenSockets[0 .. numberOfListenSockets-1]`. -/
def registry (s : State) : List Int :=
  (List.range s.numberOfListenSockets.toNat).map (listenSocketAt s)

/-- Modelled from the spec: `xrealloc` of `utils.c` is not in the sources; it resizes the
array to `n` cells keeping the old contents (new cells read as 0 here) and never fails
(`register(socket)`: append; amortized growth, no upper bound). -/
def xrealloc (p : Option (List Int)) (n : Nat) : List Int :=
  (p.getD []).take n ++ List.replicate (n - (p.getD []).length) 0

/-! ## `establishListen` -/

def establishListen (b : Build) (sys : Sys) (pf : Int) (addrp : SockAddr) (addrlen : Nat)
    (s : State) : Outcome Int :=
  let c1 := sysCall sys (.socket pf) s
  let sock := c1.1
  if sock < 0 then .fatal .socket c1.2 else
  let c2 := sysCall sys (.set_nonblocking sock) c1.2
  if c2.1 < 0 then .fatal (.nonblocking c2.2.errno) c2.2 else
  let c3 := sysCall sys (.setsockopt sock .SO_REUSEADDR ALLOW_REUSE) c2.2
  if c3.1 < 0 then .fatal (.setsockopt c3.2.errno) c3.2 else
  let c4 := sysCall sys (.bind sock addrp addrlen) c3.2
  if c4.1 < 0 then
    let c5 := sysCall sys (.close sock) c4.2
    .ret (-1) c5.2
  else
  let c6 := sysCall sys (.listen sock 5) c4.2
  if c6.1 < 0 then .fatal (.listen c6.2.errno) c6.2 else
  let s7 := if b.HAVE_STRUCT_UCRED then (sysCall sys (.setsockopt sock .SO_PASSCRED 1) c6.2).2
            else c6.2
  let n := s7.numberOfListenSockets + 1
  let arr := (xrealloc s7.listenSockets n.toNat).set (n - 1).toNat sock
  .ret 0 { s7 with numberOfListenSockets := n, listenSockets := some arr }

/-! ## `parseListenConfigParam` -/

/-- One configuration entry: its text and the line it was read from. -/
structure ConfigParam where
  value : String
  line : Int
deriving DecidableEq, Repr

/-- The port number a `sockaddr` holds after `htons(port)`: the low 16 bits of `port`
(the byte order of the representation is not modelled). -/
def htons (port : Nat) : Nat := port % 65536

/-- The macro `BINDERROR()`: `FATAL("unable to bind port %u: %s ...", port, strerror(errno))`. -/
def BINDERROR (port : Nat) (s : State) : Outcome Unit := .fatal (.bind port s.errno) s

/-- The loop `for (i = ai; i != NULL; i = i->ai_next)` over the resolver result. -/
def bindAddrinfo (b : Build) (sys : Sys) (port : Nat) : List AddrInfo → State → Outcome Unit
  | [], s => .ret () s
  | i :: rest, s =>
    (establishListen b sys i.ai_family i.ai_addr i.ai_addrlen s).andThen fun r s1 =>
      if r < 0 then BINDERROR port s1 else bindAddrinfo b sys port rest s1

/-- The declaration `int useIpv6 = ipv6Supported();`, compiled only under HAVE_TCP and
HAVE_IPV6.  Without HAVE_IPV6 the variable does not exist and the code compiled is the one
obtained with `useIpv6 = 0`, which is the value given here. -/
def initUseIpv6 (b : Build) (sys : Sys) (s : State) : Bool × State :=
  if b.HAVE_TCP && b.HAVE_IPV6 then
    ((sysCall sys .ipv6Supported s).1 != 0, (sysCall sys .ipv6Supported s).2)
  else (false, s)

/-- The branch `if (!param || 0 == strcmp(param->value, "any"))` of `parseListenConfigParam`;
`s0` is the state after the declarations at the top of the function. -/
def wildcardBind (b : Build) (sys : Sys) (port : Nat) (useIpv6 : Bool) (s0 : State) :
    Outcome Unit :=
  if b.HAVE_TCP then
    let s1 := DEBUG "binding to any address\n" s0
    let v6 : Outcome Unit :=
      if useIpv6 then
        (establishListen b sys PF_INET6 (.in6 (htons port) in6addr_any)
            b.sizeof_sockaddr_in6 s1).andThen
          fun r s2 => if r < 0 then BINDERROR port s2 else .ret () s2
      else .ret () s1
    v6.andThen fun _ s2 =>
      (establishListen b sys PF_INET (.in4 (htons port) INADDR_ANY)
          b.sizeof_sockaddr_in s2).andThen
        fun r s3 => if r < 0 && !useIpv6 then BINDERROR port s3 else .ret () s3
  else .fatal .tcpDisabled s0

def parseListenConfigParam (b : Build) (sys : Sys) (port0 : Nat) (param : Option ConfigParam)
    (s : State) : Outcome Unit :=
  -- the parameter is an `unsigned int`
  let port := port0 % 4294967296
  let useIpv6 : Bool := (initUseIpv6 b sys s).1
  let s0 := (initUseIpv6 b sys s).2
  match param with
  | none => wildcardBind b sys port useIpv6 s0
  | some p =>
    if p.value = "any" then wildcardBind b sys port useIpv6 s0
    else if b.HAVE_UN && p.value.data.head? == some '/' then
      let path_length := p.value.utf8ByteSize
      if path_length ≥ b.sizeof_sun_path then .fatal .pathTooLong s0 else
      let c1 := sysCall sys (.unlink p.value) s0
      (establishListen b sys PF_UNIX (.un p.value) b.sizeof_sockaddr_un c1.2).andThen fun r s2 =>
        if r < 0 then .fatal (.bindPath p.value s2.errno) s2 else
        .ret () (sysCall sys (.chmod p.value 0o666) s2).2
    else if b.HAVE_TCP then
      let s1 := DEBUG ("binding to address for " ++ p.value ++ "\n") s0
      let service := Nat.repr port
      let call := Call.getaddrinfo p.value service
      let c1 := sysCall sys call s1
      if c1.1 ≠ 0 then .fatal (.lookup p.value p.line c1.1) c1.2 else
      (bindAddrinfo b sys port (sys.addrinfo s1.trace call) c1.2).andThen fun _ s2 =>
        .ret () (emit .freeaddrinfo s2)
    else .fatal .tcpDisabled s0

/-! ## `listenOnPort` -/

/-- The C-locale `isspace`. -/
def isspace (c : Char) : Bool :=
  c.toNat = 32 || (9 ≤ c.toNat && c.toNat ≤ 13)

def isdigit (c : Char) : Bool := 48 ≤ c.toNat && c.toNat ≤ 57

def digitVal (c : Char) : Nat := c.toNat - 48

def LONG_MAX : Int := 9223372036854775807
def LONG_MIN : Int := -9223372036854775808

/-- The value of a run of decimal digits. -/
def decimalValue (ds : List Char) : Nat := ds.foldl (fun a c => 10 * a + digitVal c) 0

/-- The libc function `strtol(nptr, &end, 10)` with a 64-bit `long`: skip white space, take an
optional sign and the longest run of digits; the value is clamped to the range of `long`.
Returns the value and the text `end` points to (all of `nptr` when there is no digit). -/
def strtol (nptr : List Char) : Int × List Char :=
  let t := nptr.dropWhile isspace
  let neg : Bool := t.head? == some '-'
  let u := if t.head? == some '-' || t.head? == some '+' then t.tail else t
  let ds := u.takeWhile isdigit
  if ds = [] then (0, nptr) else
  let v : Int := if neg then -(decimalValue ds : Int) else (decimalValue ds : Int)
  (max LONG_MIN (min LONG_MAX v), u.dropWhile isdigit)

/-- Conversion of an integer to a 32-bit `int` (two's complement wrap-around). -/
def toInt32 (v : Int) : Int := (v + 2147483648) % 4294967296 - 2147483648

def redirect_stdin (sys : Sys) (s : State) : Outcome Unit :=
  let c1 := sysCall sys (.fstat STDIN_FILENO) s
  if c1.1 < 0 then
    let c2 := sysCall sys (.open_rdonly "/dev/null") c1.2
    -- `fd = open("/dev/null", O_RDONLY) > 0`: fd receives the value of the comparison
    let fd : Int := if c2.1 > 0 then 1 else 0
    if fd ≠ 0 then
      let s3 := DEBUG "stdin closed, and could not open /dev/null as fd=0, some external library bugs may be exposed...\n" c2.2
      .ret () (sysCall sys (.close fd) s3).2
    else .ret () c2.2
  else
  let c2 := sysCall sys (.isatty STDIN_FILENO) c1.2
  if c2.1 = 0 then .ret () c2.2 else
  let c3 := sysCall sys (.open_rdonly "/dev/null") c2.2
  if c3.1 < 0 then .fatal (.devnull c3.2.errno) c3.2 else
  let c4 := sysCall sys (.dup2 c3.1 STDIN_FILENO) c3.2
  if c4.1 < 0 then .fatal (.dup2 c4.2.errno) c4.2 else
  .ret () c4.2

/-- The iterations of the `do ... while` loop of `listenOnPort` for the configured entries. -/
def listenLoop (b : Build) (sys : Sys) (port : Nat) : List ConfigParam → State → Outcome Unit
  | [], s => .ret () s
  | p :: ps, s =>
    (parseListenConfigParam b sys port (some p) s).andThen fun _ s1 => listenLoop b sys port ps s1

/-- The integer `port` of `listenOnPort` after the optional `port` entry is read, or `none`
when the code calls `FATAL`. -/
def parsePort (portParam : Option ConfigParam) : Option Int :=
  match portParam with
  | none => some DEFAULT_PORT
  | some pp =>
    let r := strtol pp.value.data
    let port := toInt32 r.1
    if port ≤ 0 ∨ r.2.headD (Char.ofNat 0) ≠ Char.ofNat 0 then none else some port

/-- The function `listenOnPort`; `bindParams` are the `bind_to_address` entries in configuration
order (what `getNextConfigParam` enumerates), `portParam` the `port` entry if there is one. -/
def listenOnPort (b : Build) (sys : Sys) (bindParams : List ConfigParam)
    (portParam : Option ConfigParam) (s : State) : Outcome Unit :=
  match parsePort portParam with
  | none => .fatal (.port ((portParam.map (·.value)).getD "") ((portParam.map (·.line)).getD 0)) s
  | some port =>
    let s1 := { s with boundPort := port }
    (redirect_stdin sys s1).andThen fun _ s2 =>
      match bindParams with
      | [] => parseListenConfigParam b sys (port % 4294967296).toNat none s2
      | ps => listenLoop b sys (port % 4294967296).toNat ps s2

/-! ## Event-loop side -/

/-- The macro `FD_SET`; a descriptor set is its membership function. -/
def FD_SET (fd : Int) (fds : Int → Bool) : Int → Bool := fun x => x == fd || fds x

/-- The function `addListenSocketsToFdSet(fds, fdmax)`: the updated `*fds` and `*fdmax`, and the
program state it leaves. -/
def addListenSocketsToFdSet (fds : Int → Bool) (fdmax : Int) (s : State) :
    ((Int → Bool) × Int) × State :=
  ((List.range s.numberOfListenSockets.toNat).foldl
      (fun acc i =>
        (FD_SET (listenSocketAt s i) acc.1,
         if listenSocketAt s i > acc.2 then listenSocketAt s i else acc.2))
      (fds, fdmax),
   s)

def freeAllListenSockets (s : State) : State :=
  { s with numberOfListenSockets := 0, listenSockets := none }

/-- The loop `while (close(fd) < 0 && errno == EINTR) ;`, at most `fuel` calls of `close`. -/
def closeRetry (sys : Sys) (fd : Int) : Nat → State → Option State
  | 0, _ => none
  | fuel + 1, s =>
    let c := sysCall sys (.close fd) s
    if c.1 < 0 ∧ c.2.errno = EINTR then closeRetry sys fd fuel c.2 else some c.2

/-- The `for` loop of `closeAllListenSockets` over the indices still to visit. -/
def closeLoop (sys : Sys) (fuel : Nat) : List Nat → State → Option State
  | [], s => some s
  | i :: rest, s =>
    let s1 := DEBUG ("closing listen socket " ++ toString i ++ "\n") s
    (closeRetry sys (listenSocketAt s1 i) fuel s1).bind (closeLoop sys fuel rest)

/-- The function `closeAllListenSockets`; each retry loop may call `close` at most `fuel` times,
`none` means that a retry loop did not finish within that bound. -/
def closeAllListenSockets (sys : Sys) (fuel : Nat) (s : State) : Option State :=
  let s1 := DEBUG "closeAllListenSockets called\n" s
  (closeLoop sys fuel (List.range s1.numberOfListenSockets.toNat) s1).map freeAllListenSockets

def get_remote_uid (b : Build) (sys : Sys) (fd : Int) (s : State) : Int × State :=
  if b.HAVE_STRUCT_UCRED then
    let call := Call.getsockopt fd .SO_PEERCRED
    let c := sysCall sys call s
    if c.1 < 0 then (0, c.2) else (toInt32 (sys.cred_uid s.trace call), c.2)
  else (-1, s)

/-- One iteration of the loop of `getConnections`; the loop carries `socklen` and the state. -/
def getConnectionsStep (b : Build) (sys : Sys) (fds : Int → Bool) (acc : Nat × State) (i : Nat) :
    Nat × State :=
  if fds (listenSocketAt acc.2 i) then
    let call := Call.accept (listenSocketAt acc.2 i) acc.1
    let c := sysCall sys call acc.2
    if c.1 ≥ 0 then
      let u := get_remote_uid b sys c.1 c.2
      (sys.peer_addrlen acc.2.trace call,
       emit (.client_new c.1 (sys.peer_addr acc.2.trace call) u.1) u.2)
    else if c.2.errno ≠ EAGAIN ∧ c.2.errno ≠ EINTR then
      (acc.1, ERROR "Problems accept()'ing\n" c.2)
    else (acc.1, c.2)
  else acc

def getConnections (b : Build) (sys : Sys) (fds : Int → Bool) (s : State) : State :=
  ((List.range s.numberOfListenSockets.toNat).foldl (getConnectionsStep b sys fds)
    (b.sizeof_sockaddr, s)).2

/-! ## Reading a run off the trace -/

/-- The calls made between state `s` and a later state `t`. -/
def newEvents (s t : State) : List Event := t.trace.drop s.trace.length

/-- The events of a call of `establishListen` that ends in `FATAL`: the failing step is
`socket`, `set_nonblocking`, `setsockopt(SO_REUSEADDR)` or `listen`. -/
def fatalShape (pf : Int) (addr : SockAddr) (len : Nat) (sock : Int) : List Event → Prop
  | [e1] => e1.call = .socket pf ∧ e1.ret = sock ∧ sock < 0
  | [e1, e2] =>
    e1.call = .socket pf ∧ e1.ret = sock ∧ 0 ≤ sock ∧
    e2.call = .set_nonblocking sock ∧ e2.ret < 0
  | [e1, e2, e3] =>
    e1.call = .socket pf ∧ e1.ret = sock ∧ 0 ≤ sock ∧
    e2.call = .set_nonblocking sock ∧ 0 ≤ e2.ret ∧
    e3.call = .setsockopt sock .SO_REUSEADDR ALLOW_REUSE ∧ e3.ret < 0
  | [e1, e2, e3, e4, e5] =>
    e1.call = .socket pf ∧ e1.ret = sock ∧ 0 ≤ sock ∧
    e2.call = .set_nonblocking sock ∧ 0 ≤ e2.ret ∧
    e3.call = .setsockopt sock .SO_REUSEADDR ALLOW_REUSE ∧ 0 ≤ e3.ret ∧
    e4.call = .bind sock addr len ∧ 0 ≤ e4.ret ∧
    e5.call = .listen sock 5 ∧ e5.ret < 0
  | _ => False

/-- The events of a call of `establishListen` whose `bind` fails. -/
def failShape (pf : Int) (addr : SockAddr) (len : Nat) (sock : Int) : List Event → Prop
  | [e1, e2, e3, e4, e5] =>
    e1.call = .socket pf ∧ e1.ret = sock ∧ 0 ≤ sock ∧
    e2.call = .set_nonblocking sock ∧ 0 ≤ e2.ret ∧
    e3.call = .setsockopt sock .SO_REUSEADDR ALLOW_REUSE ∧ 0 ≤ e3.ret ∧
    e4.call = .bind sock addr len ∧ e4.ret < 0 ∧
    e5.call = .close sock
  | _ => False

/-- The events of a call of `establishListen` that registers its socket. -/
def okShape (b : Build) (pf : Int) (addr : SockAddr) (len : Nat) (sock : Int) :
    List Event → Prop
  | [e1, e2, e3, e4, e5] =>
    b.HAVE_STRUCT_UCRED = false ∧
    e1.call = .socket pf ∧ e1.ret = sock ∧ 0 ≤ sock ∧
    e2.call = .set_nonblocking sock ∧ 0 ≤ e2.ret ∧
    e3.call = .setsockopt sock .SO_REUSEADDR ALLOW_REUSE ∧ 0 ≤ e3.ret ∧
    e4.call = .bind sock addr len ∧ 0 ≤ e4.ret ∧
    e5.call = .listen sock 5 ∧ 0 ≤ e5.ret
  | [e1, e2, e3, e4, e5, e6] =>
    b.HAVE_STRUCT_UCRED = true ∧
    e1.call = .socket pf ∧ e1.ret = sock ∧ 0 ≤ sock ∧
    e2.call = .set_nonblocking sock ∧ 0 ≤ e2.ret ∧
    e3.call = .setsockopt sock .SO_REUSEADDR ALLOW_REUSE ∧ 0 ≤ e3.ret ∧
    e4.call = .bind sock addr len ∧ 0 ≤ e4.ret ∧
    e5.call = .listen sock 5 ∧ 0 ≤ e5.ret ∧
    e6.call = .setsockopt sock .SO_PASSCRED 1
  | _ => False

/-- The protocol families of the `socket` calls among `evs`, in order. -/
def socketCalls (evs : List Event) : List Int :=
  evs.filterMap fun e => match e.call with
    | .socket pf => some pf
    | _ => none

/-- The `bind` calls among `evs`, in order: descriptor and address. -/
def bindCalls (evs : List Event) : List (Int × SockAddr) :=
  evs.filterMap fun e => match e.call with
    | .bind sock addr _ => some (sock, addr)
    | _ => none

/-- The steps by which `establishListen` sets a listening socket up. -/
def isSetupCall : Call → Bool
  | .socket _ => true
  | .set_nonblocking _ => true
  | .setsockopt _ .SO_REUSEADDR _ => true
  | .bind _ _ _ => true
  | .listen _ _ => true
  | _ => false

/-- A set-up step that failed. -/
def setupFailed (e : Event) : Bool := isSetupCall e.call && decide (e.ret < 0)

/-- The condition `!param || 0 == strcmp(param->value, "any")`. -/
def isWildcard : Option ConfigParam → Bool
  | none => true
  | some p => decide (p.value = "any")

/-- The `DEBUG` line at the head of the wildcard branch. -/
def wildcardDebug (s0 : State) : Event :=
  { call := .log .DEBUG "binding to any address\n", ret := 0, errno := s0.errno }

/-- The runs of the wildcard branch from state `s0`, by the value of `useIpv6`. -/
inductive WildcardRun (b : Build) (port : Nat) (s0 : State) : Bool → Outcome Unit → Prop where
  | v6Fatal (f : Fatal) (sock : Int) (evs : List Event) (t : State) :
      fatalShape PF_INET6 (.in6 (htons port) in6addr_any) b.sizeof_sockaddr_in6 sock evs →
      t.trace = s0.trace ++ wildcardDebug s0 :: evs →
      registry t = registry s0 → t.numberOfListenSockets = s0.numberOfListenSockets →
      WildcardRun b port s0 true (.fatal f t)
  | v6Failed (sock : Int) (evs : List Event) (t : State) :
      failShape PF_INET6 (.in6 (htons port) in6addr_any) b.sizeof_sockaddr_in6 sock evs →
      t.trace = s0.trace ++ wildcardDebug s0 :: evs →
      registry t = registry s0 → t.numberOfListenSockets = s0.numberOfListenSockets →
      WildcardRun b port s0 true (.fatal (.bind port t.errno) t)
  | v6Ok_v4Fatal (f : Fatal) (sock6 sock4 : Int) (evs6 evs4 : List Event) (t : State) :
      okShape b PF_INET6 (.in6 (htons port) in6addr_any) b.sizeof_sockaddr_in6 sock6 evs6 →
      fatalShape PF_INET (.in4 (htons port) INADDR_ANY) b.sizeof_sockaddr_in sock4 evs4 →
      t.trace = s0.trace ++ wildcardDebug s0 :: (evs6 ++ evs4) →
      registry t = registry s0 ++ [sock6] →
      t.numberOfListenSockets = s0.numberOfListenSockets + 1 →
      WildcardRun b port s0 true (.fatal f t)
  | v6Ok_v4Failed (sock6 sock4 : Int) (evs6 evs4 : List Event) (t : State) :
      okShape b PF_INET6 (.in6 (htons port) in6addr_any) b.sizeof_sockaddr_in6 sock6 evs6 →
      failShape PF_INET (.in4 (htons port) INADDR_ANY) b.sizeof_sockaddr_in sock4 evs4 →
      t.trace = s0.trace ++ wildcardDebug s0 :: (evs6 ++ evs4) →
      registry t = registry s0 ++ [sock6] →
      t.numberOfListenSockets = s0.numberOfListenSockets + 1 →
      WildcardRun b port s0 true (.ret () t)
  | v6Ok_v4Ok (sock6 sock4 : Int) (evs6 evs4 : List Event) (t : State) :
      okShape b PF_INET6 (.in6 (htons port) in6addr_any) b.sizeof_sockaddr_in6 sock6 evs6 →
      okShape b PF_INET (.in4 (htons port) INADDR_ANY) b.sizeof_sockaddr_in sock4 evs4 →
      t.trace = s0.trace ++ wildcardDebug s0 :: (evs6 ++ evs4) →
      registry t = registry s0 ++ [sock6, sock4] →
      t.numberOfListenSockets = s0.numberOfListenSockets + 2 →
      WildcardRun b port s0 true (.ret () t)
  | v4Fatal (f : Fatal) (sock : Int) (evs : List Event) (t : State) :
      fatalShape PF_INET (.in4 (htons port) INADDR_ANY) b.sizeof_sockaddr_in sock evs →
      t.trace = s0.trace ++ wildcardDebug s0 :: evs →
      registry t = registry s0 → t.numberOfListenSockets = s0.numberOfListenSockets →
      WildcardRun b port s0 false (.fatal f t)
  | v4Failed (sock : Int) (evs : List Event) (t : State) :
      failShape PF_INET (.in4 (htons port) INADDR_ANY) b.sizeof_sockaddr_in sock evs →
      t.trace = s0.trace ++ wildcardDebug s0 :: evs →
      registry t = registry s0 → t.numberOfListenSockets = s0.numberOfListenSockets →
      WildcardRun b port s0 false (.fatal (.bind port t.errno) t)
  | v4Ok (sock : Int) (evs : List Event) (t : State) :
      okShape b PF_INET (.in4 (htons port) INADDR_ANY) b.sizeof_sockaddr_in sock evs →
      t.trace = s0.trace ++ wildcardDebug s0 :: evs →
      registry t = registry s0 ++ [sock] →
      t.numberOfListenSockets = s0.numberOfListenSockets + 1 →
      WildcardRun b port s0 false (.ret () t)

/-- An environment in which every call succeeds: `socket` hands out 3, 4, 5, ... and
`ipv6Supported()` answers 1. -/
def sysAllOk : Sys :=
  { ret := fun h c => match c with
      | .socket _ => 3 + (socketCalls h).length
      | .ipv6Supported => 1
      | _ => 0,
    errno := fun _ _ => 0,
    addrinfo := fun _ _ => [],
    peer_addr := fun _ _ => .in4 0 0,
    peer_addrlen := fun _ _ => 16,
    cred_uid := fun _ _ => 1000 }

/-- An environment in which binding an IPv6 address is refused (errno 98, address in use)
and every other call succeeds; `ipv6Supported()` answers 1. -/
def sysV6BindFails : Sys :=
  { ret := fun h c => match c with
      | .socket _ => 3 + (socketCalls h).length
      | .ipv6Supported => 1
      | .bind _ (.in6 _ _) _ => -1
      | _ => 0,
    errno := fun _ _ => 98,
    addrinfo := fun _ _ => [],
    peer_addr := fun _ _ => .in4 0 0,
    peer_addrlen := fun _ _ => 16,
    cred_uid := fun _ _ => 1000 }

/-- An environment without IPv6 in which binding an IPv4 address is refused. -/
def sysV4Only_bindFails : Sys :=
  { ret := fun h c => match c with
      | .socket _ => 3 + (socketCalls h).length
      | .ipv6Supported => 0
      | .bind _ (.in4 _ _) _ => -1
      | _ => 0,
    errno := fun _ _ => 98,
    addrinfo := fun _ _ => [],
    peer_addr := fun _ _ => .in4 0 0,
    peer_addrlen := fun _ _ => 16,
    cred_uid := fun _ _ => 1000 }

/-- An environment with IPv6 in which binding an IPv4 address is refused (as happens on a
dual-stack host once the IPv6 wildcard socket holds the port). -/
def sysV4BindFails : Sys :=
  { ret := fun h c => match c with
      | .socket _ => 3 + (socketCalls h).length
      | .ipv6Supported => 1
      | .bind _ (.in4 _ _) _ => -1
      | _ => 0,
    errno := fun _ _ => 98,
    addrinfo := fun _ _ => [],
    peer_addr := fun _ _ => .in4 0 0,
    peer_addrlen := fun _ _ => 16,
    cred_uid := fun _ _ => 1000 }

/-- The steps of `establishListen` whose failure is answered with `FATAL`. -/
def isFatalStep : Call → Bool
  | .socket _ => true
  | .set_nonblocking _ => true
  | .setsockopt _ .SO_REUSEADDR _ => true
  | .listen _ _ => true
  | _ => false

/-- The integer a text denotes, read as the spec words it (white space, an optional sign, decimal
digits) with no machine limit on the value, and the text after the digits; `none` when there is
no digit to read. -/
def readInteger (cs : List Char) : Option (Int × List Char) :=
  let t := cs.dropWhile isspace
  let neg : Bool := t.head? == some '-'
  let u := if t.head? == some '-' || t.head? == some '+' then t.tail else t
  let ds := u.takeWhile isdigit
  if ds = [] then none
  else some (if neg then -(decimalValue ds : Int) else (decimalValue ds : Int), u.dropWhile isdigit)

/-- The spec's condition on the port entry: the text parses in full as a positive integer, that
is, its value is positive and no content follows the number. -/
def parsesAsPositiveInteger (str : String) : Bool :=
  match readInteger str.data with
  | some (v, rest) => decide (0 < v) && rest.isEmpty
  | none => false

/-- The descriptor two consecutive calls establish: a `bind` that succeeded followed by a
`listen` with backlog 5 on the same descriptor that succeeded. -/
def establishedBy (e1 e2 : Event) : Option Int :=
  match e1.call, e2.call with
  | .bind sock _ _, .listen sock2 backlog =>
    if sock = sock2 ∧ backlog = 5 ∧ 0 ≤ e1.ret ∧ 0 ≤ e2.ret then some sock else none
  | _, _ => none

/-- The descriptors whose `bind()` and `listen(sock, 5)` both succeeded, in trace order. -/
def established : List Event → List Int
  | [] => []
  | [_] => []
  | e1 :: e2 :: rest => (establishedBy e1 e2).toList ++ established (e2 :: rest)

/-- The arguments of one call of `establishListen`. -/
structure BindTarget where
  pf : Int
  addr : SockAddr
  addrlen : Nat
deriving DecidableEq, Repr

/-- A sequence of calls of `establishListen`, which ends early if the process is terminated:
the values the calls returned, and the outcome of the sequence. -/
def establishAll (b : Build) (sys : Sys) : List BindTarget → State → List Int × Outcome Unit
  | [], s => ([], .ret () s)
  | c :: cs, s =>
    match establishListen b sys c.pf c.addr c.addrlen s with
    | .fatal f t => ([], .fatal f t)
    | .ret r t => (r :: (establishAll b sys cs t).1, (establishAll b sys cs t).2)

/-- The `close` calls among `evs`, in order. -/
def closeCalls (evs : List Event) : List Event :=
  evs.filter fun e => match e.call with
    | .close _ => true
    | _ => false

/-- The events `es` close the descriptors `fds` in order, each by a run of `close` calls on it of
which all but the last failed with `EINTR` and the last did not. -/
def closesWithRetry : List Int → List Event → Bool
  | [], [] => true
  | [], _ :: _ => false
  | _ :: _, [] => false
  | fd :: fds, e :: es =>
    decide (e.call = .close fd) &&
      (if e.ret < 0 ∧ e.errno = EINTR then closesWithRetry (fd :: fds) es
       else closesWithRetry fds es)

/-- An environment in which every `close` is interrupted once: it fails with `EINTR` unless the
call before it was a `close` that failed; all other calls succeed. -/
def sysCloseInterrupted : Sys :=
  { ret := fun h c => match c with
      | .close _ =>
        match h.getLast? with
        | some e => if e.call = c ∧ e.ret < 0 then 0 else -1
        | none => -1
      | _ => 0,
    errno := fun _ _ => EINTR,
    addrinfo := fun _ _ => [],
    peer_addr := fun _ _ => .in4 0 0,
    peer_addrlen := fun _ _ => 16,
    cred_uid := fun _ _ => 1000 }

/-- A state whose registry holds the descriptors 3 and 4. -/
def stateTwoSockets : State :=
  { listenSockets := some [3, 4], numberOfListenSockets := 2, boundPort := 6600, errno := 0,
    trace := [] }

/-- The descriptors handed to `client_new` among `evs`, in order. -/
def clientNewFds (evs : List Event) : List Int :=
  evs.filterMap fun e => match e.call with
    | .client_new fd _ _ => some fd
    | _ => none

/-- The lines logged with `ERROR` among `evs`. -/
def errorLogs (evs : List Event) : List Event :=
  evs.filter fun e => match e.call with
    | .log .ERROR _ => true
    | _ => false

/-- The listening sockets on which `accept` is called among `evs`, in order. -/
def acceptedOn (evs : List Event) : List Int :=
  evs.filterMap fun e => match e.call with
    | .accept sock _ => some sock
    | _ => none

/-- The events one readable registry entry `fd` contributes to a pass of `getConnections`:
one `accept` on `fd`, followed by the calls that answer its result. -/
def acceptBlock (fd : Int) (blk : List Event) : Prop :=
  ∃ e seg, blk = e :: seg ∧ (∃ len, e.call = .accept fd len) ∧
    acceptedOn seg = [] ∧
    (0 ≤ e.ret → clientNewFds seg = [e.ret] ∧ errorLogs seg = []) ∧
    (e.ret < 0 → clientNewFds seg = [] ∧
      ((e.errno = EAGAIN ∨ e.errno = EINTR) → seg = []) ∧
      (¬ (e.errno = EAGAIN ∨ e.errno = EINTR) →
        seg = [{ call := .log .ERROR "Problems accept()'ing\n", ret := 0, errno := e.errno }]))

/-- The events of one iteration of the loop of `getConnections` for the entry `fd`. -/
def passBlock (fds : Int → Bool) (fd : Int) (blk : List Event) : Prop :=
  if fds fd = true then acceptBlock fd blk else blk = []

/-- The descriptors the successful `accept` calls among `evs` returned, in order. -/
def acceptedFds (evs : List Event) : List Int :=
  evs.filterMap fun e => match e.call with
    | .accept _ _ => if 0 ≤ e.ret then some e.ret else none
    | _ => none

/-- The `accept` calls among `evs` that failed with an `errno` other than `EAGAIN` and
`EINTR`. -/
def hardAcceptFailures (evs : List Event) : List Event :=
  evs.filter fun e => match e.call with
    | .accept _ _ => decide (e.ret < 0 ∧ ¬ (e.errno = EAGAIN ∨ e.errno = EINTR))
    | _ => false

/-- An environment for the event loop: `accept` on descriptor 3 fails with `EAGAIN`, on 4 it
fails with errno 24 (too many open files), on any other descriptor it returns a fresh descriptor
(7, 8, ...) and writes back 28, the length of the IPv6 address of the peer;
`getsockopt(SO_PEERCRED)` fails. -/
def sysAcceptMixed : Sys :=
  { ret := fun h c => match c with
      | .accept 3 _ => -1
      | .accept 4 _ => -1
      | .accept _ _ => 7 + (acceptedFds h).length
      | .getsockopt _ _ => -1
      | _ => 0,
    errno := fun _ c => match c with
      | .accept 3 _ => EAGAIN
      | .accept 4 _ => 24
      | _ => 92,
    addrinfo := fun _ _ => [],
    peer_addr := fun _ _ => .in6 40000 1,
    peer_addrlen := fun _ _ => 28,
    cred_uid := fun _ _ => 1000 }

/-- A state whose registry holds the descriptors 3, 4, 5 and 6. -/
def stateFourSockets : State :=
  { listenSockets := some [3, 4, 5, 6], numberOfListenSockets := 4, boundPort := 6600,
    errno := 0, trace := [] }

/-- A state whose registry holds the descriptors 5 and 6. -/
def stateFiveSix : State :=
  { listenSockets := some [5, 6], numberOfListenSockets := 2, boundPort := 6600, errno := 0,
    trace := [] }

/-- The user ids handed to `client_new` among `evs`, in order. -/
def clientNewUids (evs : List Event) : List Int :=
  evs.filterMap fun e => match e.call with
    | .client_new _ _ uid => some uid
    | _ => none

/-- The address lengths given to `accept` among `evs`, in order. -/
def acceptAddrlens (evs : List Event) : List Nat :=
  evs.filterMap fun e => match e.call with
    | .accept _ len => some len
    | _ => none

/-- The calls `establishListen` can make. -/
def isEstablishCall : Call → Bool
  | .socket _ => true
  | .set_nonblocking _ => true
  | .setsockopt _ _ _ => true
  | .bind _ _ _ => true
  | .listen _ _ => true
  | .close _ => true
  | _ => false

/-- A path of 108 characters, the size of `sun_path` on Linux. -/
def path108 : String := String.mk ('/' :: List.replicate 107 'a')

/-- The `chmod` calls among `evs`, in order: path and mode. -/
def chmodCalls (evs : List Event) : List (String × Nat) :=
  evs.filterMap fun e => match e.call with
    | .chmod path mode => some (path, mode)
    | _ => none

/-- The `getaddrinfo` calls among `evs`, in order: node and service. -/
def lookupCalls (evs : List Event) : List (String × String) :=
  evs.filterMap fun e => match e.call with
    | .getaddrinfo node service => some (node, service)
    | _ => none

/-- The calls made when `parseListenConfigParam` reaches `getaddrinfo` for the entry `p`. -/
def hostLookupTrace (b : Build) (sys : Sys) (p : ConfigParam) (s : State) : List Event :=
  (DEBUG ("binding to address for " ++ p.value ++ "\n") (initUseIpv6 b sys s).2).trace

/-- From state `s` to state `t` the program has only made calls and appended sockets to the
registry: `boundPort` is unchanged. -/
def Frame (s t : State) : Prop :=
  ∃ socks evs, registry t = registry s ++ socks ∧
    t.numberOfListenSockets = s.numberOfListenSockets + socks.length ∧
    t.boundPort = s.boundPort ∧ t.trace = s.trace ++ evs

/-- An outcome reached from `s` by calls and registrations only, whose fatal error, if any, is
not the port configuration error. -/
def Outcome.Good {α : Type} (s : State) (o : Outcome α) : Prop :=
  Frame s o.state ∧ ∀ v l, o.fatal? ≠ some (.port v l)

/-- The entries `listenOnPort` resolves: the configured ones, or the absent entry once when
none is configured. -/
def entriesOf (bindParams : List ConfigParam) : List (Option ConfigParam) :=
  match bindParams with
  | [] => [none]
  | ps => ps.map some

/-- Resolving the entries one after the other with the same port, until the process is
terminated. -/
def runEntries (b : Build) (sys : Sys) (port : Nat) :
    List (Option ConfigParam) → State → Outcome Unit
  | [], s => .ret () s
  | e :: es, s =>
    (parseListenConfigParam b sys port e s).andThen fun _ s1 => runEntries b sys port es s1

/-- The sockets each entry contributes: what its resolution appends to the registry it found;
the list ends with the entry at which the process is terminated, if there is one. -/
def entrySockets (b : Build) (sys : Sys) (port : Nat) :
    List (Option ConfigParam) → State → List (List Int)
  | [], _ => []
  | e :: es, s =>
    (registry (parseListenConfigParam b sys port e s).state).drop (registry s).length ::
      (if (parseListenConfigParam b sys port e s).isFatal then []
       else entrySockets b sys port es (parseListenConfigParam b sys port e s).state)

/-! ## Key definitions of `conf.c` -/

/-- The states of the key parser. -/
inductive key_parser_state_t where
  | KEY_PARSER_UNKNOWN
  | KEY_PARSER_CHAR
  | KEY_PARSER_DEC
  | KEY_PARSER_HEX
  | KEY_PARSER_DONE
deriving DecidableEq, Repr

/-- The byte `str[i]` of a text in memory: the list holds the `char` values from `str` on, and
what lies behind it reads as NUL. -/
def charAt (str : List Int) (i : Nat) : Int := str.getD i 0

/-- The libc function `strlen`: the number of `char`s before the first NUL. -/
def strlen (str : List Int) : Nat := (str.takeWhile fun c => c ≠ 0).length

/-- The C-locale `isspace` on a `char` value. -/
def Conf.isspace (c : Int) : Bool := c = 32 || (9 ≤ c && c ≤ 13)

/-- The C-locale `isdigit` on a `char` value. -/
def Conf.isdigit (c : Int) : Bool := 48 ≤ c && c ≤ 57

/-- The value of `c` as a digit of `strtol`: '0'..'9', 'a'..'z' and 'A'..'Z' stand for 0..35. -/
def Conf.digitValue (c : Int) : Option Nat :=
  if 48 ≤ c ∧ c ≤ 57 then some (c - 48).toNat
  else if 97 ≤ c ∧ c ≤ 122 then some (c - 87).toNat
  else if 65 ≤ c ∧ c ≤ 90 then some (c - 55).toNat
  else none

/-- The longest run of digits of the base at the head of a text, as digit values. -/
def Conf.takeDigits (base : Nat) : List Int → List Nat
  | [] => []
  | c :: cs =>
    match Conf.digitValue c with
    | some d => if d < base then d :: Conf.takeDigits base cs else []
    | none => []

/-- The value of a run of digits in the base. -/
def Conf.valueOf (base : Nat) (ds : List Nat) : Nat := ds.foldl (fun a d => a * base + d) 0

/-- The libc function `strtol(nptr, &end, base)` for base 10 or 16 with a 64-bit `long`: skip
white space, take an optional sign, for base 16 an optional "0x" or "0X" that a hexadecimal
digit follows, and the longest run of digits; the value is clamped to the range of `long`.
Returns the value and the number of `char`s from `nptr` to `*end` (0 when there is no digit). -/
def Conf.strtol (nptr : List Int) (base : Nat) : Int × Nat :=
  let ws := (nptr.takeWhile Conf.isspace).length
  let t := nptr.drop ws
  let neg : Bool := charAt t 0 = 45
  let sign : Nat := if charAt t 0 = 45 ∨ charAt t 0 = 43 then 1 else 0
  let u := t.drop sign
  let pre : Nat :=
    if base = 16 ∧ charAt u 0 = 48 ∧ (charAt u 1 = 120 ∨ charAt u 1 = 88) ∧
        Conf.takeDigits 16 (u.drop 2) ≠ [] then 2 else 0
  let ds := Conf.takeDigits base (u.drop pre)
  if ds = [] then (0, 0) else
  let v : Int := if neg then -(Conf.valueOf base ds : Int) else (Conf.valueOf base ds : Int)
  (max LONG_MIN (min LONG_MAX v), ws + sign + pre + ds.length)

/-- The `while` loop of `parse_key_value` from the values `i`, `value`, `state` and `*end` (the
latter as an offset from `str`); the first argument counts the iterations that may still be
made and is `len - i`.  An early `return -1` is `.error` with `*end` as it stands, leaving the
loop is `.ok`. -/
def parse_key_value_loop (str : List Int) (len : Nat) :
    Nat → Nat → Int → key_parser_state_t → Nat → Except (Int × Nat) (Int × Nat)
  | 0, _, value, _, e => .ok (value, e)
  | n + 1, i, value, state, e =>
    if i < len ∧ state ≠ .KEY_PARSER_DONE then
      let c : Int := charAt str i
      let next : Int := if i + 1 < len then charAt str (i + 1) else 0
      match state with
      | .KEY_PARSER_UNKNOWN =>
        if c = 39 then parse_key_value_loop str len n (i + 1) value .KEY_PARSER_CHAR e
        else if c = 48 ∧ next = 120 then
          parse_key_value_loop str len n (i + 1) value .KEY_PARSER_HEX e
        else if Conf.isdigit c then
          parse_key_value_loop str len n (i + 1) value .KEY_PARSER_DEC e
        else .error (-1, e)
      | .KEY_PARSER_CHAR =>
        if next ≠ 39 then .error (-1, e)
        else parse_key_value_loop str len n (i + 1) c .KEY_PARSER_DONE (i + 2)
      | .KEY_PARSER_DEC =>
        let r := Conf.strtol (str.drop (i - 1)) 10
        parse_key_value_loop str len n (i + 1) (toInt32 r.1) .KEY_PARSER_DONE (i - 1 + r.2)
      | .KEY_PARSER_HEX =>
        if ¬ Conf.isdigit next then .error (-1, e)
        else
          let r := Conf.strtol (str.drop (i + 1)) 16
          parse_key_value_loop str len n (i + 1) (toInt32 r.1) .KEY_PARSER_DONE (i + 1 + r.2)
      | .KEY_PARSER_DONE => parse_key_value_loop str len n (i + 1) value state e
    else .ok (value, e)

/-- The function `parse_key_value(str, len, &end)`: the value returned and `*end` as an offset
from `str`. -/
def parse_key_value (str : List Int) (len : Nat) : Int × Nat :=
  match parse_key_value_loop str len len 0 0 .KEY_PARSER_UNKNOWN 0 with
  | .error r => r
  | .ok (value, e) => (value, if e > len then len else e)

/-- The `char` values of an ASCII text. -/
def keyText (s : String) : List Int := s.data.map fun c => (c.toNat : Int)

/-- The port number a socket address holds, if its family has one. -/
def SockAddr.port : SockAddr → Option Nat
  | .in4 p _ => some p
  | .in6 p _ => some p
  | _ => none

/-- An environment whose resolver answers a lookup for a numeric service as the libc does: an
IPv6 and an IPv4 address whose 16-bit port field holds the low 16 bits of the service number;
every other call succeeds. -/
def sysServiceResolver : Sys :=
  { ret := fun h c => match c with
      | .socket _ => 3 + (socketCalls h).length
      | .ipv6Supported => 1
      | _ => 0,
    errno := fun _ _ => 0,
    addrinfo := fun _ c => match c with
      | .getaddrinfo _ service =>
        [⟨PF_INET6, .in6 (decimalValue service.data % 65536) 1, 28⟩,
         ⟨PF_INET, .in4 (decimalValue service.data % 65536) 2130706433, 16⟩]
      | _ => [],
    peer_addr := fun _ _ => .in4 0 0,
    peer_addrlen := fun _ _ => 16,
    cred_uid := fun _ _ => 1000 }

/-! ## Basic facts -/

@[simp] theorem sysCall_fst (sys : Sys) (c : Call) (s : State) :
    (sysCall sys c s).1 = sys.ret s.trace c := rfl

@[simp] theorem sysCall_listenSockets (sys : Sys) (c : Call) (s : State) :
    (sysCall sys c s).2.listenSockets = s.listenSockets := rfl

@[simp] theorem sysCall_numberOfListenSockets (sys : Sys) (c : Call) (s : State) :
    (sysCall sys c s).2.numberOfListenSockets = s.numberOfListenSockets := rfl

@[simp] theorem sysCall_boundPort (sys : Sys) (c : Call) (s : State) :
    (sysCall sys c s).2.boundPort = s.boundPort := rfl

theorem sysCall_trace (sys : Sys) (c : Call) (s : State) :
    (sysCall sys c s).2.trace =
      s.trace ++ [{ call := c, ret := sys.ret s.trace c, errno := (sysCall sys c s).2.errno }] :=
  rfl

@[simp] theorem emit_listenSockets (c : Call) (s : State) :
    (emit c s).listenSockets = s.listenSockets := rfl

@[simp] theorem emit_numberOfListenSockets (c : Call) (s : State) :
    (emit c s).numberOfListenSockets = s.numberOfListenSockets := rfl

@[simp] theorem emit_boundPort (c : Call) (s : State) : (emit c s).boundPort = s.boundPort := rfl

@[simp] theorem emit_errno (c : Call) (s : State) : (emit c s).errno = s.errno := rfl

theorem emit_trace (c : Call) (s : State) :
    (emit c s).trace = s.trace ++ [{ call := c, ret := 0, errno := s.errno }] := rfl

/-- The registry depends only on the two registry variables. -/
theorem registry_congr {s t : State} (h1 : t.listenSockets = s.listenSockets)
    (h2 : t.numberOfListenSockets = s.numberOfListenSockets) : registry t = registry s := by
  unfold registry listenSocketAt
  rw [h1, h2]

theorem newEvents_append (s t : State) (evs : List Event) (h : t.trace = s.trace ++ evs) :
    newEvents s t = evs := by
  unfold newEvents
  rw [h, List.drop_left]

/-- Growing the array by one cell and storing `sock` in it appends `sock` to the registry. -/
theorem registry_push (s t : State) (sock : Int) (hn : 0 ≤ s.numberOfListenSockets)
    (hc : t.numberOfListenSockets = s.numberOfListenSockets + 1)
    (ha : t.listenSockets =
      some ((xrealloc s.listenSockets (s.numberOfListenSockets + 1).toNat).set
        (s.numberOfListenSockets + 1 - 1).toNat sock)) :
    registry t = registry s ++ [sock] := by
  obtain ⟨n, hn'⟩ := Int.eq_ofNat_of_zero_le hn
  have h1 : (s.numberOfListenSockets + 1).toNat = n + 1 := by omega
  have h2 : (s.numberOfListenSockets + 1 - 1).toNat = n := by omega
  have h3 : s.numberOfListenSockets.toNat = n := by omega
  unfold registry listenSocketAt
  rw [ha, hc, h1, h2, h3, List.range_succ, List.map_append]
  congr 1
  · apply List.map_congr_left
    intro i hi
    have hi' : i < n := List.mem_range.mp hi
    simp only [Option.getD_some, List.getD_eq_getElem?_getD, xrealloc]
    rw [List.getElem?_set_ne (by omega)]
    by_cases hlen : i < (s.listenSockets.getD []).length
    · rw [List.getElem?_append_left (by simp; omega)]
      rw [List.getElem?_take_of_lt (by omega)]
    · rw [List.getElem?_append_right (by simp; omega)]
      have : (s.listenSockets.getD [])[i]? = none := List.getElem?_eq_none (by omega)
      rw [this]
      simp
  · simp only [Option.getD_some, List.getD_eq_getElem?_getD, xrealloc, List.map_cons,
      List.map_nil]
    rw [List.getElem?_set_eq_of_lt _ (by simp; omega)]
    rfl

/-- Every outcome of `establishListen`, with the calls it made. -/
theorem establishListen_spec (b : Build) (sys : Sys) (pf : Int) (addr : SockAddr) (len : Nat)
    (s : State) :
    ∃ (sock : Int) (evs : List Event) (t : State),
      t.trace = s.trace ++ evs ∧ t.boundPort = s.boundPort ∧
      ((∃ f, establishListen b sys pf addr len s = .fatal f t ∧
          fatalShape pf addr len sock evs ∧
          t.listenSockets = s.listenSockets ∧
          t.numberOfListenSockets = s.numberOfListenSockets) ∨
       (establishListen b sys pf addr len s = .ret (-1) t ∧
          failShape pf addr len sock evs ∧
          t.listenSockets = s.listenSockets ∧
          t.numberOfListenSockets = s.numberOfListenSockets) ∨
       (establishListen b sys pf addr len s = .ret 0 t ∧
          okShape b pf addr len sock evs ∧
          t.numberOfListenSockets = s.numberOfListenSockets + 1 ∧
          t.listenSockets =
            some ((xrealloc s.listenSockets (s.numberOfListenSockets + 1).toNat).set
              (s.numberOfListenSockets + 1 - 1).toNat sock))) := by
  refine ⟨sys.ret s.trace (.socket pf),
    newEvents s (establishListen b sys pf addr len s).state,
    (establishListen b sys pf addr len s).state, ?_⟩
  unfold establishListen
  simp only []
  split_ifs with h1 h2 h3 h4 h5 h6 <;>
    simp [Outcome.state, newEvents, sysCall, fatalShape, failShape, okShape] at * <;>
    simp [*]

/-- The outcomes of `establishListen` in terms of the registry. -/
theorem establishListen_registry (b : Build) (sys : Sys) (pf : Int) (addr : SockAddr) (len : Nat)
    (s : State) (hn : 0 ≤ s.numberOfListenSockets) :
    ∃ (sock : Int) (evs : List Event) (t : State),
      t.trace = s.trace ++ evs ∧ t.boundPort = s.boundPort ∧
      ((∃ f, establishListen b sys pf addr len s = .fatal f t ∧
          fatalShape pf addr len sock evs ∧ registry t = registry s ∧
          t.numberOfListenSockets = s.numberOfListenSockets) ∨
       (establishListen b sys pf addr len s = .ret (-1) t ∧
          failShape pf addr len sock evs ∧ registry t = registry s ∧
          t.numberOfListenSockets = s.numberOfListenSockets) ∨
       (establishListen b sys pf addr len s = .ret 0 t ∧
          okShape b pf addr len sock evs ∧ registry t = registry s ++ [sock] ∧
          t.numberOfListenSockets = s.numberOfListenSockets + 1)) := by
  obtain ⟨sock, evs, t, htr, hbp, h⟩ := establishListen_spec b sys pf addr len s
  refine ⟨sock, evs, t, htr, hbp, ?_⟩
  rcases h with ⟨f, heq, hsh, ha, hc⟩ | ⟨heq, hsh, ha, hc⟩ | ⟨heq, hsh, hc, ha⟩
  · exact Or.inl ⟨f, heq, hsh, registry_congr ha hc, hc⟩
  · exact Or.inr (Or.inl ⟨heq, hsh, registry_congr ha hc, hc⟩)
  · exact Or.inr (Or.inr ⟨heq, hsh, registry_push s t sock hn hc ha, hc⟩)

theorem DEBUG_trace (msg : String) (s : State) :
    (DEBUG msg s).trace = s.trace ++ [{ call := .log .DEBUG msg, ret := 0, errno := s.errno }] :=
  rfl

theorem registry_DEBUG (msg : String) (s : State) : registry (DEBUG msg s) = registry s :=
  registry_congr rfl rfl

/-- Every run of the wildcard branch of a TCP build is one of the runs of `WildcardRun`. -/
theorem wildcardBind_run (b : Build) (sys : Sys) (port : Nat) (useIpv6 : Bool) (s0 : State)
    (htcp : b.HAVE_TCP = true) (hn : 0 ≤ s0.numberOfListenSockets) :
    WildcardRun b port s0 useIpv6 (wildcardBind b sys port useIpv6 s0) := by
  unfold wildcardBind
  simp only [htcp, if_true]
  have hn1 : 0 ≤ (DEBUG "binding to any address\n" s0).numberOfListenSockets := hn
  cases useIpv6
  · -- only the IPv4 attempt
    obtain ⟨sock, evs, t, htr, -, h⟩ :=
      establishListen_registry b sys PF_INET (.in4 (htons port) INADDR_ANY)
        b.sizeof_sockaddr_in _ hn1
    rw [DEBUG_trace, List.append_assoc] at htr
    rw [registry_DEBUG] at h
    rcases h with ⟨f, heq, hsh, hr, hc⟩ | ⟨heq, hsh, hr, hc⟩ | ⟨heq, hsh, hr, hc⟩
    · simp only [Bool.false_eq_true, if_false, Outcome.andThen, heq]
      exact .v4Fatal f sock evs t hsh htr hr hc
    · simp [Outcome.andThen, heq, BINDERROR]
      exact .v4Failed sock evs t hsh htr hr hc
    · simp [Outcome.andThen, heq]
      exact .v4Ok sock evs t hsh htr hr hc
  · obtain ⟨sock6, evs6, t6, htr6, -, h6⟩ :=
      establishListen_registry b sys PF_INET6 (.in6 (htons port) in6addr_any)
        b.sizeof_sockaddr_in6 _ hn1
    rw [DEBUG_trace, List.append_assoc] at htr6
    rw [registry_DEBUG] at h6
    rcases h6 with ⟨f, heq, hsh, hr, hc⟩ | ⟨heq, hsh, hr, hc⟩ | ⟨heq, hsh, hr, hc⟩
    · simp only [if_true, Outcome.andThen, heq]
      exact .v6Fatal f sock6 evs6 t6 hsh htr6 hr hc
    · simp [Outcome.andThen, heq, BINDERROR]
      exact .v6Failed sock6 evs6 t6 hsh htr6 hr hc
    · change t6.numberOfListenSockets = s0.numberOfListenSockets + 1 at hc
      have hn6 : 0 ≤ t6.numberOfListenSockets := by
        rw [hc]; exact Int.add_nonneg hn (by decide)
      obtain ⟨sock4, evs4, t4, htr4, -, h4⟩ :=
        establishListen_registry b sys PF_INET (.in4 (htons port) INADDR_ANY)
          b.sizeof_sockaddr_in t6 hn6
      have htr : t4.trace = s0.trace ++ wildcardDebug s0 :: (evs6 ++ evs4) := by
        rw [htr4, htr6]; simp [wildcardDebug]
      rcases h4 with ⟨f, heq4, hsh4, hr4, hc4⟩ | ⟨heq4, hsh4, hr4, hc4⟩ | ⟨heq4, hsh4, hr4, hc4⟩
      · simp [Outcome.andThen, heq, heq4]
        exact .v6Ok_v4Fatal f sock6 sock4 evs6 evs4 t4 hsh hsh4 htr (by rw [hr4, hr])
          (by rw [hc4, hc])
      · simp [Outcome.andThen, heq, heq4]
        exact .v6Ok_v4Failed sock6 sock4 evs6 evs4 t4 hsh hsh4 htr (by rw [hr4, hr])
          (by rw [hc4, hc])
      · simp [Outcome.andThen, heq, heq4]
        exact .v6Ok_v4Ok sock6 sock4 evs6 evs4 t4 hsh hsh4 htr (by rw [hr4, hr]; simp)
          (by rw [hc4, hc]; ring)

/-! ## What the shapes say about the trace readers -/

theorem fatalShape_facts {pf : Int} {addr : SockAddr} {len : Nat} {sock : Int}
    {evs : List Event} (h : fatalShape pf addr len sock evs) :
    socketCalls evs = [pf] ∧ (∃ e ∈ evs, setupFailed e = true) ∧
    (∀ e ∈ evs, ∀ k a l, e.call = .bind k a l → 0 ≤ e.ret) ∧
    (∀ e ∈ evs, ∀ k a l, e.call = .bind k a l → k = sock ∧ a = addr ∧ l = len) := by
  unfold fatalShape at h
  split at h
  · obtain ⟨h1, h2, h3⟩ := h
    simp [socketCalls, setupFailed, isSetupCall, h1, h2, h3]
  · obtain ⟨h1, h2, h3, h4, h5⟩ := h
    simp [socketCalls, setupFailed, isSetupCall, h1, h2, h3, h4, h5]
  · obtain ⟨h1, h2, h3, h4, h5, h6, h7⟩ := h
    simp [socketCalls, setupFailed, isSetupCall, h1, h2, h3, h4, h5, h6, h7]
  · obtain ⟨h1, h2, h3, h4, h5, h6, h7, h8, h9, h10, h11⟩ := h
    simp [socketCalls, setupFailed, isSetupCall, h1, h2, h3, h4, h5, h6, h7, h8, h9, h10, h11]
  · exact h.elim

theorem failShape_facts {pf : Int} {addr : SockAddr} {len : Nat} {sock : Int}
    {evs : List Event} (h : failShape pf addr len sock evs) :
    socketCalls evs = [pf] ∧ bindCalls evs = [(sock, addr)] ∧
    (∃ e ∈ evs, setupFailed e = true) ∧
    (∃ e ∈ evs, e.call = .bind sock addr len ∧ e.ret < 0) ∧
    (∀ e ∈ evs, ∀ k a l, e.call = .bind k a l → e.ret < 0) ∧
    (∀ e ∈ evs, ∀ k n, e.call ≠ .listen k n) ∧
    (∀ e ∈ evs, ∀ k a l, e.call = .bind k a l → k = sock ∧ a = addr ∧ l = len) := by
  unfold failShape at h
  split at h
  · obtain ⟨h1, h2, h3, h4, h5, h6, h7, h8, h9, h10⟩ := h
    simp [socketCalls, bindCalls, setupFailed, isSetupCall, h1, h2, h3, h4, h5, h6, h7, h8, h9,
      h10]
  · exact h.elim

theorem okShape_facts {b : Build} {pf : Int} {addr : SockAddr} {len : Nat} {sock : Int}
    {evs : List Event} (h : okShape b pf addr len sock evs) :
    socketCalls evs = [pf] ∧ bindCalls evs = [(sock, addr)] ∧
    (∀ e ∈ evs, setupFailed e = false) ∧
    (∃ e ∈ evs, e.call = .bind sock addr len ∧ 0 ≤ e.ret) ∧
    (∃ e ∈ evs, e.call = .listen sock 5 ∧ 0 ≤ e.ret) ∧
    (∀ e ∈ evs, ∀ k a l, e.call = .bind k a l → 0 ≤ e.ret) ∧
    (∀ e ∈ evs, ∀ k a l, e.call = .bind k a l → k = sock ∧ a = addr ∧ l = len) := by
  unfold okShape at h
  split at h
  · obtain ⟨h0, h1, h2, h3, h4, h5, h6, h7, h8, h9, h10, h11⟩ := h
    simp [socketCalls, bindCalls, setupFailed, isSetupCall, h1, h2, h3, h4, h5, h6, h7, h8, h9,
      h10, h11]
  · obtain ⟨h0, h1, h2, h3, h4, h5, h6, h7, h8, h9, h10, h11, h12⟩ := h
    simp [socketCalls, bindCalls, setupFailed, isSetupCall, h1, h2, h3, h4, h5, h6, h7, h8, h9,
      h10, h11, h12]
  · exact h.elim

theorem htons_mod (port : Nat) : htons (port % 4294967296) = htons port := by
  unfold htons
  omega

/-- The declarations at the top of `parseListenConfigParam` make at most the call
`ipv6Supported()` and leave the registry alone. -/
theorem initUseIpv6_facts (b : Build) (sys : Sys) (s : State) :
    ∃ pre, (initUseIpv6 b sys s).2.trace = s.trace ++ pre ∧
      (pre = [] ∨ ∃ e, pre = [e] ∧ e.call = .ipv6Supported) ∧
      registry (initUseIpv6 b sys s).2 = registry s ∧
      (initUseIpv6 b sys s).2.numberOfListenSockets = s.numberOfListenSockets ∧
      (initUseIpv6 b sys s).2.listenSockets = s.listenSockets := by
  unfold initUseIpv6
  split_ifs with h
  · exact ⟨_, sysCall_trace _ _ _, Or.inr ⟨_, rfl, rfl⟩, registry_congr rfl rfl, rfl, rfl⟩
  · exact ⟨[], by simp, Or.inl rfl, rfl, rfl, rfl⟩

/-- On a wildcard entry `parseListenConfigParam` runs the wildcard branch. -/
theorem parseListenConfigParam_wildcard (b : Build) (sys : Sys) (port : Nat)
    (param : Option ConfigParam) (s : State) (hany : isWildcard param = true) :
    parseListenConfigParam b sys port param s =
      wildcardBind b sys (port % 4294967296) (initUseIpv6 b sys s).1 (initUseIpv6 b sys s).2 := by
  unfold parseListenConfigParam
  cases param with
  | none => rfl
  | some p =>
    have hp : p.value = "any" := by simpa [isWildcard] using hany
    simp only [hp, if_true]

theorem socketCalls_append (a c : List Event) :
    socketCalls (a ++ c) = socketCalls a ++ socketCalls c := by
  unfold socketCalls
  exact List.filterMap_append _ _ _

theorem bindCalls_append (a c : List Event) :
    bindCalls (a ++ c) = bindCalls a ++ bindCalls c := by
  unfold bindCalls
  exact List.filterMap_append _ _ _

theorem socketCalls_wildcardDebug (s0 : State) (evs : List Event) :
    socketCalls (wildcardDebug s0 :: evs) = socketCalls evs := by
  simp [socketCalls, wildcardDebug]

theorem bindCalls_wildcardDebug (s0 : State) (evs : List Event) :
    bindCalls (wildcardDebug s0 :: evs) = bindCalls evs := by
  simp [bindCalls, wildcardDebug]

theorem setupFailed_wildcardDebug (s0 : State) : setupFailed (wildcardDebug s0) = false := by
  simp [setupFailed, wildcardDebug, isSetupCall]

/-- The attempts of a wildcard entry in terms of the variable `useIpv6`: the families of the
`socket` calls made are the first one or two of the expected ones and all of them unless the
process was terminated; when no set-up step fails there is no fatal error, the addresses bound
are the expected wildcard addresses and the registry grows by the descriptors bound. -/
theorem parseListenConfigParam_wildcard_attempts (b : Build) (sys : Sys) (port : Nat)
    (param : Option ConfigParam) (s : State)
    (htcp : b.HAVE_TCP = true) (hany : isWildcard param = true)
    (hn : 0 ≤ s.numberOfListenSockets) :
    let out := parseListenConfigParam b sys port param s
    let evs := newEvents s out.state
    let useIpv6 := (initUseIpv6 b sys s).1
    let families := if useIpv6 then [PF_INET6, PF_INET] else [PF_INET]
    let targets :=
      if useIpv6 then [SockAddr.in6 (htons port) in6addr_any, SockAddr.in4 (htons port) INADDR_ANY]
      else [SockAddr.in4 (htons port) INADDR_ANY]
    (socketCalls evs).head? = families.head? ∧
    socketCalls evs <+: families ∧
    (out.isFatal = false → socketCalls evs = families) ∧
    ((∀ e ∈ evs, setupFailed e = false) →
      out.isFatal = false ∧
      socketCalls evs = families ∧
      (bindCalls evs).map Prod.snd = targets ∧
      registry out.state = registry s ++ (bindCalls evs).map Prod.fst ∧
      out.state.numberOfListenSockets = s.numberOfListenSockets + families.length) := by
  intro out evs useIpv6 families targets
  obtain ⟨pre, hpre, hshape, hreg, hcnt, -⟩ := initUseIpv6_facts b sys s
  have hrun := wildcardBind_run b sys (port % 4294967296) useIpv6 (initUseIpv6 b sys s).2 htcp
    (by rw [hcnt]; exact hn)
  have hout : out = wildcardBind b sys (port % 4294967296) useIpv6 (initUseIpv6 b sys s).2 :=
    parseListenConfigParam_wildcard b sys port param s hany
  rw [← hout] at hrun
  have hpre1 : socketCalls pre = [] ∧ bindCalls pre = [] ∧ ∀ e ∈ pre, setupFailed e = false := by
    rcases hshape with h | ⟨e, h, he⟩
    · subst h; simp [socketCalls, bindCalls]
    · subst h; simp [socketCalls, bindCalls, setupFailed, isSetupCall, he]
  obtain ⟨hp1, hp2, hp3⟩ := hpre1
  simp only [evs, families, targets]
  clear hout
  clear_value out useIpv6
  clear evs families targets
  cases hrun with
  | v6Fatal f sock evs t hsh htr hr hc =>
    rw [htons_mod] at hsh
    rw [hpre, List.append_assoc] at htr
    obtain ⟨f1, ⟨e, he, hf⟩, -⟩ := fatalShape_facts hsh
    simp only [Outcome.state, Outcome.isFatal, newEvents_append s _ _ htr, socketCalls_append,
      socketCalls_wildcardDebug, hp1, f1]
    refine ⟨by simp, by simp, by simp, fun hall => ?_⟩
    have := hall e (by simp [he])
    simp [hf] at this
  | v6Failed sock evs t hsh htr hr hc =>
    rw [htons_mod] at hsh
    rw [hpre, List.append_assoc] at htr
    obtain ⟨f1, -, ⟨e, he, hf⟩, -⟩ := failShape_facts hsh
    simp only [Outcome.state, Outcome.isFatal, newEvents_append s _ _ htr, socketCalls_append,
      socketCalls_wildcardDebug, hp1, f1]
    refine ⟨by simp, by simp, by simp, fun hall => ?_⟩
    have := hall e (by simp [he])
    simp [hf] at this
  | v6Ok_v4Fatal f sock6 sock4 evs6 evs4 t hsh6 hsh4 htr hr hc =>
    rw [htons_mod] at hsh6 hsh4
    rw [hpre, List.append_assoc] at htr
    obtain ⟨f1, -⟩ := okShape_facts hsh6
    obtain ⟨g1, ⟨e, he, hf⟩, -⟩ := fatalShape_facts hsh4
    simp only [Outcome.state, Outcome.isFatal, newEvents_append s _ _ htr, socketCalls_append,
      socketCalls_wildcardDebug, hp1, f1, g1]
    refine ⟨by simp, by simp, by simp, fun hall => ?_⟩
    have := hall e (by simp [he])
    simp [hf] at this
  | v6Ok_v4Failed sock6 sock4 evs6 evs4 t hsh6 hsh4 htr hr hc =>
    rw [htons_mod] at hsh6 hsh4
    rw [hpre, List.append_assoc] at htr
    obtain ⟨f1, -⟩ := okShape_facts hsh6
    obtain ⟨g1, -, ⟨e, he, hf⟩, -⟩ := failShape_facts hsh4
    simp only [Outcome.state, Outcome.isFatal, newEvents_append s _ _ htr, socketCalls_append,
      socketCalls_wildcardDebug, hp1, f1, g1]
    refine ⟨by simp, by simp, by simp, fun hall => ?_⟩
    have := hall e (by simp [he])
    simp [hf] at this
  | v6Ok_v4Ok sock6 sock4 evs6 evs4 t hsh6 hsh4 htr hr hc =>
    rw [htons_mod] at hsh6 hsh4
    rw [hpre, List.append_assoc] at htr
    obtain ⟨f1, f2, -⟩ := okShape_facts hsh6
    obtain ⟨g1, g2, -⟩ := okShape_facts hsh4
    simp only [Outcome.state, Outcome.isFatal, newEvents_append s _ _ htr, socketCalls_append,
      socketCalls_wildcardDebug, bindCalls_append, bindCalls_wildcardDebug, hp1, hp2, f1, f2,
      g1, g2, hr, hc, hreg, hcnt]
    simp
  | v4Fatal f sock evs t hsh htr hr hc =>
    rw [htons_mod] at hsh
    rw [hpre, List.append_assoc] at htr
    obtain ⟨f1, ⟨e, he, hf⟩, -⟩ := fatalShape_facts hsh
    simp only [Outcome.state, Outcome.isFatal, newEvents_append s _ _ htr, socketCalls_append,
      socketCalls_wildcardDebug, hp1, f1]
    refine ⟨by simp, by simp, by simp, fun hall => ?_⟩
    have := hall e (by simp [he])
    simp [hf] at this
  | v4Failed sock evs t hsh htr hr hc =>
    rw [htons_mod] at hsh
    rw [hpre, List.append_assoc] at htr
    obtain ⟨f1, -, ⟨e, he, hf⟩, -⟩ := failShape_facts hsh
    simp only [Outcome.state, Outcome.isFatal, newEvents_append s _ _ htr, socketCalls_append,
      socketCalls_wildcardDebug, hp1, f1]
    refine ⟨by simp, by simp, by simp, fun hall => ?_⟩
    have := hall e (by simp [he])
    simp [hf] at this
  | v4Ok sock evs t hsh htr hr hc =>
    rw [htons_mod] at hsh
    rw [hpre, List.append_assoc] at htr
    obtain ⟨f1, f2, -⟩ := okShape_facts hsh
    simp only [Outcome.state, Outcome.isFatal, newEvents_append s _ _ htr, socketCalls_append,
      socketCalls_wildcardDebug, bindCalls_append, bindCalls_wildcardDebug, hp1, hp2, f1, f2,
      hr, hc, hreg, hcnt]
    simp

/-- A wildcard entry of a TCP build, seen from the state before the call. -/
theorem parseListenConfigParam_wildcard_run (b : Build) (sys : Sys) (port : Nat)
    (param : Option ConfigParam) (s : State)
    (htcp : b.HAVE_TCP = true) (hany : isWildcard param = true)
    (hn : 0 ≤ s.numberOfListenSockets) :
    ∃ pre s0, s0.trace = s.trace ++ pre ∧ (∀ e ∈ pre, e.call = .ipv6Supported) ∧
      registry s0 = registry s ∧ s0.numberOfListenSockets = s.numberOfListenSockets ∧
      WildcardRun b (port % 4294967296) s0 (initUseIpv6 b sys s).1
        (parseListenConfigParam b sys port param s) := by
  obtain ⟨pre, hpre, hshape, hreg, hcnt, -⟩ := initUseIpv6_facts b sys s
  refine ⟨pre, (initUseIpv6 b sys s).2, hpre, ?_, hreg, hcnt, ?_⟩
  · rcases hshape with h | ⟨e, h, he⟩
    · subst h; simp
    · subst h; simpa using he
  · rw [parseListenConfigParam_wildcard b sys port param s hany]
    exact wildcardBind_run b sys _ _ _ htcp (by rw [hcnt]; exact hn)

/-- C2 (counterexample): IPv6 is supported and the IPv6 wildcard bind is refused; the run ends
in the fatal bind error and the IPv4 wildcard bind is never attempted. -/
theorem wildcard_ipv6_failure_not_tolerated :
    (initUseIpv6 Build.linux sysV6BindFails State.init).1 = true ∧
    (∃ e ∈ newEvents State.init
        (parseListenConfigParam Build.linux sysV6BindFails 6600 none State.init).state,
      e.call = .bind 3 (.in6 6600 in6addr_any) 28 ∧ e.ret < 0) ∧
    (parseListenConfigParam Build.linux sysV6BindFails 6600 none State.init).fatal? =
      some (.bind 6600 98) ∧
    socketCalls (newEvents State.init
      (parseListenConfigParam Build.linux sysV6BindFails 6600 none State.init).state) =
      [PF_INET6] := by
  refine ⟨by decide, ?_, by decide, by decide⟩
  exact ⟨{ call := .bind 3 (.in6 6600 in6addr_any) 28, ret := -1, errno := 98 }, by decide,
    rfl, by decide⟩

/-- C2 (amended): on a wildcard entry of a TCP build, a failure of the IPv6 wildcard bind is
fatal: such a bind is only attempted when IPv6 is supported, `parseListenConfigParam` ends in the
fatal bind error (`BINDERROR`) because of it, the registry is as before the call, and the IPv4
wildcard bind is not attempted (the only socket created is the IPv6 one, the only address bound
the IPv6 wildcard). -/
theorem parseListenConfigParam_wildcard_ipv6_failure (b : Build) (sys : Sys) (port : Nat)
    (param : Option ConfigParam) (s : State)
    (htcp : b.HAVE_TCP = true) (hany : isWildcard param = true)
    (hn : 0 ≤ s.numberOfListenSockets)
    (hfail : ∃ e ∈ newEvents s (parseListenConfigParam b sys port param s).state,
      ∃ sock len, e.call = .bind sock (.in6 (htons port) in6addr_any) len ∧ e.ret < 0) :
    let out := parseListenConfigParam b sys port param s
    let evs := newEvents s out.state
    (initUseIpv6 b sys s).1 = true ∧
    out.fatal? = some (.bind (port % 4294967296) out.state.errno) ∧
    registry out.state = registry s ∧
    out.state.numberOfListenSockets = s.numberOfListenSockets ∧
    socketCalls evs = [PF_INET6] ∧
    (bindCalls evs).map Prod.snd = [.in6 (htons port) in6addr_any] := by
  obtain ⟨pre, s0, hpre, hcalls, hreg, hcnt, hrun⟩ :=
    parseListenConfigParam_wildcard_run b sys port param s htcp hany hn
  have hp1 : socketCalls pre = [] := by
    unfold socketCalls
    rw [List.filterMap_eq_nil_iff]
    intro e he; rw [hcalls e he]
  have hp2 : bindCalls pre = [] := by
    unfold bindCalls
    rw [List.filterMap_eq_nil_iff]
    intro e he; rw [hcalls e he]
  obtain ⟨e, he, sock, len, hcall, hret⟩ := hfail
  intro out evs
  simp only [evs, out]
  generalize parseListenConfigParam b sys port param s = o at hrun he
  generalize (initUseIpv6 b sys s).1 = v6 at hrun
  cases hrun with
  | v6Fatal f k evs t hsh htr hr hc =>
    rw [htons_mod] at hsh
    rw [hpre, List.append_assoc] at htr
    obtain ⟨-, -, f3, -⟩ := fatalShape_facts hsh
    simp only [Outcome.state, newEvents_append s _ _ htr, List.mem_append, List.mem_cons] at he
    rcases he with he | he | he
    · rw [hcalls e he] at hcall; cases hcall
    · subst he; simp [wildcardDebug] at hcall
    · have := f3 e he _ _ _ hcall; omega
  | v6Failed k evs t hsh htr hr hc =>
    rw [htons_mod] at hsh
    rw [hpre, List.append_assoc] at htr
    obtain ⟨f1, f2, -⟩ := failShape_facts hsh
    simp only [Outcome.state, Outcome.fatal?, newEvents_append s _ _ htr, socketCalls_append,
      socketCalls_wildcardDebug, bindCalls_append, bindCalls_wildcardDebug, hp1, hp2, f1, f2,
      hr, hc, hreg, hcnt]
    simp
  | v6Ok_v4Fatal f sock6 sock4 evs6 evs4 t hsh6 hsh4 htr hr hc =>
    rw [htons_mod] at hsh6 hsh4
    rw [hpre, List.append_assoc] at htr
    obtain ⟨-, -, -, -, -, f3, -⟩ := okShape_facts hsh6
    obtain ⟨-, -, g3, -⟩ := fatalShape_facts hsh4
    simp only [Outcome.state, newEvents_append s _ _ htr, List.mem_append, List.mem_cons] at he
    rcases he with he | he | he | he
    · rw [hcalls e he] at hcall; cases hcall
    · subst he; simp [wildcardDebug] at hcall
    · have := f3 e he _ _ _ hcall; omega
    · have := g3 e he _ _ _ hcall; omega
  | v6Ok_v4Failed sock6 sock4 evs6 evs4 t hsh6 hsh4 htr hr hc =>
    rw [htons_mod] at hsh6 hsh4
    rw [hpre, List.append_assoc] at htr
    obtain ⟨-, -, -, -, -, f3, -⟩ := okShape_facts hsh6
    obtain ⟨-, -, -, -, -, -, g4⟩ := failShape_facts hsh4
    simp only [Outcome.state, newEvents_append s _ _ htr, List.mem_append, List.mem_cons] at he
    rcases he with he | he | he | he
    · rw [hcalls e he] at hcall; cases hcall
    · subst he; simp [wildcardDebug] at hcall
    · have := f3 e he _ _ _ hcall; omega
    · have := (g4 e he _ _ _ hcall).2.1; cases this
  | v6Ok_v4Ok sock6 sock4 evs6 evs4 t hsh6 hsh4 htr hr hc =>
    rw [htons_mod] at hsh6 hsh4
    rw [hpre, List.append_assoc] at htr
    obtain ⟨-, -, -, -, -, f3, -⟩ := okShape_facts hsh6
    obtain ⟨-, -, -, -, -, g3, -⟩ := okShape_facts hsh4
    simp only [Outcome.state, newEvents_append s _ _ htr, List.mem_append, List.mem_cons] at he
    rcases he with he | he | he | he
    · rw [hcalls e he] at hcall; cases hcall
    · subst he; simp [wildcardDebug] at hcall
    · have := f3 e he _ _ _ hcall; omega
    · have := g3 e he _ _ _ hcall; omega
  | v4Fatal f k evs t hsh htr hr hc =>
    rw [htons_mod] at hsh
    rw [hpre, List.append_assoc] at htr
    obtain ⟨-, -, f3, -⟩ := fatalShape_facts hsh
    simp only [Outcome.state, newEvents_append s _ _ htr, List.mem_append, List.mem_cons] at he
    rcases he with he | he | he
    · rw [hcalls e he] at hcall; cases hcall
    · subst he; simp [wildcardDebug] at hcall
    · have := f3 e he _ _ _ hcall; omega
  | v4Failed k evs t hsh htr hr hc =>
    rw [htons_mod] at hsh
    rw [hpre, List.append_assoc] at htr
    obtain ⟨-, -, -, -, -, -, g4⟩ := failShape_facts hsh
    simp only [Outcome.state, newEvents_append s _ _ htr, List.mem_append, List.mem_cons] at he
    rcases he with he | he | he
    · rw [hcalls e he] at hcall; cases hcall
    · subst he; simp [wildcardDebug] at hcall
    · have := (g4 e he _ _ _ hcall).2.1; cases this
  | v4Ok k evs t hsh htr hr hc =>
    rw [htons_mod] at hsh
    rw [hpre, List.append_assoc] at htr
    obtain ⟨-, -, -, -, -, -, g4⟩ := okShape_facts hsh
    simp only [Outcome.state, newEvents_append s _ _ htr, List.mem_append, List.mem_cons] at he
    rcases he with he | he | he
    · rw [hcalls e he] at hcall; cases hcall
    · subst he; simp [wildcardDebug] at hcall
    · have := (g4 e he _ _ _ hcall).2.1; cases this

theorem parseListenConfigParam_wildcard_ipv6_failure_witness :
    Build.linux.HAVE_TCP = true ∧ isWildcard none = true ∧
    0 ≤ State.init.numberOfListenSockets ∧
    (parseListenConfigParam Build.linux sysV6BindFails 6600 none State.init).fatal? =
      some (.bind 6600 98) ∧
    registry (parseListenConfigParam Build.linux sysV6BindFails 6600 none State.init).state =
      [] :=
  ⟨rfl, rfl, by decide,
    (parseListenConfigParam_wildcard_ipv6_failure Build.linux sysV6BindFails 6600 none State.init
      rfl rfl (by decide)
      ⟨{ call := .bind 3 (.in6 6600 in6addr_any) 28, ret := -1, errno := 98 }, by decide,
        3, 28, rfl, by decide⟩).2.1.trans (by decide),
    (parseListenConfigParam_wildcard_ipv6_failure Build.linux sysV6BindFails 6600 none State.init
      rfl rfl (by decide)
      ⟨{ call := .bind 3 (.in6 6600 in6addr_any) 28, ret := -1, errno := 98 }, by decide,
        3, 28, rfl, by decide⟩).2.2.1.trans (by decide)⟩

/-- C3: on a wildcard entry of a TCP build, when the IPv4 wildcard bind fails the run is fatal
if and only if no IPv6 wildcard bind of the same entry succeeded (and the fatal error is then the
bind error); and whenever `parseListenConfigParam` returns without a fatal error the registry
has grown by at least one socket, each of them bound with success to a wildcard address in this
run, so that a run in which no wildcard bind succeeds is fatal. -/
theorem parseListenConfigParam_wildcard_ipv4_failure (b : Build) (sys : Sys) (port : Nat)
    (param : Option ConfigParam) (s : State)
    (htcp : b.HAVE_TCP = true) (hany : isWildcard param = true)
    (hn : 0 ≤ s.numberOfListenSockets) :
    let out := parseListenConfigParam b sys port param s
    let evs := newEvents s out.state
    ((∃ e ∈ evs, ∃ sock len,
        e.call = .bind sock (.in4 (htons port) INADDR_ANY) len ∧ e.ret < 0) →
      ((out.isFatal = true ↔
          ¬ ∃ e ∈ evs, ∃ sock len,
            e.call = .bind sock (.in6 (htons port) in6addr_any) len ∧ 0 ≤ e.ret) ∧
        (out.isFatal = true →
          out.fatal? = some (.bind (port % 4294967296) out.state.errno)))) ∧
    (out.isFatal = false →
      ∃ socks, socks ≠ [] ∧ registry out.state = registry s ++ socks ∧
        out.state.numberOfListenSockets = s.numberOfListenSockets + socks.length ∧
        ∀ k ∈ socks, ∃ e ∈ evs, ∃ len,
          (e.call = .bind k (.in6 (htons port) in6addr_any) len ∨
            e.call = .bind k (.in4 (htons port) INADDR_ANY) len) ∧ 0 ≤ e.ret) := by
  obtain ⟨pre, s0, hpre, hcalls, hreg, hcnt, hrun⟩ :=
    parseListenConfigParam_wildcard_run b sys port param s htcp hany hn
  intro out evs
  simp only [evs, out]
  generalize parseListenConfigParam b sys port param s = o at hrun
  generalize (initUseIpv6 b sys s).1 = v6 at hrun
  cases hrun with
  | v6Fatal f k evs t hsh htr hr hc =>
    rw [htons_mod] at hsh
    rw [hpre, List.append_assoc] at htr
    obtain ⟨-, -, -, f4⟩ := fatalShape_facts hsh
    simp only [Outcome.state, Outcome.isFatal, newEvents_append s _ _ htr, List.mem_append,
      List.mem_cons]
    refine ⟨?_, by simp⟩
    rintro ⟨e, he, sock, len, hcall, -⟩
    rcases he with he | he | he
    · rw [hcalls e he] at hcall; cases hcall
    · subst he; simp [wildcardDebug] at hcall
    · have := (f4 e he _ _ _ hcall).2.1; cases this
  | v6Failed k evs t hsh htr hr hc =>
    rw [htons_mod] at hsh
    rw [hpre, List.append_assoc] at htr
    obtain ⟨-, -, -, -, -, -, f4⟩ := failShape_facts hsh
    simp only [Outcome.state, Outcome.isFatal, newEvents_append s _ _ htr, List.mem_append,
      List.mem_cons]
    refine ⟨?_, by simp⟩
    rintro ⟨e, he, sock, len, hcall, -⟩
    rcases he with he | he | he
    · rw [hcalls e he] at hcall; cases hcall
    · subst he; simp [wildcardDebug] at hcall
    · have := (f4 e he _ _ _ hcall).2.1; cases this
  | v6Ok_v4Fatal f sock6 sock4 evs6 evs4 t hsh6 hsh4 htr hr hc =>
    rw [htons_mod] at hsh6 hsh4
    rw [hpre, List.append_assoc] at htr
    obtain ⟨-, -, -, -, -, -, f4⟩ := okShape_facts hsh6
    obtain ⟨-, -, g3, -⟩ := fatalShape_facts hsh4
    simp only [Outcome.state, Outcome.isFatal, newEvents_append s _ _ htr, List.mem_append,
      List.mem_cons]
    refine ⟨?_, by simp⟩
    rintro ⟨e, he, sock, len, hcall, hret⟩
    rcases he with he | he | he | he
    · rw [hcalls e he] at hcall; cases hcall
    · subst he; simp [wildcardDebug] at hcall
    · have := (f4 e he _ _ _ hcall).2.1; cases this
    · have := g3 e he _ _ _ hcall; omega
  | v6Ok_v4Failed sock6 sock4 evs6 evs4 t hsh6 hsh4 htr hr hc =>
    rw [htons_mod] at hsh6 hsh4
    rw [hpre, List.append_assoc] at htr
    obtain ⟨-, -, -, ⟨e6, he6, hcall6, hret6⟩, -⟩ := okShape_facts hsh6
    simp only [Outcome.state, Outcome.isFatal, newEvents_append s _ _ htr, List.mem_append,
      List.mem_cons]
    refine ⟨fun _ => ⟨?_, by simp⟩, fun _ => ⟨[sock6], by simp, ?_, ?_, ?_⟩⟩
    · simp only [Bool.false_eq_true, false_iff, not_not]
      exact ⟨e6, Or.inr (Or.inr (Or.inl he6)), sock6, _, hcall6, hret6⟩
    · rw [hr, hreg]
    · rw [hc, hcnt]; simp
    · intro k hk
      simp only [List.mem_singleton] at hk
      subst hk
      exact ⟨e6, Or.inr (Or.inr (Or.inl he6)), _, Or.inl hcall6, hret6⟩
  | v6Ok_v4Ok sock6 sock4 evs6 evs4 t hsh6 hsh4 htr hr hc =>
    rw [htons_mod] at hsh6 hsh4
    rw [hpre, List.append_assoc] at htr
    obtain ⟨-, -, -, ⟨e6, he6, hcall6, hret6⟩, -, f3, -⟩ := okShape_facts hsh6
    obtain ⟨-, -, -, ⟨e4, he4, hcall4, hret4⟩, -, g3, -⟩ := okShape_facts hsh4
    simp only [Outcome.state, Outcome.isFatal, newEvents_append s _ _ htr, List.mem_append,
      List.mem_cons]
    refine ⟨?_, fun _ => ⟨[sock6, sock4], by simp, ?_, ?_, ?_⟩⟩
    · rintro ⟨e, he, sock, len, hcall, hret⟩
      rcases he with he | he | he | he
      · rw [hcalls e he] at hcall; cases hcall
      · subst he; simp [wildcardDebug] at hcall
      · have := f3 e he _ _ _ hcall; omega
      · have := g3 e he _ _ _ hcall; omega
    · rw [hr, hreg]
    · rw [hc, hcnt]; simp
    · intro k hk
      simp only [List.mem_cons, List.mem_singleton, List.not_mem_nil, or_false] at hk
      rcases hk with hk | hk
      · subst hk
        exact ⟨e6, Or.inr (Or.inr (Or.inl he6)), _, Or.inl hcall6, hret6⟩
      · subst hk
        exact ⟨e4, Or.inr (Or.inr (Or.inr he4)), _, Or.inr hcall4, hret4⟩
  | v4Fatal f k evs t hsh htr hr hc =>
    rw [htons_mod] at hsh
    rw [hpre, List.append_assoc] at htr
    obtain ⟨-, -, f3, -⟩ := fatalShape_facts hsh
    simp only [Outcome.state, Outcome.isFatal, newEvents_append s _ _ htr, List.mem_append,
      List.mem_cons]
    refine ⟨?_, by simp⟩
    rintro ⟨e, he, sock, len, hcall, hret⟩
    rcases he with he | he | he
    · rw [hcalls e he] at hcall; cases hcall
    · subst he; simp [wildcardDebug] at hcall
    · have := f3 e he _ _ _ hcall; omega
  | v4Failed k evs t hsh htr hr hc =>
    rw [htons_mod] at hsh
    rw [hpre, List.append_assoc] at htr
    obtain ⟨-, -, -, -, -, -, f4⟩ := failShape_facts hsh
    simp only [Outcome.state, Outcome.isFatal, Outcome.fatal?, newEvents_append s _ _ htr,
      List.mem_append, List.mem_cons]
    refine ⟨fun _ => ⟨?_, fun _ => trivial⟩, by simp⟩
    simp only [true_iff]
    rintro ⟨e, he, sock, len, hcall, -⟩
    rcases he with he | he | he
    · rw [hcalls e he] at hcall; cases hcall
    · subst he; simp [wildcardDebug] at hcall
    · have := (f4 e he _ _ _ hcall).2.1; cases this
  | v4Ok k evs t hsh htr hr hc =>
    rw [htons_mod] at hsh
    rw [hpre, List.append_assoc] at htr
    obtain ⟨-, -, -, ⟨e4, he4, hcall4, hret4⟩, -, f3, -⟩ := okShape_facts hsh
    simp only [Outcome.state, Outcome.isFatal, newEvents_append s _ _ htr, List.mem_append,
      List.mem_cons]
    refine ⟨?_, fun _ => ⟨[k], by simp, ?_, ?_, ?_⟩⟩
    · rintro ⟨e, he, sock, len, hcall, hret⟩
      rcases he with he | he | he
      · rw [hcalls e he] at hcall; cases hcall
      · subst he; simp [wildcardDebug] at hcall
      · have := f3 e he _ _ _ hcall; omega
    · rw [hr, hreg]
    · rw [hc, hcnt]; simp
    · intro k' hk
      simp only [List.mem_singleton] at hk
      subst hk
      exact ⟨e4, Or.inr (Or.inr he4), _, Or.inr hcall4, hret4⟩

theorem parseListenConfigParam_wildcard_ipv4_failure_witness :
    Build.linux.HAVE_TCP = true ∧ isWildcard (some ⟨"any", 7⟩) = true ∧
    0 ≤ State.init.numberOfListenSockets ∧
    (parseListenConfigParam Build.linux sysV4BindFails 6600 (some ⟨"any", 7⟩)
      State.init).isFatal = false ∧
    registry (parseListenConfigParam Build.linux sysV4BindFails 6600 (some ⟨"any", 7⟩)
      State.init).state = [3] ∧
    (parseListenConfigParam Build.linux sysV4Only_bindFails 6600 (some ⟨"any", 7⟩)
      State.init).fatal? = some (.bind 6600 98) :=
  ⟨rfl, by decide, by decide, by decide, by decide,
    (((parseListenConfigParam_wildcard_ipv4_failure Build.linux sysV4Only_bindFails 6600
      (some ⟨"any", 7⟩) State.init rfl (by decide) (by decide)).1
      ⟨{ call := .bind 3 (.in4 6600 INADDR_ANY) 16, ret := -1, errno := 98 }, by decide,
        3, 16, rfl, by decide⟩).2 (by decide)).trans (by decide)⟩

/-- C5: in `establishListen` a failing `bind()` is the one recoverable failure: the function
then closes the socket it had just allocated (the last call is `close` of the descriptor
`socket` returned), returns -1 without a fatal error and leaves `listenSockets` and
`numberOfListenSockets` as they were, and it returns -1 in no other case; a failure of `socket`,
`set_nonblocking`, `setsockopt(SO_REUSEADDR)` or `listen` is fatal, and nothing else is; and once
`setsockopt(SO_PASSCRED)` is reached the function returns 0 whatever that call returns. -/
theorem establishListen_failure_classes (b : Build) (sys : Sys) (pf : Int) (addr : SockAddr)
    (len : Nat) (s : State) :
    let out := establishListen b sys pf addr len s
    let evs := newEvents s out.state
    ((∃ e ∈ evs, ∃ k a l, e.call = .bind k a l ∧ e.ret < 0) →
      out.val? = some (-1) ∧ out.isFatal = false ∧
      out.state.listenSockets = s.listenSockets ∧
      out.state.numberOfListenSockets = s.numberOfListenSockets ∧
      ∃ sock, (∃ e ∈ evs, e.call = .socket pf ∧ e.ret = sock) ∧
        (∃ e, evs.getLast? = some e ∧ e.call = .close sock)) ∧
    (out.val? = some (-1) → ∃ e ∈ evs, ∃ k, e.call = .bind k addr len ∧ e.ret < 0) ∧
    ((∃ e ∈ evs, isFatalStep e.call = true ∧ e.ret < 0) ↔ out.isFatal = true) ∧
    ((∃ e ∈ evs, ∃ k v, e.call = .setsockopt k .SO_PASSCRED v) → out.val? = some 0) := by
  obtain ⟨sock, evs, t, htr, -, h⟩ := establishListen_spec b sys pf addr len s
  intro out evs'
  simp only [evs', out]
  rcases h with ⟨f, heq, hsh, ha, hc⟩ | ⟨heq, hsh, ha, hc⟩ | ⟨heq, hsh, hc, ha⟩
  · rw [heq]
    simp only [Outcome.state, Outcome.val?, Outcome.isFatal, newEvents_append s _ _ htr]
    unfold fatalShape at hsh
    split at hsh
    · obtain ⟨h1, h2, h3⟩ := hsh
      simp [isFatalStep, h1, h2, h3]
    · obtain ⟨h1, h2, h3, h4, h5⟩ := hsh
      simp [isFatalStep, h1, h2, h3, h4, h5]
    · obtain ⟨h1, h2, h3, h4, h5, h6, h7⟩ := hsh
      simp [isFatalStep, h1, h2, h3, h4, h5, h6, h7]
    · obtain ⟨h1, h2, h3, h4, h5, h6, h7, h8, h9, h10, h11⟩ := hsh
      simp [isFatalStep, h1, h2, h3, h4, h5, h6, h7, h8, h9, h10, h11]
    · exact hsh.elim
  · rw [heq]
    simp only [Outcome.state, Outcome.val?, Outcome.isFatal, newEvents_append s _ _ htr]
    unfold failShape at hsh
    split at hsh
    · obtain ⟨h1, h2, h3, h4, h5, h6, h7, h8, h9, h10⟩ := hsh
      simp [isFatalStep, h1, h2, h3, h4, h5, h6, h7, h8, h9, h10, ha, hc]
    · exact hsh.elim
  · rw [heq]
    simp only [Outcome.state, Outcome.val?, Outcome.isFatal, newEvents_append s _ _ htr]
    unfold okShape at hsh
    split at hsh
    · obtain ⟨h0, h1, h2, h3, h4, h5, h6, h7, h8, h9, h10, h11⟩ := hsh
      simp [isFatalStep, h1, h2, h3, h4, h5, h6, h7, h8, h9, h10, h11]
    · obtain ⟨h0, h1, h2, h3, h4, h5, h6, h7, h8, h9, h10, h11, h12⟩ := hsh
      simp [isFatalStep, h1, h2, h3, h4, h5, h6, h7, h8, h9, h10, h11, h12]
    · exact hsh.elim

/-- A port entry refused by the check ends `listenOnPort` at once: the fatal error is raised in
the state in which the function was entered, before any call is made. -/
theorem listenOnPort_port_fatal (b : Build) (sys : Sys) (bindParams : List ConfigParam)
    (pp : ConfigParam) (s : State) (h : parsePort (some pp) = none) :
    listenOnPort b sys bindParams (some pp) s = .fatal (.port pp.value pp.line) s := by
  unfold listenOnPort
  rw [h]
  rfl

theorem strtol_eq_of_readInteger (cs : List Char) (v : Int) (rest : List Char)
    (h : readInteger cs = some (v, rest)) :
    strtol cs = (max LONG_MIN (min LONG_MAX v), rest) := by
  unfold readInteger at h
  unfold strtol
  simp only [] at h ⊢
  split_ifs at h ⊢ with h1 <;>
    (simp only [Option.some.injEq, Prod.mk.injEq] at h; rw [← h.1, ← h.2])

theorem strtol_eq_of_readInteger_none (cs : List Char) (h : readInteger cs = none) :
    strtol cs = (0, cs) := by
  unfold readInteger at h
  unfold strtol
  simp only [] at h ⊢
  split_ifs at h ⊢ with h1 <;> rfl

theorem readInteger_rest_sublist (cs : List Char) (v : Int) (rest : List Char)
    (h : readInteger cs = some (v, rest)) : rest.Sublist cs := by
  unfold readInteger at h
  simp only [] at h
  split_ifs at h with h1 <;>
    (simp only [Option.some.injEq, Prod.mk.injEq] at h
     rw [← h.2]
     first
       | exact (List.dropWhile_sublist _).trans
           ((List.tail_sublist _).trans (List.dropWhile_sublist _))
       | exact (List.dropWhile_sublist _).trans (List.dropWhile_sublist _))

/-- Within the range of `int` the check of `listenOnPort` is the spec's: for a port text without
NUL whose value fits a 32-bit `int`, the entry is refused exactly when the text does not parse in
full as a positive integer. -/
theorem parsePort_in_int_range (pp : ConfigParam) (hnul : Char.ofNat 0 ∉ pp.value.data)
    (hrange : ∀ v rest, readInteger pp.value.data = some (v, rest) →
      -2147483648 ≤ v ∧ v ≤ 2147483647) :
    parsePort (some pp) = none ↔ parsesAsPositiveInteger pp.value = false := by
  unfold parsePort parsesAsPositiveInteger
  cases hr : readInteger pp.value.data with
  | none =>
    simp [strtol_eq_of_readInteger_none _ hr, toInt32]
  | some p =>
    obtain ⟨v, rest⟩ := p
    obtain ⟨hlo, hhi⟩ := hrange v rest hr
    have hsub := readInteger_rest_sublist _ _ _ hr
    have hclamp : max LONG_MIN (min LONG_MAX v) = v := by
      unfold LONG_MIN LONG_MAX
      omega
    have hwrap : toInt32 v = v := by
      unfold toInt32
      omega
    simp only [strtol_eq_of_readInteger _ _ _ hr, hclamp, hwrap]
    cases rest with
    | nil => simp
    | cons c cs =>
      have hc : c ≠ Char.ofNat 0 := by
        intro hc
        exact hnul (hsub.subset (by rw [← hc]; exact List.mem_cons_self _ _))
      simp [hc]

/-- C4 (the code at the failing inputs, 64-bit `long` and 32-bit `int`): the text "2147483648"
parses in full as a positive integer, yet `listenOnPort` raises the fatal port error for it;
the text "-4294967295" has a negative value, yet `listenOnPort` accepts it and takes 1 as
the port. -/
theorem listenOnPort_port_narrowing :
    parsesAsPositiveInteger "2147483648" = true ∧
    (listenOnPort Build.linux sysAllOk [] (some ⟨"2147483648", 1⟩) State.init).fatal? =
      some (.port "2147483648" 1) ∧
    parsesAsPositiveInteger "-4294967295" = false ∧
    (listenOnPort Build.linux sysAllOk [] (some ⟨"-4294967295", 1⟩) State.init).isFatal =
      false ∧
    (listenOnPort Build.linux sysAllOk [] (some ⟨"-4294967295", 1⟩) State.init).state.boundPort =
      1 := by
  refine ⟨by decide, by decide, by decide, by decide, by decide⟩

theorem parsePort_in_int_range_witness :
    Char.ofNat 0 ∉ "6600".data ∧ parsePort (some ⟨"6600", 1⟩) = some 6600 ∧
    parsesAsPositiveInteger "6600" = true ∧
    (parsePort (some ⟨"6600x", 1⟩) = none ↔ parsesAsPositiveInteger "6600x" = false) :=
  ⟨by decide, by decide, by decide,
    parsePort_in_int_range ⟨"6600x", 1⟩ (by decide) (by
      intro v rest h
      have : readInteger "6600x".data = some (6600, ['x']) := by decide
      rw [this] at h
      simp only [Option.some.injEq, Prod.mk.injEq] at h
      omega)⟩

theorem established_append (l1 l2 : List Event)
    (h : ∀ e, l2.head? = some e → ∀ k n, e.call ≠ .listen k n) :
    established (l1 ++ l2) = established l1 ++ established l2 := by
  induction l1 with
  | nil => simp [established]
  | cons e1 r ih =>
    cases r with
    | nil =>
      cases l2 with
      | nil => simp [established]
      | cons e2 r2 =>
        have hne := h e2 rfl
        have : establishedBy e1 e2 = none := by
          unfold establishedBy
          split
          · rename_i heq2
            exact absurd heq2 (hne _ _)
          · rfl
        simp [established, this]
    | cons e2 r2 =>
      simp only [List.cons_append] at ih
      show established (e1 :: e2 :: (r2 ++ l2)) = established (e1 :: e2 :: r2) ++ established l2
      simp only [established]
      rw [ih, List.append_assoc]

theorem establishedBy_of_not_bind (e1 e2 : Event) (h : ∀ k a l, e1.call ≠ .bind k a l) :
    establishedBy e1 e2 = none := by
  unfold establishedBy
  split
  · rename_i heq1 _
    exact absurd heq1 (h _ _ _)
  · rfl

theorem establishedBy_of_not_listen (e1 e2 : Event) (h : ∀ k n, e2.call ≠ .listen k n) :
    establishedBy e1 e2 = none := by
  unfold establishedBy
  split
  · rename_i _ heq2
    exact absurd heq2 (h _ _)
  · rfl

theorem fatalShape_established {pf : Int} {addr : SockAddr} {len : Nat} {sock : Int}
    {evs : List Event} (h : fatalShape pf addr len sock evs) :
    established evs = [] ∧ ∃ e, evs.head? = some e ∧ e.call = .socket pf := by
  unfold fatalShape at h
  split at h
  · obtain ⟨h1, h2, h3⟩ := h
    simp [established, h1]
  · obtain ⟨h1, h2, h3, h4, h5⟩ := h
    simp [established, establishedBy, h1, h4]
  · obtain ⟨h1, h2, h3, h4, h5, h6, h7⟩ := h
    simp [established, establishedBy, h1, h4, h6]
  · rename_i e1 e2 e3 e4 e5
    obtain ⟨h1, h2, h3, h4, h5, h6, h7, h8, h9, h10, h11⟩ := h
    have h12 : ¬ (0 ≤ e5.ret) := by omega
    simp [established, establishedBy, h1, h4, h6, h8, h10, h12]
  · exact h.elim

theorem failShape_established {pf : Int} {addr : SockAddr} {len : Nat} {sock : Int}
    {evs : List Event} (h : failShape pf addr len sock evs) :
    established evs = [] ∧ ∃ e, evs.head? = some e ∧ e.call = .socket pf := by
  unfold failShape at h
  split at h
  · obtain ⟨h1, h2, h3, h4, h5, h6, h7, h8, h9, h10⟩ := h
    simp [established, establishedBy, h1, h4, h6, h8, h10]
  · exact h.elim

theorem okShape_established {b : Build} {pf : Int} {addr : SockAddr} {len : Nat} {sock : Int}
    {evs : List Event} (h : okShape b pf addr len sock evs) :
    established evs = [sock] ∧ ∃ e, evs.head? = some e ∧ e.call = .socket pf := by
  unfold okShape at h
  split at h
  · obtain ⟨h0, h1, h2, h3, h4, h5, h6, h7, h8, h9, h10, h11⟩ := h
    simp [established, establishedBy, h1, h4, h6, h8, h9, h10, h11]
  · obtain ⟨h0, h1, h2, h3, h4, h5, h6, h7, h8, h9, h10, h11, h12⟩ := h
    simp [established, establishedBy, h1, h4, h6, h8, h9, h10, h11, h12]
  · exact h.elim

theorem registry_of_zero (s : State) (h : s.numberOfListenSockets = 0) : registry s = [] := by
  unfold registry
  rw [h]
  rfl

/-- Loop invariant of a sequence of `establishListen` calls. -/
theorem establishAll_invariant (b : Build) (sys : Sys) (calls : List BindTarget) :
    ∀ s : State, 0 ≤ s.numberOfListenSockets →
      ∃ evs, (establishAll b sys calls s).2.state.trace = s.trace ++ evs ∧
        (∀ e, evs.head? = some e → ∃ pf, e.call = .socket pf) ∧
        registry (establishAll b sys calls s).2.state = registry s ++ established evs ∧
        (establishAll b sys calls s).2.state.numberOfListenSockets =
          s.numberOfListenSockets + (established evs).length ∧
        ((establishAll b sys calls s).1.filter (· = 0)).length = (established evs).length := by
  induction calls with
  | nil =>
    intro s _
    exact ⟨[], by simp [establishAll, Outcome.state], by simp, by simp [establishAll,
      Outcome.state, established], by simp [establishAll, Outcome.state, established],
      by simp [establishAll, established]⟩
  | cons c cs ih =>
    intro s hn
    obtain ⟨sock, evs, t, htr, -, h⟩ := establishListen_registry b sys c.pf c.addr c.addrlen s hn
    rcases h with ⟨f, heq, hsh, hr, hc⟩ | ⟨heq, hsh, hr, hc⟩ | ⟨heq, hsh, hr, hc⟩
    · obtain ⟨hest, e, he, hcall⟩ := fatalShape_established hsh
      refine ⟨evs, ?_, ?_, ?_, ?_, ?_⟩
      · simp [establishAll, heq, Outcome.state, htr]
      · intro e' he'; rw [he] at he'; cases he'; exact ⟨_, hcall⟩
      · simp [establishAll, heq, Outcome.state, hr, hest]
      · simp [establishAll, heq, Outcome.state, hc, hest]
      · simp [establishAll, heq, hest]
    · obtain ⟨hest, e, he, hcall⟩ := failShape_established hsh
      obtain ⟨evs2, htr2, hhead2, hr2, hc2, hl2⟩ := ih t (by rw [hc]; exact hn)
      have happ : established (evs ++ evs2) = established evs2 := by
        rw [established_append, hest, List.nil_append]
        intro e2 he2 k n
        obtain ⟨pf, hpf⟩ := hhead2 e2 he2
        rw [hpf]; exact fun h => by cases h
      refine ⟨evs ++ evs2, ?_, ?_, ?_, ?_, ?_⟩
      · simp [establishAll, heq, htr2, htr]
      · intro e' he'
        cases evs with
        | nil => simp at he
        | cons a r =>
          simp only [List.cons_append, List.head?_cons, Option.some.injEq] at he' he
          rw [← he', he]; exact ⟨_, hcall⟩
      · simp [establishAll, heq, hr2, hr, happ]
      · simp [establishAll, heq, hc2, hc, happ]
      · simp [establishAll, heq, hl2, happ]
    · obtain ⟨hest, e, he, hcall⟩ := okShape_established hsh
      obtain ⟨evs2, htr2, hhead2, hr2, hc2, hl2⟩ :=
        ih t (by rw [hc]; exact Int.add_nonneg hn (by decide))
      have happ : established (evs ++ evs2) = sock :: established evs2 := by
        rw [established_append, hest, List.singleton_append]
        intro e2 he2 k n
        obtain ⟨pf, hpf⟩ := hhead2 e2 he2
        rw [hpf]; exact fun h => by cases h
      refine ⟨evs ++ evs2, ?_, ?_, ?_, ?_, ?_⟩
      · simp [establishAll, heq, htr2, htr]
      · intro e' he'
        cases evs with
        | nil => simp at he
        | cons a r =>
          simp only [List.cons_append, List.head?_cons, Option.some.injEq] at he' he
          rw [← he', he]; exact ⟨_, hcall⟩
      · simp [establishAll, heq, hr2, hr, happ]
      · simp [establishAll, heq, hc2, hc, happ]; ring
      · simp [establishAll, heq, hl2, happ]

/-- A sequence of calls run in two parts. -/
theorem establishAll_append (b : Build) (sys : Sys) (c1 c2 : List BindTarget) :
    ∀ s : State, (establishAll b sys (c1 ++ c2) s).2.state =
      if (establishAll b sys c1 s).2.isFatal = true then (establishAll b sys c1 s).2.state
      else (establishAll b sys c2 (establishAll b sys c1 s).2.state).2.state := by
  induction c1 with
  | nil => intro s; simp [establishAll, Outcome.isFatal, Outcome.state]
  | cons c cs ih =>
    intro s
    simp only [List.cons_append, establishAll]
    cases h : establishListen b sys c.pf c.addr c.addrlen s with
    | fatal f t => simp [Outcome.isFatal, Outcome.state]
    | ret r t => simp only []; exact ih t

/-- C6: starting from the empty registry (`numberOfListenSockets` 0, as at program start),
after any sequence of `establishListen` calls the registry holds exactly the descriptors whose
`bind()` and `listen(sock, 5)` both succeeded, in the order of the calls; the counter
`numberOfListenSockets` equals their number, which is the number of calls that returned 0, and
is not negative; and the registry after any initial part of the sequence is an initial part of
the final registry (entries are appended at the end, earlier entries stay). -/
theorem establishListen_registry_invariant (b : Build) (sys : Sys) (calls : List BindTarget)
    (s : State) (hzero : s.numberOfListenSockets = 0) :
    let run := establishAll b sys calls s
    let t := run.2.state
    let evs := newEvents s t
    registry t = established evs ∧
    t.numberOfListenSockets = (established evs).length ∧
    t.numberOfListenSockets = (run.1.filter (· = 0)).length ∧
    0 ≤ t.numberOfListenSockets ∧
    (∀ c1 c2, calls = c1 ++ c2 → registry (establishAll b sys c1 s).2.state <+: registry t) := by
  intro run t evs
  have hn : 0 ≤ s.numberOfListenSockets := by rw [hzero]
  obtain ⟨evs0, htr, -, hr, hc, hl⟩ := establishAll_invariant b sys calls s hn
  have hevs : evs = evs0 := newEvents_append s _ _ htr
  rw [registry_of_zero s hzero, List.nil_append] at hr
  rw [hzero, zero_add] at hc
  refine ⟨by rw [hevs]; exact hr, by rw [hevs]; exact hc, by rw [hl]; exact hc,
    by rw [show t.numberOfListenSockets = _ from hc]; exact Int.natCast_nonneg _, ?_⟩
  intro c1 c2 hcalls
  obtain ⟨evs1, -, -, hr1, hc1, -⟩ := establishAll_invariant b sys c1 s hn
  have hst := establishAll_append b sys c1 c2 s
  rw [← hcalls] at hst
  show registry (establishAll b sys c1 s).2.state <+: registry (establishAll b sys calls s).2.state
  rw [hst]
  split_ifs with hf
  · exact List.prefix_refl _
  · obtain ⟨evs2, -, -, hr2, -, -⟩ := establishAll_invariant b sys c2
      (establishAll b sys c1 s).2.state
      (by rw [hc1, hzero, zero_add]; exact Int.natCast_nonneg _)
    rw [hr2]
    exact List.prefix_append _ _

theorem establishListen_registry_invariant_witness :
    State.init.numberOfListenSockets = 0 ∧
    (establishAll Build.linux sysV4BindFails
      [⟨PF_INET6, .in6 6600 0, 28⟩, ⟨PF_INET, .in4 6600 0, 16⟩, ⟨PF_UNIX, .un "/tmp/x", 110⟩]
      State.init).1 = [0, -1, 0] ∧
    registry (establishAll Build.linux sysV4BindFails
      [⟨PF_INET6, .in6 6600 0, 28⟩, ⟨PF_INET, .in4 6600 0, 16⟩, ⟨PF_UNIX, .un "/tmp/x", 110⟩]
      State.init).2.state = [3, 5] :=
  ⟨rfl, by decide,
    (establishListen_registry_invariant Build.linux sysV4BindFails
      [⟨PF_INET6, .in6 6600 0, 28⟩, ⟨PF_INET, .in4 6600 0, 16⟩, ⟨PF_UNIX, .un "/tmp/x", 110⟩]
      State.init rfl).1.trans (by decide)⟩

theorem closeRetry_mono (sys : Sys) (fd : Int) (fuel : Nat) :
    ∀ (s t : State), closeRetry sys fd fuel s = some t →
      ∀ k, closeRetry sys fd (fuel + k) s = some t := by
  induction fuel with
  | zero => intro s t h; simp [closeRetry] at h
  | succ n ih =>
    intro s t h k
    rw [show n + 1 + k = (n + k) + 1 by omega]
    unfold closeRetry at h ⊢
    simp only [] at h ⊢
    split_ifs at h ⊢ with hc
    · exact ih _ _ h k
    · exact h

theorem closeRetry_spec (sys : Sys) (fd : Int) (fuel : Nat) :
    ∀ (s t : State), closeRetry sys fd fuel s = some t →
      ∃ evs, t.trace = s.trace ++ evs ∧ closeCalls evs = evs ∧
        closesWithRetry [fd] evs = true ∧
        t.listenSockets = s.listenSockets ∧
        t.numberOfListenSockets = s.numberOfListenSockets := by
  induction fuel with
  | zero => intro s t h; simp [closeRetry] at h
  | succ n ih =>
    intro s t h
    unfold closeRetry at h
    simp only [] at h
    split_ifs at h with hc
    · obtain ⟨evs, htr, hcl, hcr, ha, hn⟩ := ih _ _ h
      refine ⟨{ call := .close fd, ret := sys.ret s.trace (.close fd),
                errno := (sysCall sys (.close fd) s).2.errno } :: evs, ?_, ?_, ?_, ha, hn⟩
      · rw [htr, sysCall_trace, List.append_assoc]; rfl
      · simp only [closeCalls, List.filter_cons_of_pos, List.cons.injEq, true_and]
        exact hcl
      · simp only [closesWithRetry, decide_True, Bool.true_and]
        rw [if_pos (by simpa using hc)]
        exact hcr
    · simp only [Option.some.injEq] at h
      subst h
      refine ⟨[{ call := .close fd, ret := sys.ret s.trace (.close fd),
                 errno := (sysCall sys (.close fd) s).2.errno }],
        sysCall_trace _ _ _, by simp [closeCalls], ?_, rfl, rfl⟩
      simp only [closesWithRetry, decide_True, Bool.true_and]
      rw [if_neg (by simpa using hc)]

theorem closesWithRetry_append (fd : Int) (fds : List Int) (evs2 : List Event)
    (h2 : closesWithRetry fds evs2 = true) :
    ∀ evs1 : List Event, closesWithRetry [fd] evs1 = true →
      closesWithRetry (fd :: fds) (evs1 ++ evs2) = true := by
  intro evs1
  induction evs1 with
  | nil => intro h; simp [closesWithRetry] at h
  | cons e es ih =>
    intro h
    simp only [closesWithRetry, Bool.and_eq_true, decide_eq_true_eq] at h
    obtain ⟨hcall, hrest⟩ := h
    simp only [List.cons_append, closesWithRetry, Bool.and_eq_true, decide_eq_true_eq]
    refine ⟨hcall, ?_⟩
    split_ifs at hrest ⊢ with hc
    · exact ih hrest
    · cases es with
      | nil => simpa using h2
      | cons a r => simp [closesWithRetry] at hrest

theorem closeCalls_append (a c : List Event) :
    closeCalls (a ++ c) = closeCalls a ++ closeCalls c := by
  unfold closeCalls
  exact List.filter_append _ _

theorem closeLoop_mono (sys : Sys) (fuel : Nat) (l : List Nat) :
    ∀ (s t : State), closeLoop sys fuel l s = some t →
      ∀ k, closeLoop sys (fuel + k) l s = some t := by
  induction l with
  | nil => intro s t h k; simpa [closeLoop] using h
  | cons i rest ih =>
    intro s t h k
    simp only [closeLoop, Option.bind_eq_some] at h ⊢
    obtain ⟨t1, h1, h2⟩ := h
    exact ⟨t1, closeRetry_mono sys _ fuel _ _ h1 k, ih _ _ h2 k⟩

/-- The loop of `closeAllListenSockets`, when no retry loop runs for ever. -/
theorem closeLoop_spec (sys : Sys)
    (hterm : ∀ (fd : Int) (s0 : State), ∃ fuel, (closeRetry sys fd fuel s0).isSome = true)
    (l : List Nat) :
    ∀ s : State, ∃ fuel t evs, closeLoop sys fuel l s = some t ∧
      t.trace = s.trace ++ evs ∧
      closesWithRetry (l.map (listenSocketAt s)) (closeCalls evs) = true ∧
      t.listenSockets = s.listenSockets ∧
      t.numberOfListenSockets = s.numberOfListenSockets := by
  induction l with
  | nil => intro s; exact ⟨0, s, [], rfl, by simp, rfl, rfl, rfl⟩
  | cons i rest ih =>
    intro s
    obtain ⟨fuel1, h1⟩ :=
      hterm (listenSocketAt s i) (DEBUG ("closing listen socket " ++ toString i ++ "\n") s)
    obtain ⟨t1, ht1⟩ := Option.isSome_iff_exists.mp h1
    obtain ⟨evs1, htr1, hcl1, hcr1, ha1, hn1⟩ := closeRetry_spec sys _ _ _ _ ht1
    obtain ⟨fuel2, t2, evs2, h2, htr2, hcr2, ha2, hn2⟩ := ih t1
    have hmap : rest.map (listenSocketAt t1) = rest.map (listenSocketAt s) := by
      apply List.map_congr_left
      intro j _
      unfold listenSocketAt
      rw [ha1]; rfl
    rw [hmap] at hcr2
    obtain ⟨d, hd, hdc⟩ : ∃ d : Event,
        (DEBUG ("closing listen socket " ++ toString i ++ "\n") s).trace = s.trace ++ [d] ∧
        closeCalls [d] = [] := ⟨_, DEBUG_trace _ _, by simp [closeCalls]⟩
    refine ⟨fuel1 + fuel2, t2, [d] ++ (evs1 ++ evs2), ?_, ?_, ?_, ?_, ?_⟩
    · simp only [closeLoop, Option.bind_eq_some]
      refine ⟨t1, closeRetry_mono sys _ fuel1 _ _ ht1 fuel2, ?_⟩
      rw [Nat.add_comm]
      exact closeLoop_mono sys fuel2 rest _ _ h2 fuel1
    · rw [htr2, htr1, hd]; simp
    · rw [List.map_cons, closeCalls_append, closeCalls_append, hdc, hcl1, List.nil_append]
      exact closesWithRetry_append _ _ _ hcr2 _ hcr1
    · rw [ha2, ha1]; rfl
    · rw [hn2, hn1]; rfl

theorem closeAllListenSockets_of_empty (sys : Sys) (fuel : Nat) (s : State)
    (h : s.numberOfListenSockets = 0) :
    closeAllListenSockets sys fuel s =
      some (freeAllListenSockets (DEBUG "closeAllListenSockets called\n" s)) := by
  unfold closeAllListenSockets
  simp only []
  rw [show (DEBUG "closeAllListenSockets called\n" s).numberOfListenSockets = 0 from h]
  rfl

/-- C7: if no retry loop `while (close(fd) < 0 && errno == EINTR)` runs for ever in the
environment, `closeAllListenSockets` returns: with enough fuel it yields a state `t`, the same
for every amount of fuel that suffices.  Its `close` calls go through the registry in order, for
each descriptor a run of calls on it of which all but the last failed with `EINTR`; afterwards
`numberOfListenSockets` is 0 and `listenSockets` is NULL.  Called again on that state it returns
at once (with any fuel), makes no `close` call and leaves the registry empty, and
`addListenSocketsToFdSet` then adds no descriptor and leaves `fdmax` as it was. -/
theorem closeAllListenSockets_closes_all (sys : Sys) (s : State)
    (hterm : ∀ (fd : Int) (s0 : State), ∃ fuel, (closeRetry sys fd fuel s0).isSome = true) :
    ∃ fuel t,
      (∀ fuel', fuel ≤ fuel' → closeAllListenSockets sys fuel' s = some t) ∧
      (∀ fuel' t', closeAllListenSockets sys fuel' s = some t' → t' = t) ∧
      closesWithRetry (registry s) (closeCalls (newEvents s t)) = true ∧
      t.numberOfListenSockets = 0 ∧ t.listenSockets = none ∧ registry t = [] ∧
      (∀ fuel2, ∃ t2, closeAllListenSockets sys fuel2 t = some t2 ∧
        closeCalls (newEvents t t2) = [] ∧
        t2.numberOfListenSockets = 0 ∧ t2.listenSockets = none) ∧
      (∀ fds fdmax, addListenSocketsToFdSet fds fdmax t = ((fds, fdmax), t)) := by
  obtain ⟨fuel, t1, evs, hloop, htr, hcr, ha, hn⟩ :=
    closeLoop_spec sys hterm (List.range s.numberOfListenSockets.toNat)
      (DEBUG "closeAllListenSockets called\n" s)
  have hall : ∀ k, closeAllListenSockets sys (fuel + k) s = some (freeAllListenSockets t1) := by
    intro k
    unfold closeAllListenSockets
    simp only []
    rw [show (DEBUG "closeAllListenSockets called\n" s).numberOfListenSockets =
      s.numberOfListenSockets from rfl, closeLoop_mono sys fuel _ _ _ hloop k]
    rfl
  have hcnt : (freeAllListenSockets t1).numberOfListenSockets = 0 := rfl
  refine ⟨fuel, freeAllListenSockets t1, ?_, ?_, ?_, hcnt, rfl, registry_of_zero _ hcnt, ?_, ?_⟩
  · intro fuel' hle
    obtain ⟨k, rfl⟩ := Nat.exists_eq_add_of_le hle
    exact hall k
  · intro fuel' t' h'
    have h1 : closeAllListenSockets sys (fuel' + fuel) s = some t' := by
      unfold closeAllListenSockets at h' ⊢
      simp only [Option.map_eq_some'] at h' ⊢
      obtain ⟨a, ha1, ha2⟩ := h'
      exact ⟨a, closeLoop_mono sys fuel' _ _ _ ha1 fuel, ha2⟩
    rw [Nat.add_comm, hall fuel'] at h1
    exact (Option.some.inj h1).symm
  · obtain ⟨d, hd, hdc⟩ : ∃ d : Event,
        (DEBUG "closeAllListenSockets called\n" s).trace = s.trace ++ [d] ∧
        closeCalls [d] = [] := ⟨_, DEBUG_trace _ _, by simp [closeCalls]⟩
    have hev : newEvents s (freeAllListenSockets t1) = [d] ++ evs := by
      apply newEvents_append
      show t1.trace = _
      rw [htr, hd, List.append_assoc]
    rw [hev, closeCalls_append, hdc, List.nil_append]
    exact hcr
  · intro fuel2
    refine ⟨_, closeAllListenSockets_of_empty sys fuel2 _ hcnt, ?_, rfl, rfl⟩
    rw [newEvents_append (freeAllListenSockets t1)
      (freeAllListenSockets (DEBUG "closeAllListenSockets called\n" (freeAllListenSockets t1)))
      _ (DEBUG_trace "closeAllListenSockets called\n" (freeAllListenSockets t1))]
    simp [closeCalls]
  · intro fds fdmax
    unfold addListenSocketsToFdSet
    rw [hcnt]
    rfl

theorem closeAllListenSockets_closes_all_witness :
    (∀ (fd : Int) (s0 : State),
      ∃ fuel, (closeRetry sysCloseInterrupted fd fuel s0).isSome = true) ∧
    (closeCalls (newEvents stateTwoSockets
        ((closeAllListenSockets sysCloseInterrupted 2 stateTwoSockets).getD stateTwoSockets))).map
      (fun e => (e.call, e.ret)) =
      [(.close 3, -1), (.close 3, 0), (.close 4, -1), (.close 4, 0)] ∧
    ∃ t, closeAllListenSockets sysCloseInterrupted 2 stateTwoSockets = some t ∧
      closesWithRetry [3, 4] (closeCalls (newEvents stateTwoSockets t)) = true ∧
      registry t = [] := by
  have hterm : ∀ (fd : Int) (s0 : State),
      ∃ fuel, (closeRetry sysCloseInterrupted fd fuel s0).isSome = true := by
    intro fd s0
    refine ⟨2, ?_⟩
    simp only [closeRetry, sysCall, sysCloseInterrupted]
    split_ifs <;> simp_all
  obtain ⟨fuel, t, -, huniq, hcl, -, -, hreg, -⟩ :=
    closeAllListenSockets_closes_all sysCloseInterrupted stateTwoSockets hterm
  refine ⟨hterm, by decide, ?_⟩
  cases h2 : closeAllListenSockets sysCloseInterrupted 2 stateTwoSockets with
  | none => exact absurd h2 (by decide)
  | some t0 =>
    have := huniq 2 t0 h2
    subst this
    exact ⟨t0, rfl, hcl, hreg⟩

theorem fdset_fold (l : List Int) :
    ∀ (fds : Int → Bool) (fdmax : Int),
      (∀ x, (l.foldl (fun (acc : (Int → Bool) × Int) fd =>
          (FD_SET fd acc.1, if fd > acc.2 then fd else acc.2)) (fds, fdmax)).1 x =
        (fds x || decide (x ∈ l))) ∧
      (l.foldl (fun (acc : (Int → Bool) × Int) fd =>
          (FD_SET fd acc.1, if fd > acc.2 then fd else acc.2)) (fds, fdmax)).2 =
        l.foldl max fdmax := by
  induction l with
  | nil => intro fds fdmax; simp
  | cons a r ih =>
    intro fds fdmax
    simp only [List.foldl_cons]
    obtain ⟨h1, h2⟩ := ih (FD_SET a fds) (if a > fdmax then a else fdmax)
    refine ⟨fun x => ?_, ?_⟩
    · rw [h1 x]
      simp only [FD_SET, List.mem_cons, Bool.decide_or]
      cases fds x <;> cases decide (x ∈ r) <;> simp [beq_eq_decide]
    · rw [h2]
      congr 1
      split_ifs with h
      · exact (max_eq_right (le_of_lt h)).symm
      · exact (max_eq_left (not_lt.mp h)).symm

theorem foldl_max_facts (l : List Int) :
    ∀ m : Int, m ≤ l.foldl max m ∧ (∀ x ∈ l, x ≤ l.foldl max m) ∧
      (l.foldl max m = m ∨ l.foldl max m ∈ l) := by
  induction l with
  | nil => intro m; simp
  | cons a r ih =>
    intro m
    obtain ⟨h1, h2, h3⟩ := ih (max m a)
    simp only [List.foldl_cons, List.mem_cons, forall_eq_or_imp]
    refine ⟨le_trans (le_max_left m a) h1, ⟨le_trans (le_max_right m a) h1, h2⟩, ?_⟩
    rcases h3 with h | h
    · rw [h]
      rcases max_choice m a with hm | hm
      · exact Or.inl hm
      · exact Or.inr (Or.inl hm)
    · exact Or.inr (Or.inr h)

/-- C8: `addListenSocketsToFdSet` yields the set `fds` united with exactly the descriptors the
registry holds; the `fdmax` it reports is the maximum of the prior `fdmax` and the held
descriptors, so it is at least every held descriptor and at least its prior value, and it is
either the prior value or a held descriptor; the program state, and with it the registry, is
left unchanged. -/
theorem addListenSocketsToFdSet_union_max (fds : Int → Bool) (fdmax : Int) (s : State) :
    (∀ x, (addListenSocketsToFdSet fds fdmax s).1.1 x = (fds x || decide (x ∈ registry s))) ∧
    (addListenSocketsToFdSet fds fdmax s).1.2 = (registry s).foldl max fdmax ∧
    (∀ fd ∈ registry s, fd ≤ (addListenSocketsToFdSet fds fdmax s).1.2) ∧
    fdmax ≤ (addListenSocketsToFdSet fds fdmax s).1.2 ∧
    ((addListenSocketsToFdSet fds fdmax s).1.2 = fdmax ∨
      (addListenSocketsToFdSet fds fdmax s).1.2 ∈ registry s) ∧
    (addListenSocketsToFdSet fds fdmax s).2 = s ∧
    registry (addListenSocketsToFdSet fds fdmax s).2 = registry s := by
  have hfold : (addListenSocketsToFdSet fds fdmax s).1 =
      (registry s).foldl (fun (acc : (Int → Bool) × Int) fd =>
        (FD_SET fd acc.1, if fd > acc.2 then fd else acc.2)) (fds, fdmax) := by
    unfold addListenSocketsToFdSet registry
    rw [List.foldl_map]
  obtain ⟨h1, h2⟩ := fdset_fold (registry s) fds fdmax
  obtain ⟨m1, m2, m3⟩ := foldl_max_facts (registry s) fdmax
  rw [hfold, h2]
  exact ⟨h1, rfl, m2, m1, m3, rfl, rfl⟩

theorem get_remote_uid_facts (b : Build) (sys : Sys) (fd : Int) (s : State) :
    ∃ evs, (get_remote_uid b sys fd s).2.trace = s.trace ++ evs ∧
      acceptedOn evs = [] ∧ clientNewFds evs = [] ∧ errorLogs evs = [] ∧
      (get_remote_uid b sys fd s).2.listenSockets = s.listenSockets ∧
      (get_remote_uid b sys fd s).2.numberOfListenSockets = s.numberOfListenSockets := by
  unfold get_remote_uid
  simp only []
  split_ifs with h1 h2
  · refine ⟨_, sysCall_trace _ _ _, ?_, ?_, ?_, rfl, rfl⟩
    · simp [acceptedOn]
    · simp [clientNewFds]
    · simp [errorLogs]
  · refine ⟨_, sysCall_trace _ _ _, ?_, ?_, ?_, rfl, rfl⟩
    · simp [acceptedOn]
    · simp [clientNewFds]
    · simp [errorLogs]
  · exact ⟨[], by simp, rfl, rfl, rfl, rfl, rfl⟩

theorem acceptedOn_append (a c : List Event) :
    acceptedOn (a ++ c) = acceptedOn a ++ acceptedOn c := by
  unfold acceptedOn
  exact List.filterMap_append _ _ _

theorem clientNewFds_append (a c : List Event) :
    clientNewFds (a ++ c) = clientNewFds a ++ clientNewFds c := by
  unfold clientNewFds
  exact List.filterMap_append _ _ _

theorem errorLogs_append (a c : List Event) :
    errorLogs (a ++ c) = errorLogs a ++ errorLogs c := by
  unfold errorLogs
  exact List.filter_append _ _

/-- One iteration of the loop of `getConnections`. -/
theorem getConnectionsStep_spec (b : Build) (sys : Sys) (fds : Int → Bool) (acc : Nat × State)
    (i : Nat) :
    ∃ blk, (getConnectionsStep b sys fds acc i).2.trace = acc.2.trace ++ blk ∧
      passBlock fds (listenSocketAt acc.2 i) blk ∧
      (getConnectionsStep b sys fds acc i).2.listenSockets = acc.2.listenSockets ∧
      (getConnectionsStep b sys fds acc i).2.numberOfListenSockets =
        acc.2.numberOfListenSockets := by
  unfold getConnectionsStep passBlock
  obtain ⟨ea, hea, hcall, hret, herrno⟩ : ∃ ea : Event,
      (sysCall sys (.accept (listenSocketAt acc.2 i) acc.1) acc.2).2.trace =
        acc.2.trace ++ [ea] ∧
      ea.call = .accept (listenSocketAt acc.2 i) acc.1 ∧
      ea.ret = sys.ret acc.2.trace (.accept (listenSocketAt acc.2 i) acc.1) ∧
      ea.errno = (sysCall sys (.accept (listenSocketAt acc.2 i) acc.1) acc.2).2.errno :=
    ⟨_, sysCall_trace _ _ _, rfl, rfl, rfl⟩
  by_cases hr : fds (listenSocketAt acc.2 i) = true
  · simp only [hr, if_true]
    by_cases hok : (sysCall sys (.accept (listenSocketAt acc.2 i) acc.1) acc.2).1 ≥ 0
    · simp only [hok, if_true]
      obtain ⟨evs, htr, ha, hc, he, hl, hn⟩ := get_remote_uid_facts b sys
        (sysCall sys (.accept (listenSocketAt acc.2 i) acc.1) acc.2).1
        (sysCall sys (.accept (listenSocketAt acc.2 i) acc.1) acc.2).2
      obtain ⟨ec, hec, hcfd⟩ : ∃ ec : Event, (emit (.client_new
            (sysCall sys (.accept (listenSocketAt acc.2 i) acc.1) acc.2).1
            (sys.peer_addr acc.2.trace (.accept (listenSocketAt acc.2 i) acc.1))
            (get_remote_uid b sys (sysCall sys (.accept (listenSocketAt acc.2 i) acc.1) acc.2).1
              (sysCall sys (.accept (listenSocketAt acc.2 i) acc.1) acc.2).2).1)
            (get_remote_uid b sys (sysCall sys (.accept (listenSocketAt acc.2 i) acc.1) acc.2).1
              (sysCall sys (.accept (listenSocketAt acc.2 i) acc.1) acc.2).2).2).trace =
            (get_remote_uid b sys (sysCall sys (.accept (listenSocketAt acc.2 i) acc.1) acc.2).1
              (sysCall sys (.accept (listenSocketAt acc.2 i) acc.1) acc.2).2).2.trace ++ [ec] ∧
          clientNewFds [ec] = [ea.ret] ∧ acceptedOn [ec] = [] ∧ errorLogs [ec] = [] :=
        ⟨_, emit_trace _ _, by simp [clientNewFds, hret], by simp [acceptedOn],
          by simp [errorLogs]⟩
      refine ⟨ea :: (evs ++ [ec]), ?_, ⟨ea, evs ++ [ec], rfl, ⟨_, hcall⟩, ?_, ?_, ?_⟩, ?_, ?_⟩
      · rw [hec, htr, hea]
        simp
      · rw [acceptedOn_append, ha, hcfd.2.1]; rfl
      · intro _
        rw [clientNewFds_append, errorLogs_append, hc, he, hcfd.1, hcfd.2.2]
        exact ⟨rfl, rfl⟩
      · intro hneg
        simp only [sysCall_fst] at hok
        rw [hret] at hneg
        exact absurd hneg (not_lt.mpr hok)
      · rw [emit_listenSockets, hl]; rfl
      · rw [emit_numberOfListenSockets, hn]; rfl
    · simp only [hok, if_false]
      have hneg : ¬ (0 ≤ ea.ret) := by
        rw [hret]; simpa using hok
      split_ifs with herr
      · refine ⟨[ea, { call := .log .ERROR "Problems accept()'ing\n", ret := 0,
                       errno := ea.errno }], ?_, ⟨ea, _, rfl, ⟨_, hcall⟩, ?_, ?_, ?_⟩, rfl, rfl⟩
        · show (emit _ _).trace = _
          rw [emit_trace, hea, herrno]; simp
        · simp [acceptedOn]
        · intro hpos; exact absurd hpos hneg
        · intro _
          rw [← herrno] at herr
          refine ⟨by simp [clientNewFds], fun h => ?_, fun _ => rfl⟩
          rcases h with h | h
          · exact absurd h herr.1
          · exact absurd h herr.2
      · refine ⟨[ea], hea, ⟨ea, [], rfl, ⟨_, hcall⟩, rfl, ?_, ?_⟩, rfl, rfl⟩
        · intro hpos; exact absurd hpos hneg
        · intro _
          rw [← herrno] at herr
          refine ⟨rfl, fun _ => rfl, fun h => ?_⟩
          exfalso
          apply herr
          constructor
          · intro h1; exact h (Or.inl h1)
          · intro h1; exact h (Or.inr h1)
  · simp only [hr]
    exact ⟨[], by simp, by simp, rfl, rfl⟩

/-- The loop of `getConnections` over the indices `l`. -/
theorem getConnections_loop (b : Build) (sys : Sys) (fds : Int → Bool)
    (L : Option (List Int)) (l : List Nat) :
    ∀ acc : Nat × State, acc.2.listenSockets = L →
      ∃ blocks : List (List Event),
        (l.foldl (getConnectionsStep b sys fds) acc).2.trace = acc.2.trace ++ blocks.flatten ∧
        List.Forall₂ (passBlock fds) (l.map fun i => (L.getD []).getD i 0) blocks ∧
        (l.foldl (getConnectionsStep b sys fds) acc).2.listenSockets = L ∧
        (l.foldl (getConnectionsStep b sys fds) acc).2.numberOfListenSockets =
          acc.2.numberOfListenSockets := by
  induction l with
  | nil =>
    intro acc hL
    exact ⟨[], by simp, by simp, hL, rfl⟩
  | cons i rest ih =>
    intro acc hL
    obtain ⟨blk, htr, hblk, hl, hn⟩ := getConnectionsStep_spec b sys fds acc i
    obtain ⟨blocks, htr2, hall, hl2, hn2⟩ := ih (getConnectionsStep b sys fds acc i)
      (by rw [hl, hL])
    refine ⟨blk :: blocks, ?_, ?_, ?_, ?_⟩
    · simp only [List.foldl_cons, List.flatten_cons]
      rw [htr2, htr, List.append_assoc]
    · simp only [List.map_cons]
      refine List.Forall₂.cons ?_ hall
      have : listenSocketAt acc.2 i = (L.getD []).getD i 0 := by
        unfold listenSocketAt; rw [hL]
      rw [← this]; exact hblk
    · simpa using hl2
    · simp only [List.foldl_cons]; rw [hn2, hn]

/-- A pass of `getConnections`, entry by entry. -/
theorem getConnections_blocks (b : Build) (sys : Sys) (fds : Int → Bool) (s : State) :
    ∃ blocks : List (List Event),
      newEvents s (getConnections b sys fds s) = blocks.flatten ∧
      List.Forall₂ (passBlock fds) (registry s) blocks ∧
      (getConnections b sys fds s).listenSockets = s.listenSockets ∧
      (getConnections b sys fds s).numberOfListenSockets = s.numberOfListenSockets := by
  obtain ⟨blocks, htr, hall, hl, hn⟩ := getConnections_loop b sys fds s.listenSockets
    (List.range s.numberOfListenSockets.toNat) (b.sizeof_sockaddr, s) rfl
  exact ⟨blocks, newEvents_append s _ _ htr, hall, hl, hn⟩

theorem acceptedFds_append (a c : List Event) :
    acceptedFds (a ++ c) = acceptedFds a ++ acceptedFds c := by
  unfold acceptedFds
  exact List.filterMap_append _ _ _

theorem hardAcceptFailures_append (a c : List Event) :
    hardAcceptFailures (a ++ c) = hardAcceptFailures a ++ hardAcceptFailures c := by
  unfold hardAcceptFailures
  exact List.filter_append _ _

theorem no_accept_facts (seg : List Event) (h : acceptedOn seg = []) :
    acceptedFds seg = [] ∧ hardAcceptFailures seg = [] := by
  unfold acceptedOn at h
  rw [List.filterMap_eq_nil_iff] at h
  constructor
  · unfold acceptedFds
    rw [List.filterMap_eq_nil_iff]
    intro e he
    have := h e he
    split at this
    · cases this
    · rfl
  · unfold hardAcceptFailures
    rw [List.filter_eq_nil_iff]
    intro e he
    have := h e he
    split at this
    · cases this
    · simp

/-- What a pass made of blocks adds up to. -/
theorem passBlocks_totals (fds : Int → Bool) (reg : List Int) (blocks : List (List Event))
    (h : List.Forall₂ (passBlock fds) reg blocks) :
    acceptedOn blocks.flatten = reg.filter (fun fd => fds fd) ∧
    clientNewFds blocks.flatten = acceptedFds blocks.flatten ∧
    (errorLogs blocks.flatten).length = (hardAcceptFailures blocks.flatten).length := by
  induction h with
  | nil => simp [acceptedOn, clientNewFds, acceptedFds, errorLogs, hardAcceptFailures]
  | @cons fd blk reg blocks hb _ ih =>
    obtain ⟨ih1, ih2, ih3⟩ := ih
    simp only [List.flatten_cons, acceptedOn_append, clientNewFds_append, acceptedFds_append,
      errorLogs_append, hardAcceptFailures_append, List.length_append, ih1, ih2, ih3]
    unfold passBlock at hb
    by_cases hr : fds fd = true
    · rw [if_pos hr] at hb
      obtain ⟨e, seg, rfl, ⟨len, hcall⟩, hseg, hpos, hneg⟩ := hb
      obtain ⟨n1, n2⟩ := no_accept_facts seg hseg
      have e1 : acceptedOn (e :: seg) = [fd] := by
        rw [show e :: seg = [e] ++ seg from rfl, acceptedOn_append, hseg]
        simp [acceptedOn, hcall]
      have e2 : acceptedFds (e :: seg) = if 0 ≤ e.ret then [e.ret] else [] := by
        rw [show e :: seg = [e] ++ seg from rfl, acceptedFds_append, n1]
        simp only [acceptedFds, List.filterMap_cons, hcall, List.filterMap_nil, List.append_nil]
        split_ifs <;> rfl
      have e3 : hardAcceptFailures (e :: seg) =
          if e.ret < 0 ∧ ¬ (e.errno = EAGAIN ∨ e.errno = EINTR) then [e] else [] := by
        rw [show e :: seg = [e] ++ seg from rfl, hardAcceptFailures_append, n2]
        simp only [hardAcceptFailures, List.filter_cons, hcall, List.filter_nil,
          List.append_nil]
        split_ifs <;> simp_all
      have e4 : clientNewFds (e :: seg) = clientNewFds seg := by
        simp [clientNewFds, hcall]
      have e5 : errorLogs (e :: seg) = errorLogs seg := by
        simp [errorLogs, hcall]
      rw [e1, e2, e3, e4, e5, List.filter_cons_of_pos (by simpa using hr)]
      by_cases hret : 0 ≤ e.ret
      · obtain ⟨c1, c2⟩ := hpos hret
        have : ¬ (e.ret < 0 ∧ ¬ (e.errno = EAGAIN ∨ e.errno = EINTR)) := by
          intro h; omega
        simp [hret, c1, c2, this]
      · obtain ⟨c1, c2, c3⟩ := hneg (by omega)
        by_cases hsoft : e.errno = EAGAIN ∨ e.errno = EINTR
        · have hs := c2 hsoft
          subst hs
          simp [hret, clientNewFds, errorLogs, hsoft]
        · have hs := c3 hsoft
          have hlt : e.ret < 0 := by omega
          simp [hret, hs, clientNewFds, errorLogs, hsoft, hlt]
    · rw [if_neg hr] at hb
      subst hb
      rw [List.filter_cons_of_neg (by simpa using hr)]
      simp [acceptedOn, clientNewFds, acceptedFds, errorLogs, hardAcceptFailures]

/-- C9: a pass of `getConnections` goes through the registry in order, and each entry
contributes its own block of calls: none if its descriptor is not in the readable set, and
otherwise exactly one `accept` on that descriptor followed by exactly one `client_new` with the
accepted descriptor if the `accept` succeeded and by no `client_new` if it failed.  Hence the
`accept` calls of the pass are the readable registry entries in registry order, the descriptors
given to `client_new` are the results of the successful `accept` calls in order, and with an
empty readable set the pass makes no call at all. -/
theorem getConnections_accepts (b : Build) (sys : Sys) (fds : Int → Bool) (s : State) :
    (∃ blocks : List (List Event),
      newEvents s (getConnections b sys fds s) = blocks.flatten ∧
      List.Forall₂ (fun fd blk =>
        if fds fd = true then
          ∃ e seg, blk = e :: seg ∧ (∃ len, e.call = .accept fd len) ∧ acceptedOn seg = [] ∧
            clientNewFds seg = if 0 ≤ e.ret then [e.ret] else []
        else blk = []) (registry s) blocks) ∧
    acceptedOn (newEvents s (getConnections b sys fds s)) =
      (registry s).filter (fun fd => fds fd) ∧
    clientNewFds (newEvents s (getConnections b sys fds s)) =
      acceptedFds (newEvents s (getConnections b sys fds s)) ∧
    ((∀ fd ∈ registry s, fds fd = false) → newEvents s (getConnections b sys fds s) = []) := by
  obtain ⟨blocks, hev, hall, -, -⟩ := getConnections_blocks b sys fds s
  obtain ⟨t1, t2, -⟩ := passBlocks_totals fds _ _ hall
  refine ⟨⟨blocks, hev, ?_⟩, by rw [hev]; exact t1, by rw [hev]; exact t2, ?_⟩
  · refine hall.imp ?_
    intro fd blk hb
    unfold passBlock at hb
    split_ifs at hb ⊢ with hr
    · obtain ⟨e, seg, hblk, hcall, hseg, hpos, hneg⟩ := hb
      refine ⟨e, seg, hblk, hcall, hseg, ?_⟩
      split_ifs with hret
      · exact (hpos hret).1
      · exact (hneg (by omega)).1
    · exact hb
  · intro hnone
    rw [hev]
    have hnil : ∀ blk ∈ blocks, blk = [] := by
      clear hev t1 t2
      generalize registry s = reg at hall hnone
      induction hall with
      | nil => simp
      | @cons fd blk reg blocks hb _ ih =>
        intro x hx
        simp only [List.mem_cons] at hx
        rcases hx with rfl | hx
        · unfold passBlock at hb
          rw [if_neg (by simp [hnone fd (List.mem_cons_self _ _)])] at hb
          exact hb
        · exact ih (fun fd' h' => hnone fd' (List.mem_cons_of_mem _ h')) x hx
    exact List.flatten_eq_nil_iff.mpr hnil

/-- C10: in a pass of `getConnections` every entry still contributes its block whatever happened
to the entries before it (the `accept` calls are the readable entries in registry order), and
the block of a failed `accept` consists of that call alone if `errno` is `EAGAIN` or `EINTR`,
and of that call followed by exactly one `ERROR` line otherwise; no `client_new` follows a failed
`accept`.  The number of `ERROR` lines of the pass is the number of `accept` calls that failed
with another `errno`.  `listenSockets` and `numberOfListenSockets`, and so the registry, are the
same after the pass as before. -/
theorem getConnections_accept_failures (b : Build) (sys : Sys) (fds : Int → Bool) (s : State) :
    (∃ blocks : List (List Event),
      newEvents s (getConnections b sys fds s) = blocks.flatten ∧
      List.Forall₂ (fun fd blk =>
        if fds fd = true then
          ∃ e seg, blk = e :: seg ∧ (∃ len, e.call = .accept fd len) ∧
            (e.ret < 0 → (e.errno = EAGAIN ∨ e.errno = EINTR) → seg = []) ∧
            (e.ret < 0 → ¬ (e.errno = EAGAIN ∨ e.errno = EINTR) →
              seg = [{ call := .log .ERROR "Problems accept()'ing\n", ret := 0,
                       errno := e.errno }])
        else blk = []) (registry s) blocks) ∧
    acceptedOn (newEvents s (getConnections b sys fds s)) =
      (registry s).filter (fun fd => fds fd) ∧
    (errorLogs (newEvents s (getConnections b sys fds s))).length =
      (hardAcceptFailures (newEvents s (getConnections b sys fds s))).length ∧
    (getConnections b sys fds s).listenSockets = s.listenSockets ∧
    (getConnections b sys fds s).numberOfListenSockets = s.numberOfListenSockets ∧
    registry (getConnections b sys fds s) = registry s := by
  obtain ⟨blocks, hev, hall, hl, hn⟩ := getConnections_blocks b sys fds s
  obtain ⟨t1, -, t3⟩ := passBlocks_totals fds _ _ hall
  refine ⟨⟨blocks, hev, ?_⟩, by rw [hev]; exact t1, by rw [hev]; exact t3, hl, hn,
    registry_congr hl hn⟩
  refine hall.imp ?_
  intro fd blk hb
  unfold passBlock at hb
  split_ifs at hb ⊢ with hr
  · obtain ⟨e, seg, hblk, hcall, -, -, hneg⟩ := hb
    exact ⟨e, seg, hblk, hcall, fun h1 h2 => (hneg h1).2.1 h2, fun h1 h2 => (hneg h1).2.2 h2⟩
  · exact hb

/-- C11 (the code at the failing input): without `HAVE_STRUCT_UCRED` the identity is -1, but
with it a failing `getsockopt(SO_PEERCRED)` makes `get_remote_uid` return 0; in a pass where
`accept` succeeds and the credential query fails, `client_new` is called with user id 0. -/
theorem getConnections_uid_on_query_failure :
    (∀ (b : Build) (sys : Sys) (fd : Int) (s : State), b.HAVE_STRUCT_UCRED = false →
      (get_remote_uid b sys fd s).1 = -1) ∧
    (∀ (b : Build) (sys : Sys) (fd : Int) (s : State), b.HAVE_STRUCT_UCRED = true →
      sys.ret s.trace (.getsockopt fd .SO_PEERCRED) < 0 →
      (get_remote_uid b sys fd s).1 = 0) ∧
    (newEvents stateFiveSix
      (getConnections Build.linux sysAcceptMixed (fun fd => fd == 5) stateFiveSix)).map
        (fun e => (e.call, e.ret)) =
      [(.accept 5 16, 7), (.getsockopt 7 .SO_PEERCRED, -1),
       (.client_new 7 (.in6 40000 1) 0, 0)] ∧
    clientNewUids (newEvents stateFiveSix
      (getConnections Build.linux sysAcceptMixed (fun fd => fd == 5) stateFiveSix)) = [0] := by
  refine ⟨?_, ?_, by decide, by decide⟩
  · intro b sys fd s h
    simp [get_remote_uid, h]
  · intro b sys fd s h hfail
    simp [get_remote_uid, h, hfail]

/-- C18 (the code at the failing input): two readable listening sockets, a 16-byte
`struct sockaddr`; the first `accept` writes back 28 as the address length, and the second
`accept` is then given 28, not 16. -/
theorem getConnections_socklen_not_reset :
    Build.linux.sizeof_sockaddr = 16 ∧
    acceptAddrlens (newEvents stateFiveSix
      (getConnections Build.linux sysAcceptMixed (fun _ => true) stateFiveSix)) = [16, 28] ∧
    (newEvents stateFiveSix
      (getConnections Build.linux sysAcceptMixed (fun _ => true) stateFiveSix)).map
        (fun e => (e.call, e.ret)) =
      [(.accept 5 16, 7), (.getsockopt 7 .SO_PEERCRED, -1),
       (.client_new 7 (.in6 40000 1) 0, 0),
       (.accept 6 28, 8), (.getsockopt 8 .SO_PEERCRED, -1),
       (.client_new 8 (.in6 40000 1) 0, 0)] := by
  refine ⟨rfl, by decide, by decide⟩

theorem fatalShape_calls {pf : Int} {addr : SockAddr} {len : Nat} {sock : Int}
    {evs : List Event} (h : fatalShape pf addr len sock evs) :
    ∀ e ∈ evs, isEstablishCall e.call = true := by
  unfold fatalShape at h
  split at h
  · obtain ⟨h1, h2, h3⟩ := h
    simp [isEstablishCall, h1]
  · obtain ⟨h1, h2, h3, h4, h5⟩ := h
    simp [isEstablishCall, h1, h4]
  · obtain ⟨h1, h2, h3, h4, h5, h6, h7⟩ := h
    simp [isEstablishCall, h1, h4, h6]
  · obtain ⟨h1, h2, h3, h4, h5, h6, h7, h8, h9, h10, h11⟩ := h
    simp [isEstablishCall, h1, h4, h6, h8, h10]
  · exact h.elim

theorem failShape_calls {pf : Int} {addr : SockAddr} {len : Nat} {sock : Int}
    {evs : List Event} (h : failShape pf addr len sock evs) :
    ∀ e ∈ evs, isEstablishCall e.call = true := by
  unfold failShape at h
  split at h
  · obtain ⟨h1, h2, h3, h4, h5, h6, h7, h8, h9, h10⟩ := h
    simp [isEstablishCall, h1, h4, h6, h8, h10]
  · exact h.elim

theorem okShape_calls {b : Build} {pf : Int} {addr : SockAddr} {len : Nat} {sock : Int}
    {evs : List Event} (h : okShape b pf addr len sock evs) :
    ∀ e ∈ evs, isEstablishCall e.call = true := by
  unfold okShape at h
  split at h
  · obtain ⟨h0, h1, h2, h3, h4, h5, h6, h7, h8, h9, h10, h11⟩ := h
    simp [isEstablishCall, h1, h4, h6, h8, h10]
  · obtain ⟨h0, h1, h2, h3, h4, h5, h6, h7, h8, h9, h10, h11, h12⟩ := h
    simp [isEstablishCall, h1, h4, h6, h8, h10, h12]
  · exact h.elim

/-- The fatal errors `establishListen` can raise. -/
theorem establishListen_fatal_kind (b : Build) (sys : Sys) (pf : Int) (addr : SockAddr)
    (len : Nat) (s t : State) (f : Fatal)
    (h : establishListen b sys pf addr len s = .fatal f t) :
    f = .socket ∨ (∃ e, f = .nonblocking e) ∨ (∃ e, f = .setsockopt e) ∨ (∃ e, f = .listen e) := by
  unfold establishListen at h
  simp only [] at h
  split_ifs at h <;> simp only [Outcome.fatal.injEq, reduceCtorEq] at h
  · exact Or.inl h.1.symm
  · exact Or.inr (Or.inl ⟨_, h.1.symm⟩)
  · exact Or.inr (Or.inr (Or.inl ⟨_, h.1.symm⟩))
  · exact Or.inr (Or.inr (Or.inr ⟨_, h.1.symm⟩))

/-- An entry that begins with '/' is not the word "any". -/
theorem not_any_of_slash (v : String) (h : v.data.head? = some '/') : v ≠ "any" := by
  intro hv
  rw [hv] at h
  revert h
  decide

/-- On an entry that begins with '/', a build with local sockets runs the local-socket
branch. -/
theorem parseListenConfigParam_path (b : Build) (sys : Sys) (port : Nat) (p : ConfigParam)
    (s : State) (hun : b.HAVE_UN = true) (hslash : p.value.data.head? = some '/') :
    parseListenConfigParam b sys port (some p) s =
      if p.value.utf8ByteSize ≥ b.sizeof_sun_path then
        .fatal .pathTooLong (initUseIpv6 b sys s).2
      else
        (establishListen b sys PF_UNIX (.un p.value) b.sizeof_sockaddr_un
            (sysCall sys (.unlink p.value) (initUseIpv6 b sys s).2).2).andThen fun r s2 =>
          if r < 0 then .fatal (.bindPath p.value s2.errno) s2
          else .ret () (sysCall sys (.chmod p.value 0o666) s2).2 := by
  unfold parseListenConfigParam
  simp only [if_neg (not_any_of_slash _ hslash), hun, hslash, Bool.true_and, beq_self_eq_true,
    if_true]

/-- C12 (counterexample): on Linux `sun_path` has 108 bytes; a path of exactly 108 characters
does not exceed that limit, yet `parseListenConfigParam` raises the "path is too long" error. -/
theorem path_of_limit_length_refused :
    path108.data.head? = some '/' ∧
    path108.utf8ByteSize = Build.linux.sizeof_sun_path ∧
    ¬ (path108.utf8ByteSize > Build.linux.sizeof_sun_path) ∧
    (parseListenConfigParam Build.linux sysAllOk 6600 (some ⟨path108, 1⟩) State.init).fatal? =
      some .pathTooLong := by
  refine ⟨by decide, by decide, by decide, by decide⟩

/-- C12 (amended): for an entry beginning with '/' in a build with local sockets,
`parseListenConfigParam` raises the "path is too long" error if and only if the length of the
path is at least the size of `sun_path` (a path is accepted when it is shorter than `sun_path`,
which leaves room for the terminating NUL); when the error is raised, the only call made so far
is `ipv6Supported()`: no `unlink`, no `socket`, and the registry variables are untouched. -/
theorem parseListenConfigParam_path_too_long (b : Build) (sys : Sys) (port : Nat)
    (p : ConfigParam) (s : State) (hun : b.HAVE_UN = true)
    (hslash : p.value.data.head? = some '/') :
    let out := parseListenConfigParam b sys port (some p) s
    (out.fatal? = some .pathTooLong ↔ b.sizeof_sun_path ≤ p.value.utf8ByteSize) ∧
    (out.fatal? = some .pathTooLong →
      (∀ e ∈ newEvents s out.state, e.call = .ipv6Supported) ∧
      out.state.listenSockets = s.listenSockets ∧
      out.state.numberOfListenSockets = s.numberOfListenSockets) := by
  intro out
  have hout : out = _ := parseListenConfigParam_path b sys port p s hun hslash
  obtain ⟨pre, hpre, hshape, -, hcnt, hls⟩ := initUseIpv6_facts b sys s
  have hprecalls : ∀ e ∈ pre, e.call = .ipv6Supported := by
    rcases hshape with h | ⟨e, h, he⟩
    · subst h; simp
    · subst h; simpa using he
  by_cases hlen : p.value.utf8ByteSize ≥ b.sizeof_sun_path
  · rw [if_pos hlen] at hout
    rw [hout]
    simp only [Outcome.fatal?, Outcome.state, true_iff, newEvents_append s _ _ hpre]
    exact ⟨hlen, fun _ => ⟨hprecalls, hls, hcnt⟩⟩
  · rw [if_neg hlen] at hout
    have hne : out.fatal? ≠ some .pathTooLong := by
      rw [hout]
      cases hel : establishListen b sys PF_UNIX (.un p.value) b.sizeof_sockaddr_un
          (sysCall sys (.unlink p.value) (initUseIpv6 b sys s).2).2 with
      | fatal f t =>
        simp only [Outcome.andThen, Outcome.fatal?]
        rcases establishListen_fatal_kind _ _ _ _ _ _ _ _ hel with h | ⟨e, h⟩ | ⟨e, h⟩ | ⟨e, h⟩ <;>
          (subst h; simp)
      | ret r t =>
        simp only [Outcome.andThen]
        split_ifs <;> simp [Outcome.fatal?]
    exact ⟨⟨fun h => absurd h hne, fun h => absurd h hlen⟩, fun h => absurd h hne⟩

theorem parseListenConfigParam_path_too_long_witness :
    Build.linux.HAVE_UN = true ∧ "/tmp/x.sock".data.head? = some '/' ∧
    ¬ (Build.linux.sizeof_sun_path ≤ "/tmp/x.sock".utf8ByteSize) ∧
    (parseListenConfigParam Build.linux sysAllOk 6600 (some ⟨"/tmp/x.sock", 1⟩)
      State.init).fatal? ≠ some .pathTooLong ∧
    (parseListenConfigParam Build.linux sysAllOk 6600 (some ⟨path108, 1⟩)
      State.init).fatal? = some .pathTooLong :=
  ⟨rfl, by decide, by decide,
    fun h => absurd ((parseListenConfigParam_path_too_long Build.linux sysAllOk 6600
      ⟨"/tmp/x.sock", 1⟩ State.init rfl (by decide)).1.mp h) (by decide),
    (parseListenConfigParam_path_too_long Build.linux sysAllOk 6600 ⟨path108, 1⟩ State.init rfl
      (by decide)).1.mpr (by decide)⟩

theorem established_cons_of_not_bind (x : Event) (l : List Event)
    (h : ∀ k a n, x.call ≠ .bind k a n) : established (x :: l) = established l := by
  cases l with
  | nil => simp [established]
  | cons y r => simp [established, establishedBy_of_not_bind x y h]

theorem established_of_no_bind (l : List Event) (h : ∀ e ∈ l, ∀ k a n, e.call ≠ .bind k a n) :
    ∀ r : List Event, established (l ++ r) = established r := by
  induction l with
  | nil => intro r; rfl
  | cons x xs ih =>
    intro r
    rw [List.cons_append, established_cons_of_not_bind x _ (h x (List.mem_cons_self _ _))]
    exact ih (fun e he => h e (List.mem_cons_of_mem _ he)) r

theorem chmodCalls_append (a c : List Event) :
    chmodCalls (a ++ c) = chmodCalls a ++ chmodCalls c := by
  unfold chmodCalls
  exact List.filterMap_append _ _ _

theorem chmodCalls_of_establish (evs : List Event)
    (h : ∀ e ∈ evs, isEstablishCall e.call = true) : chmodCalls evs = [] := by
  unfold chmodCalls
  rw [List.filterMap_eq_nil_iff]
  intro e he
  have := h e he
  split
  · rename_i heq; rw [heq] at this; simp [isEstablishCall] at this
  · rfl

theorem socketCalls_of_ipv6Supported (pre : List Event)
    (h : ∀ e ∈ pre, e.call = .ipv6Supported) :
    socketCalls pre = [] ∧ bindCalls pre = [] ∧ chmodCalls pre = [] := by
  refine ⟨?_, ?_, ?_⟩
  · unfold socketCalls; rw [List.filterMap_eq_nil_iff]; intro e he; rw [h e he]
  · unfold bindCalls; rw [List.filterMap_eq_nil_iff]; intro e he; rw [h e he]
  · unfold chmodCalls; rw [List.filterMap_eq_nil_iff]; intro e he; rw [h e he]

/-- C13: for an entry beginning with '/' whose length is below the size of `sun_path`, in a
build with local sockets: `parseListenConfigParam` calls `unlink` on the path before anything
`establishListen` does, creates exactly one socket (of family `PF_UNIX`) and binds nothing but
the path.  If it returns, the socket was bound and put into listening mode with success, the
registry has grown by exactly that descriptor, and the last call is `chmod(path, 0666)`, the
only `chmod` of the run.  If it ends in a fatal error there is no `chmod` and the registry is as
before; a failed `bind` ends it in the fatal "unable to bind" error.  All this holds from every
state, so also for a second run on the same path from the state the first run left. -/
theorem parseListenConfigParam_local_socket (b : Build) (sys : Sys) (port : Nat)
    (p : ConfigParam) (s : State) (hun : b.HAVE_UN = true)
    (hslash : p.value.data.head? = some '/')
    (hlen : p.value.utf8ByteSize < b.sizeof_sun_path) (hn : 0 ≤ s.numberOfListenSockets) :
    let out := parseListenConfigParam b sys port (some p) s
    let evs := newEvents s out.state
    (∃ pre u rest, evs = pre ++ u :: rest ∧ (∀ e ∈ pre, e.call = .ipv6Supported) ∧
      u.call = .unlink p.value ∧ (∀ e ∈ rest, ∀ path, e.call ≠ .unlink path) ∧
      socketCalls rest = [PF_UNIX] ∧
      (∀ e ∈ rest, ∀ k a l, e.call = .bind k a l →
        a = .un p.value ∧ l = b.sizeof_sockaddr_un)) ∧
    socketCalls evs = [PF_UNIX] ∧
    (out.isFatal = false →
      (∃ sock, registry out.state = registry s ++ [sock] ∧ established evs = [sock]) ∧
      out.state.numberOfListenSockets = s.numberOfListenSockets + 1 ∧
      chmodCalls evs = [(p.value, 0o666)] ∧
      (∃ e, evs.getLast? = some e ∧ e.call = .chmod p.value 0o666)) ∧
    (out.isFatal = true →
      chmodCalls evs = [] ∧ registry out.state = registry s ∧
      out.state.numberOfListenSockets = s.numberOfListenSockets) ∧
    ((∃ e ∈ evs, ∃ k a l, e.call = .bind k a l ∧ e.ret < 0) →
      out.fatal? = some (.bindPath p.value out.state.errno)) := by
  intro out evs
  have hout : out = _ := parseListenConfigParam_path b sys port p s hun hslash
  rw [if_neg (by omega)] at hout
  obtain ⟨pre, hpre, hshape, hreg, hcnt, -⟩ := initUseIpv6_facts b sys s
  have hprecalls : ∀ e ∈ pre, e.call = .ipv6Supported := by
    rcases hshape with h | ⟨e, h, he⟩
    · subst h; simp
    · subst h; simpa using he
  obtain ⟨hp1, hp2, hp3⟩ := socketCalls_of_ipv6Supported pre hprecalls
  obtain ⟨u, hu, hucall⟩ : ∃ u : Event,
      (sysCall sys (.unlink p.value) (initUseIpv6 b sys s).2).2.trace =
        (initUseIpv6 b sys s).2.trace ++ [u] ∧ u.call = .unlink p.value :=
    ⟨_, sysCall_trace _ _ _, rfl⟩
  have hn1 : 0 ≤ (sysCall sys (.unlink p.value) (initUseIpv6 b sys s).2).2.numberOfListenSockets := by
    rw [sysCall_numberOfListenSockets, hcnt]; exact hn
  obtain ⟨sock, els, t, htr, -, h⟩ := establishListen_registry b sys PF_UNIX (.un p.value)
    b.sizeof_sockaddr_un _ hn1
  have hreg1 : registry (sysCall sys (.unlink p.value) (initUseIpv6 b sys s).2).2 = registry s := by
    rw [← hreg]; exact registry_congr rfl rfl
  rw [hu, hpre, List.append_assoc, List.append_assoc] at htr
  have hpreb : ∀ e ∈ pre ++ [u], ∀ k a n, e.call ≠ .bind k a n := by
    intro e he k a n
    simp only [List.mem_append, List.mem_singleton] at he
    rcases he with he | he
    · rw [hprecalls e he]; exact fun h => by cases h
    · rw [he, hucall]; exact fun h => by cases h
  have hsu : socketCalls [u] = [] ∧ chmodCalls [u] = [] := by
    simp [socketCalls, chmodCalls, hucall]
  rcases h with ⟨f, heq, hsh, hr, hc⟩ | ⟨heq, hsh, hr, hc⟩ | ⟨heq, hsh, hr, hc⟩
  · -- a set-up step is fatal
    obtain ⟨f1, -, f3, f4⟩ := fatalShape_facts hsh
    have hcalls := fatalShape_calls hsh
    have hevs : evs = pre ++ ([u] ++ els) := by
      apply newEvents_append; rw [hout, heq]; exact htr
    have hst : out.state = t := by rw [hout, heq]; rfl
    have hf : out.isFatal = true := by rw [hout, heq]; rfl
    refine ⟨⟨pre, u, els, hevs, hprecalls, hucall, ?_, f1, ?_⟩, ?_, ?_, ?_, ?_⟩
    · intro e he path hc'
      have := hcalls e he; rw [hc'] at this; simp [isEstablishCall] at this
    · intro e he k a l hc'
      exact (f4 e he k a l hc').2
    · rw [hevs, socketCalls_append, socketCalls_append, hp1, hsu.1, f1]; rfl
    · intro h; rw [hf] at h; cases h
    · intro _
      refine ⟨?_, by rw [hst, hr, hreg1], by rw [hst, hc, sysCall_numberOfListenSockets, hcnt]⟩
      rw [hevs, chmodCalls_append, chmodCalls_append, hp3, hsu.2,
        chmodCalls_of_establish els hcalls]; rfl
    · rintro ⟨e, he, k, a, l, hcall, hret⟩
      rw [hevs] at he
      simp only [List.mem_append, List.mem_singleton] at he
      rcases he with he | he | he
      · exact absurd hcall (hpreb e (by simp [he]) k a l)
      · exact absurd hcall (hpreb e (by simp [he]) k a l)
      · have := f3 e he k a l hcall; omega
  · -- the bind fails
    obtain ⟨f1, -, -, -, -, -, f4⟩ := failShape_facts hsh
    have hcalls := failShape_calls hsh
    have hout2 : out = .fatal (.bindPath p.value t.errno) t := by
      rw [hout, heq]; simp [Outcome.andThen]
    have hevs : evs = pre ++ ([u] ++ els) := by
      apply newEvents_append; rw [hout2]; exact htr
    refine ⟨⟨pre, u, els, hevs, hprecalls, hucall, ?_, f1, ?_⟩, ?_, ?_, ?_, ?_⟩
    · intro e he path hc'
      have := hcalls e he; rw [hc'] at this; simp [isEstablishCall] at this
    · intro e he k a l hc'
      exact (f4 e he k a l hc').2
    · rw [hevs, socketCalls_append, socketCalls_append, hp1, hsu.1, f1]; rfl
    · intro h; rw [hout2] at h; cases h
    · intro _
      refine ⟨?_, by rw [hout2]; exact hr.trans hreg1,
        by rw [hout2]; exact hc.trans hcnt⟩
      rw [hevs, chmodCalls_append, chmodCalls_append, hp3, hsu.2,
        chmodCalls_of_establish els hcalls]; rfl
    · intro _; rw [hout2]; rfl
  · -- the socket is registered
    obtain ⟨f1, -, -, -, -, f3, f4⟩ := okShape_facts hsh
    have hcalls := okShape_calls hsh
    obtain ⟨hest, -⟩ := okShape_established hsh
    obtain ⟨c, hc1, hccall⟩ : ∃ c : Event,
        (sysCall sys (.chmod p.value 0o666) t).2.trace = t.trace ++ [c] ∧
        c.call = .chmod p.value 0o666 := ⟨_, sysCall_trace _ _ _, rfl⟩
    have hout2 : out = .ret () (sysCall sys (.chmod p.value 0o666) t).2 := by
      rw [hout, heq]; simp [Outcome.andThen]
    have hevs : evs = pre ++ ([u] ++ (els ++ [c])) := by
      apply newEvents_append; rw [hout2]
      show (sysCall sys (.chmod p.value 0o666) t).2.trace = _
      rw [hc1, htr]; simp only [List.append_assoc]
    have hsc : socketCalls [c] = [] ∧ chmodCalls [c] = [(p.value, 0o666)] := by
      simp [socketCalls, chmodCalls, hccall]
    refine ⟨⟨pre, u, els ++ [c], hevs, hprecalls, hucall, ?_, ?_, ?_⟩, ?_, ?_, ?_, ?_⟩
    · intro e he path hc'
      simp only [List.mem_append, List.mem_singleton] at he
      rcases he with he | he
      · have := hcalls e he; rw [hc'] at this; simp [isEstablishCall] at this
      · rw [he, hccall] at hc'; cases hc'
    · rw [socketCalls_append, f1, hsc.1]; rfl
    · intro e he k a l hc'
      simp only [List.mem_append, List.mem_singleton] at he
      rcases he with he | he
      · exact (f4 e he k a l hc').2
      · rw [he, hccall] at hc'; cases hc'
    · rw [hevs, socketCalls_append, socketCalls_append, socketCalls_append, hp1, hsu.1, f1,
        hsc.1]; rfl
    · intro _
      refine ⟨⟨sock, ?_, ?_⟩, ?_, ?_, ⟨c, ?_, hccall⟩⟩
      · rw [hout2]
        show registry (sysCall sys (.chmod p.value 0o666) t).2 = _
        exact (registry_congr rfl rfl).trans (hr.trans (by rw [hreg1]))
      · rw [hevs, ← List.append_assoc, established_of_no_bind _ hpreb,
          established_append els [c] (by
            intro e he k n
            simp only [List.head?_cons, Option.some.injEq] at he
            rw [← he, hccall]; exact fun h => by cases h), hest]
        simp [established]
      · rw [hout2]
        show (sysCall sys (.chmod p.value 0o666) t).2.numberOfListenSockets = _
        rw [sysCall_numberOfListenSockets, hc, sysCall_numberOfListenSockets, hcnt]
      · rw [hevs, chmodCalls_append, chmodCalls_append, chmodCalls_append, hp3, hsu.2,
          chmodCalls_of_establish els hcalls, hsc.2]; rfl
      · rw [hevs, ← List.append_assoc, ← List.append_assoc, List.getLast?_append]
        simp
    · intro h; rw [hout2] at h; cases h
    · rintro ⟨e, he, k, a, l, hcall, hret⟩
      rw [hevs] at he
      simp only [List.mem_append, List.mem_singleton] at he
      rcases he with he | he | he | he
      · exact absurd hcall (hpreb e (by simp [he]) k a l)
      · exact absurd hcall (hpreb e (by simp [he]) k a l)
      · have := f3 e he k a l hcall; omega
      · rw [he, hccall] at hcall; cases hcall

theorem parseListenConfigParam_local_socket_witness :
    Build.linux.HAVE_UN = true ∧ "/tmp/x.sock".data.head? = some '/' ∧
    "/tmp/x.sock".utf8ByteSize < Build.linux.sizeof_sun_path ∧
    0 ≤ State.init.numberOfListenSockets ∧
    registry (parseListenConfigParam Build.linux sysAllOk 6600 (some ⟨"/tmp/x.sock", 1⟩)
      State.init).state = [3] ∧
    registry (parseListenConfigParam Build.linux sysAllOk 6600 (some ⟨"/tmp/x.sock", 1⟩)
      (parseListenConfigParam Build.linux sysAllOk 6600 (some ⟨"/tmp/x.sock", 1⟩)
        State.init).state).state = [3, 4] ∧
    socketCalls (newEvents State.init
      (parseListenConfigParam Build.linux sysAllOk 6600 (some ⟨"/tmp/x.sock", 1⟩)
        State.init).state) = [PF_UNIX] :=
  ⟨rfl, by decide, by decide, by decide, by decide, by decide,
    (parseListenConfigParam_local_socket Build.linux sysAllOk 6600 ⟨"/tmp/x.sock", 1⟩ State.init
      rfl (by decide) (by decide) (by decide)).2.1⟩

/-- The loop over the resolver result. -/
theorem bindAddrinfo_run (b : Build) (sys : Sys) (port : Nat) (ais : List AddrInfo) :
    ∀ s : State, 0 ≤ s.numberOfListenSockets →
      ∃ evs, (bindAddrinfo b sys port ais s).state.trace = s.trace ++ evs ∧
        (∀ e ∈ evs, isEstablishCall e.call = true) ∧
        ((bindAddrinfo b sys port ais s).isFatal = false →
          socketCalls evs = ais.map (·.ai_family) ∧
          (bindCalls evs).map Prod.snd = ais.map (·.ai_addr) ∧
          registry (bindAddrinfo b sys port ais s).state =
            registry s ++ (bindCalls evs).map Prod.fst ∧
          (bindAddrinfo b sys port ais s).state.numberOfListenSockets =
            s.numberOfListenSockets + ais.length) ∧
        ((∀ e ∈ evs, setupFailed e = false) → (bindAddrinfo b sys port ais s).isFatal = false) ∧
        ((∃ e ∈ evs, ∃ k a l, e.call = .bind k a l ∧ e.ret < 0) →
          (bindAddrinfo b sys port ais s).fatal? =
            some (.bind port (bindAddrinfo b sys port ais s).state.errno)) ∧
        (∀ e ∈ evs, ∀ k a l, e.call = .bind k a l →
          ∃ ai ∈ ais, a = ai.ai_addr ∧ l = ai.ai_addrlen) := by
  induction ais with
  | nil =>
    intro s _
    refine ⟨[], by simp [bindAddrinfo, Outcome.state], by simp, ?_, ?_, ?_, by simp⟩
    · intro _
      simp [bindAddrinfo, Outcome.state, socketCalls, bindCalls]
    · intro _; rfl
    · simp
  | cons ai rest ih =>
    intro s hn
    obtain ⟨sock, evs, t, htr, -, h⟩ :=
      establishListen_registry b sys ai.ai_family ai.ai_addr ai.ai_addrlen s hn
    rcases h with ⟨f, heq, hsh, hr, hc⟩ | ⟨heq, hsh, hr, hc⟩ | ⟨heq, hsh, hr, hc⟩
    · obtain ⟨f1, ⟨e, he, hf⟩, f3, f4⟩ := fatalShape_facts hsh
      have hout : bindAddrinfo b sys port (ai :: rest) s = .fatal f t := by
        simp [bindAddrinfo, heq, Outcome.andThen]
      rw [hout]
      refine ⟨evs, htr, fatalShape_calls hsh, ?_, ?_, ?_, ?_⟩
      · intro h; cases h
      · intro h; have := h e he; rw [hf] at this; cases this
      · rintro ⟨x, hx, k, a, l, hcall, hret⟩
        have := f3 x hx k a l hcall; omega
      · intro x hx k a l hcall
        obtain ⟨-, h2, h3⟩ := f4 x hx k a l hcall
        exact ⟨ai, List.mem_cons_self _ _, h2, h3⟩
    · obtain ⟨f1, f2, ⟨e, he, hf⟩, -, -, -, f4⟩ := failShape_facts hsh
      have hout : bindAddrinfo b sys port (ai :: rest) s = .fatal (.bind port t.errno) t := by
        simp [bindAddrinfo, heq, Outcome.andThen, BINDERROR]
      rw [hout]
      refine ⟨evs, htr, failShape_calls hsh, ?_, ?_, ?_, ?_⟩
      · intro h; cases h
      · intro h; have := h e he; rw [hf] at this; cases this
      · intro _; rfl
      · intro x hx k a l hcall
        obtain ⟨-, h2, h3⟩ := f4 x hx k a l hcall
        exact ⟨ai, List.mem_cons_self _ _, h2, h3⟩
    · obtain ⟨f1, f2, f3, -, -, f5, f4⟩ := okShape_facts hsh
      obtain ⟨evs2, htr2, hcalls2, hok2, hall2, hfail2, hb2⟩ :=
        ih t (by rw [hc]; exact Int.add_nonneg hn (by decide))
      have hout : bindAddrinfo b sys port (ai :: rest) s = bindAddrinfo b sys port rest t := by
        simp [bindAddrinfo, heq, Outcome.andThen]
      rw [hout]
      refine ⟨evs ++ evs2, by rw [htr2, htr, List.append_assoc], ?_, ?_, ?_, ?_, ?_⟩
      · intro x hx
        rcases List.mem_append.mp hx with hx | hx
        · exact okShape_calls hsh x hx
        · exact hcalls2 x hx
      · intro hnf
        obtain ⟨g1, g2, g3, g4⟩ := hok2 hnf
        refine ⟨?_, ?_, ?_, ?_⟩
        · rw [socketCalls_append, f1, g1]; rfl
        · rw [bindCalls_append, f2, List.map_append, g2]; rfl
        · rw [g3, hr, bindCalls_append, f2, List.map_append]; simp
        · rw [g4, hc]; simp; ring
      · intro hall
        exact hall2 fun x hx => hall x (List.mem_append_right _ hx)
      · rintro ⟨x, hx, k, a, l, hcall, hret⟩
        rcases List.mem_append.mp hx with hx | hx
        · have := f5 x hx k a l hcall; omega
        · exact hfail2 ⟨x, hx, k, a, l, hcall, hret⟩
      · intro x hx k a l hcall
        rcases List.mem_append.mp hx with hx | hx
        · obtain ⟨-, h2, h3⟩ := f4 x hx k a l hcall
          exact ⟨ai, List.mem_cons_self _ _, h2, h3⟩
        · obtain ⟨ai', hai, h2, h3⟩ := hb2 x hx k a l hcall
          exact ⟨ai', List.mem_cons_of_mem _ hai, h2, h3⟩

theorem lookupCalls_append (a c : List Event) :
    lookupCalls (a ++ c) = lookupCalls a ++ lookupCalls c := by
  unfold lookupCalls
  exact List.filterMap_append _ _ _

theorem lookupCalls_of_establish (evs : List Event)
    (h : ∀ e ∈ evs, isEstablishCall e.call = true) : lookupCalls evs = [] := by
  unfold lookupCalls
  rw [List.filterMap_eq_nil_iff]
  intro e he
  have := h e he
  split
  · rename_i heq; rw [heq] at this; simp [isEstablishCall] at this
  · rfl

/-- On an entry that is neither "any" nor a local-socket path, a TCP build runs the
name-resolution branch. -/
theorem parseListenConfigParam_host (b : Build) (sys : Sys) (port : Nat) (p : ConfigParam)
    (s : State) (htcp : b.HAVE_TCP = true) (hany : p.value ≠ "any")
    (hpath : ¬ (b.HAVE_UN = true ∧ p.value.data.head? = some '/')) :
    parseListenConfigParam b sys port (some p) s =
      if (sysCall sys (.getaddrinfo p.value (Nat.repr (port % 4294967296)))
          (DEBUG ("binding to address for " ++ p.value ++ "\n") (initUseIpv6 b sys s).2)).1 ≠ 0
      then
        .fatal (.lookup p.value p.line
          (sysCall sys (.getaddrinfo p.value (Nat.repr (port % 4294967296)))
            (DEBUG ("binding to address for " ++ p.value ++ "\n") (initUseIpv6 b sys s).2)).1)
          (sysCall sys (.getaddrinfo p.value (Nat.repr (port % 4294967296)))
            (DEBUG ("binding to address for " ++ p.value ++ "\n") (initUseIpv6 b sys s).2)).2
      else
        (bindAddrinfo b sys (port % 4294967296)
          (sys.addrinfo (hostLookupTrace b sys p s)
            (.getaddrinfo p.value (Nat.repr (port % 4294967296))))
          (sysCall sys (.getaddrinfo p.value (Nat.repr (port % 4294967296)))
            (DEBUG ("binding to address for " ++ p.value ++ "\n")
              (initUseIpv6 b sys s).2)).2).andThen
          fun _ s2 => .ret () (emit .freeaddrinfo s2) := by
  unfold parseListenConfigParam hostLookupTrace
  have h2 : (b.HAVE_UN && p.value.data.head? == some '/') = false := by
    cases hun : b.HAVE_UN
    · rfl
    · simp only [Bool.true_and, beq_eq_false_iff_ne, ne_eq]
      intro h; exact hpath ⟨hun, h⟩
  simp only [if_neg hany, h2, htcp, if_true, Bool.false_eq_true, if_false]

/-- The name-resolution branch of `parseListenConfigParam`, read off the trace. -/
theorem parseListenConfigParam_hostname_run (b : Build) (sys : Sys) (port : Nat) (p : ConfigParam)
    (s : State) (htcp : b.HAVE_TCP = true) (hany : p.value ≠ "any")
    (hpath : ¬ (b.HAVE_UN = true ∧ p.value.data.head? = some '/'))
    (hn : 0 ≤ s.numberOfListenSockets) :
    let out := parseListenConfigParam b sys port (some p) s
    let evs := newEvents s out.state
    let call := Call.getaddrinfo p.value (Nat.repr (port % 4294967296))
    let ret := sys.ret (hostLookupTrace b sys p s) call
    let ais := sys.addrinfo (hostLookupTrace b sys p s) call
    lookupCalls evs = [(p.value, Nat.repr (port % 4294967296))] ∧
    (ret ≠ 0 →
      out.fatal? = some (.lookup p.value p.line ret) ∧ socketCalls evs = [] ∧
      registry out.state = registry s ∧
      out.state.numberOfListenSockets = s.numberOfListenSockets) ∧
    (ret = 0 →
      (∀ e ∈ evs, ∀ k a l, e.call = .bind k a l →
        ∃ ai ∈ ais, a = ai.ai_addr ∧ l = ai.ai_addrlen) ∧
      ((∀ e ∈ evs, setupFailed e = false) →
        out.isFatal = false ∧
        socketCalls evs = ais.map (·.ai_family) ∧
        (bindCalls evs).map Prod.snd = ais.map (·.ai_addr) ∧
        registry out.state = registry s ++ (bindCalls evs).map Prod.fst ∧
        out.state.numberOfListenSockets = s.numberOfListenSockets + ais.length) ∧
      ((∃ e ∈ evs, ∃ k a l, e.call = .bind k a l ∧ e.ret < 0) →
        out.fatal? = some (.bind (port % 4294967296) out.state.errno))) := by
  intro out evs call ret ais
  have hout : out = _ := parseListenConfigParam_host b sys port p s htcp hany hpath
  obtain ⟨pre, hpre, hshape, hreg, hcnt, -⟩ := initUseIpv6_facts b sys s
  have hprecalls : ∀ e ∈ pre, e.call = .ipv6Supported := by
    rcases hshape with h | ⟨e, h, he⟩
    · subst h; simp
    · subst h; simpa using he
  obtain ⟨hp1, hp2, -⟩ := socketCalls_of_ipv6Supported pre hprecalls
  have hp4 : lookupCalls pre = [] := by
    unfold lookupCalls; rw [List.filterMap_eq_nil_iff]; intro e he; rw [hprecalls e he]
  have hp5 : ∀ e ∈ pre, setupFailed e = false := by
    intro e he; simp [setupFailed, isSetupCall, hprecalls e he]
  -- the two events before the loop: the DEBUG line and the lookup
  obtain ⟨d, hdtr, hd⟩ : ∃ d : Event,
      (DEBUG ("binding to address for " ++ p.value ++ "\n") (initUseIpv6 b sys s).2).trace =
        (initUseIpv6 b sys s).2.trace ++ [d] ∧
      d.call = .log .DEBUG ("binding to address for " ++ p.value ++ "\n") :=
    ⟨_, DEBUG_trace _ _, rfl⟩
  obtain ⟨g, hgtr, hg, hgret⟩ : ∃ g : Event,
      (sysCall sys call (DEBUG ("binding to address for " ++ p.value ++ "\n")
        (initUseIpv6 b sys s).2)).2.trace =
        (DEBUG ("binding to address for " ++ p.value ++ "\n") (initUseIpv6 b sys s).2).trace ++
          [g] ∧
      g.call = call ∧ g.ret = ret := by
    refine ⟨_, sysCall_trace _ _ _, ?_, ?_⟩ <;> rfl
  have htr1 : (sysCall sys call (DEBUG ("binding to address for " ++ p.value ++ "\n")
      (initUseIpv6 b sys s).2)).2.trace = s.trace ++ (pre ++ [d, g]) := by
    rw [hgtr, hdtr, hpre]; simp only [List.append_assoc, List.singleton_append]
  have hdg1 : socketCalls [d, g] = [] ∧ bindCalls [d, g] = [] ∧
      lookupCalls [d, g] = [(p.value, Nat.repr (port % 4294967296))] := by
    simp [socketCalls, bindCalls, lookupCalls, hd, hg, call]
  have hdg2 : ∀ e ∈ [d, g], setupFailed e = false ∧ ∀ k a l, e.call ≠ .bind k a l := by
    intro e he
    simp only [List.mem_cons, List.mem_singleton, List.not_mem_nil, or_false] at he
    rcases he with he | he
    · subst he; simp [setupFailed, isSetupCall, hd]
    · subst he; simp [setupFailed, isSetupCall, hg, call]
  have hretdef : (sysCall sys call (DEBUG ("binding to address for " ++ p.value ++ "\n")
      (initUseIpv6 b sys s).2)).1 = ret := rfl
  by_cases hr : ret = 0
  · -- the lookup succeeded
    rw [if_neg (by rw [hretdef]; exact not_not.mpr hr)] at hout
    have hn1 : 0 ≤ (sysCall sys call (DEBUG ("binding to address for " ++ p.value ++ "\n")
        (initUseIpv6 b sys s).2)).2.numberOfListenSockets := by
      show 0 ≤ (initUseIpv6 b sys s).2.numberOfListenSockets
      rw [hcnt]; exact hn
    obtain ⟨evs2, htr2, hcalls2, hok2, hall2, hfail2, hb2⟩ :=
      bindAddrinfo_run b sys (port % 4294967296) ais _ hn1
    have hreg1 : registry (sysCall sys call (DEBUG ("binding to address for " ++ p.value ++ "\n")
        (initUseIpv6 b sys s).2)).2 = registry s := by
      rw [← hreg]; exact registry_congr rfl rfl
    rw [hreg1] at hok2
    rw [show (sysCall sys call (DEBUG ("binding to address for " ++ p.value ++ "\n")
        (initUseIpv6 b sys s).2)).2.numberOfListenSockets = s.numberOfListenSockets
      from hcnt] at hok2
    rw [htr1] at htr2
    cases hrun : bindAddrinfo b sys (port % 4294967296) ais
        (sysCall sys call (DEBUG ("binding to address for " ++ p.value ++ "\n")
          (initUseIpv6 b sys s).2)).2 with
    | fatal f t =>
      rw [hrun] at htr2 hok2 hall2 hfail2
      simp only [Outcome.state] at htr2
      have hout2 : out = .fatal f t := by rw [hout, hrun]; rfl
      have hevs : evs = pre ++ [d, g] ++ evs2 := by
        apply newEvents_append; rw [hout2]
        show t.trace = _
        rw [show t.trace = _ from htr2]; simp only [List.append_assoc]
      refine ⟨?_, fun h => absurd hr h, fun _ => ⟨?_, ?_, ?_⟩⟩
      · rw [hevs, lookupCalls_append, lookupCalls_append, hp4, hdg1.2.2,
          lookupCalls_of_establish evs2 hcalls2]; rfl
      · intro e he k a l hcall
        rw [hevs] at he
        simp only [List.mem_append] at he
        rcases he with (he | he) | he
        · rw [hprecalls e he] at hcall; cases hcall
        · exact absurd hcall ((hdg2 e he).2 k a l)
        · exact hb2 e he k a l hcall
      · intro hall
        have := hall2 fun e he => hall e (by rw [hevs]; exact List.mem_append_right _ he)
        cases this
      · rintro ⟨e, he, k, a, l, hcall, hret⟩
        rw [hout2]
        rw [hevs] at he
        simp only [List.mem_append] at he
        rcases he with (he | he) | he
        · rw [hprecalls e he] at hcall; cases hcall
        · exact absurd hcall ((hdg2 e he).2 k a l)
        · exact hfail2 ⟨e, he, k, a, l, hcall, hret⟩
    | ret v t =>
      rw [hrun] at htr2 hok2 hall2 hfail2
      simp only [Outcome.state] at htr2 hok2
      obtain ⟨g1, g2, g3, g4⟩ := hok2 rfl
      have hout2 : out = .ret () (emit .freeaddrinfo t) := by rw [hout, hrun]; rfl
      obtain ⟨fr, hfr, hfrcall⟩ : ∃ fr : Event,
          (emit .freeaddrinfo t).trace = t.trace ++ [fr] ∧ fr.call = .freeaddrinfo :=
        ⟨_, emit_trace _ _, rfl⟩
      have hevs : evs = pre ++ [d, g] ++ evs2 ++ [fr] := by
        apply newEvents_append; rw [hout2]
        show (emit .freeaddrinfo t).trace = _
        rw [hfr, show t.trace = _ from htr2]; simp only [List.append_assoc]
      have hfr1 : socketCalls [fr] = [] ∧ bindCalls [fr] = [] ∧ lookupCalls [fr] = [] := by
        simp [socketCalls, bindCalls, lookupCalls, hfrcall]
      refine ⟨?_, fun h => absurd hr h, fun _ => ⟨?_, ?_, ?_⟩⟩
      · rw [hevs, lookupCalls_append, lookupCalls_append, lookupCalls_append, hp4, hdg1.2.2,
          lookupCalls_of_establish evs2 hcalls2, hfr1.2.2]; rfl
      · intro e he k a l hcall
        rw [hevs] at he
        simp only [List.mem_append, List.mem_singleton] at he
        rcases he with ((he | he) | he) | he
        · rw [hprecalls e he] at hcall; cases hcall
        · exact absurd hcall ((hdg2 e he).2 k a l)
        · exact hb2 e he k a l hcall
        · rw [he, hfrcall] at hcall; cases hcall
      · intro _
        refine ⟨by rw [hout2]; rfl, ?_, ?_, ?_, ?_⟩
        · rw [hevs, socketCalls_append, socketCalls_append, socketCalls_append, hp1, hdg1.1,
            g1, hfr1.1]; simp
        · rw [hevs, bindCalls_append, bindCalls_append, bindCalls_append, hp2, hdg1.2.1,
            hfr1.2.1]; simpa using g2
        · rw [hout2, hevs, bindCalls_append, bindCalls_append, bindCalls_append, hp2,
            hdg1.2.1, hfr1.2.1]
          show registry (emit .freeaddrinfo t) = _
          rw [registry_congr (t := emit .freeaddrinfo t) (s := t) rfl rfl, g3]; simp
        · rw [hout2]; exact g4
      · rintro ⟨e, he, k, a, l, hcall, hret⟩
        exfalso
        rw [hevs] at he
        simp only [List.mem_append, List.mem_singleton] at he
        rcases he with ((he | he) | he) | he
        · rw [hprecalls e he] at hcall; cases hcall
        · exact absurd hcall ((hdg2 e he).2 k a l)
        · have := hfail2 ⟨e, he, k, a, l, hcall, hret⟩
          cases this
        · rw [he, hfrcall] at hcall; cases hcall
  · -- the lookup failed
    rw [if_pos (by rw [hretdef]; exact hr)] at hout
    have hevs : evs = pre ++ [d, g] := by
      apply newEvents_append; rw [hout]; exact htr1
    refine ⟨?_, fun _ => ⟨?_, ?_, ?_, ?_⟩, fun h => absurd h hr⟩
    · rw [hevs, lookupCalls_append, hp4, hdg1.2.2]; rfl
    · rw [hout]; rfl
    · rw [hevs, socketCalls_append, hp1, hdg1.1]; rfl
    · rw [hout]
      show registry (sysCall sys call _).2 = _
      rw [← hreg]; exact registry_congr rfl rfl
    · rw [hout]; exact hcnt

theorem Frame.refl (s : State) : Frame s s := ⟨[], [], by simp, by simp, rfl, by simp⟩

theorem Frame.trans {s t u : State} (h1 : Frame s t) (h2 : Frame t u) : Frame s u := by
  obtain ⟨a, e1, r1, c1, b1, t1⟩ := h1
  obtain ⟨c, e2, r2, c2, b2, t2⟩ := h2
  refine ⟨a ++ c, e1 ++ e2, ?_, ?_, ?_, ?_⟩
  · rw [r2, r1, List.append_assoc]
  · rw [c2, c1, List.length_append]; push_cast; ring
  · rw [b2, b1]
  · rw [t2, t1, List.append_assoc]

theorem Frame.nonneg {s t : State} (h : Frame s t) (hn : 0 ≤ s.numberOfListenSockets) :
    0 ≤ t.numberOfListenSockets := by
  obtain ⟨a, _, _, c1, _, _⟩ := h
  rw [c1]; exact Int.add_nonneg hn (Int.natCast_nonneg _)

theorem Frame.sysCall (sys : Sys) (c : Call) (s : State) : Frame s (sysCall sys c s).2 :=
  ⟨[], _, by rw [List.append_nil]; exact registry_congr rfl rfl, by simp, rfl,
    sysCall_trace _ _ _⟩

theorem Frame.emit (c : Call) (s : State) : Frame s (emit c s) :=
  ⟨[], _, by rw [List.append_nil]; exact registry_congr rfl rfl, by simp, rfl, emit_trace _ _⟩

theorem Frame.DEBUG (msg : String) (s : State) : Frame s (DEBUG msg s) := Frame.emit _ s

theorem Good.andThen {α β : Type} {s : State} {o : Outcome α} {k : α → State → Outcome β}
    (h : o.Good s) (hk : ∀ v t, o = .ret v t → (k v t).Good t) : (o.andThen k).Good s := by
  cases o with
  | fatal f t => exact h
  | ret v t =>
    obtain ⟨h1, h2⟩ := hk v t rfl
    exact ⟨Frame.trans h.1 h1, h2⟩

theorem Good.of_frame {α : Type} {s t : State} {o : Outcome α} (h : o.Good t) (hf : Frame s t) :
    o.Good s := ⟨Frame.trans hf h.1, h.2⟩

theorem establishListen_good (b : Build) (sys : Sys) (pf : Int) (addr : SockAddr) (len : Nat)
    (s : State) (hn : 0 ≤ s.numberOfListenSockets) :
    (establishListen b sys pf addr len s).Good s := by
  obtain ⟨sock, evs, t, htr, hbp, h⟩ := establishListen_registry b sys pf addr len s hn
  rcases h with ⟨f, heq, -, hr, hc⟩ | ⟨heq, -, hr, hc⟩ | ⟨heq, -, hr, hc⟩
  · refine ⟨by rw [heq]; exact ⟨[], evs, by simpa using hr, by simpa using hc, hbp, htr⟩, ?_⟩
    intro v l
    rcases establishListen_fatal_kind _ _ _ _ _ _ _ _ heq with h | ⟨e, h⟩ | ⟨e, h⟩ | ⟨e, h⟩ <;>
      (rw [heq]; subst h; simp [Outcome.fatal?])
  · rw [heq]
    exact ⟨⟨[], evs, by simpa using hr, by simpa using hc, hbp, htr⟩, by simp [Outcome.fatal?]⟩
  · rw [heq]
    exact ⟨⟨[sock], evs, hr, by simpa using hc, hbp, htr⟩, by simp [Outcome.fatal?]⟩

theorem Good.ret {α : Type} {s t : State} (v : α) (h : Frame s t) :
    (Outcome.ret v t).Good s := ⟨h, by simp [Outcome.fatal?]⟩

theorem bindAddrinfo_good (b : Build) (sys : Sys) (port : Nat) (ais : List AddrInfo) :
    ∀ s : State, 0 ≤ s.numberOfListenSockets → (bindAddrinfo b sys port ais s).Good s := by
  induction ais with
  | nil => intro s _; exact Good.ret _ (Frame.refl s)
  | cons ai rest ih =>
    intro s hn
    unfold bindAddrinfo
    refine Good.andThen (establishListen_good b sys _ _ _ s hn) ?_
    intro v t hvt
    have hfr : Frame s t := by
      have := (establishListen_good b sys ai.ai_family ai.ai_addr ai.ai_addrlen s hn).1
      rw [hvt] at this; exact this
    split_ifs
    · exact ⟨Frame.refl t, by simp [BINDERROR, Outcome.fatal?]⟩
    · exact ih t (hfr.nonneg hn)

theorem initUseIpv6_frame (b : Build) (sys : Sys) (s : State) :
    Frame s (initUseIpv6 b sys s).2 := by
  unfold initUseIpv6
  split_ifs
  · exact Frame.sysCall _ _ _
  · exact Frame.refl s

theorem Outcome.ret_andThen {α β : Type} (v : α) (s : State) (k : α → State → Outcome β) :
    (Outcome.ret v s).andThen k = k v s := rfl

/-- Sequencing after a step that starts in a later state `t`. -/
theorem Good.andThen_from {α β : Type} {s t : State} {o : Outcome α}
    {k : α → State → Outcome β} (h : o.Good t) (hf : Frame s t)
    (hk : ∀ v u, o = .ret v u → (k v u).Good u) : (o.andThen k).Good s :=
  Good.of_frame (Good.andThen h hk) hf

theorem BINDERROR_good (port : Nat) (s : State) : (BINDERROR port s).Good s :=
  ⟨Frame.refl s, by simp [BINDERROR, Outcome.fatal?]⟩

theorem establishListen_then_frame (b : Build) (sys : Sys) (pf : Int) (addr : SockAddr)
    (len : Nat) (s t : State) (v : Int) (hn : 0 ≤ s.numberOfListenSockets)
    (h : establishListen b sys pf addr len s = .ret v t) : 0 ≤ t.numberOfListenSockets := by
  have := (establishListen_good b sys pf addr len s hn).1
  rw [h] at this
  exact this.nonneg hn

theorem wildcardBind_good (b : Build) (sys : Sys) (port : Nat) (useIpv6 : Bool) (s : State)
    (hn : 0 ≤ s.numberOfListenSockets) : (wildcardBind b sys port useIpv6 s).Good s := by
  unfold wildcardBind
  by_cases htcp : b.HAVE_TCP = true
  · rw [if_pos htcp]
    simp only []
    have hd : Frame s (DEBUG "binding to any address\n" s) := Frame.DEBUG _ s
    have hnd : 0 ≤ (DEBUG "binding to any address\n" s).numberOfListenSockets := hn
    cases useIpv6
    · simp only [Bool.false_eq_true, if_false, Outcome.ret_andThen]
      refine Good.andThen_from (establishListen_good b sys _ _ _ _ hnd) hd ?_
      intro v t _
      split_ifs
      · exact BINDERROR_good port t
      · exact Good.ret _ (Frame.refl t)
    · simp only [if_true]
      refine Good.andThen_from
        (Good.andThen (establishListen_good b sys _ _ _ _ hnd) ?_) hd ?_
      · intro v t _
        split_ifs
        · exact BINDERROR_good port t
        · exact Good.ret _ (Frame.refl t)
      · intro v t hvt
        have hnt : 0 ≤ t.numberOfListenSockets := by
          cases hel : establishListen b sys PF_INET6 (.in6 (htons port) in6addr_any)
              b.sizeof_sockaddr_in6 (DEBUG "binding to any address\n" s) with
          | fatal f u => rw [hel] at hvt; cases hvt
          | ret r u =>
            have hu := establishListen_then_frame _ _ _ _ _ _ _ _ hnd hel
            rw [hel, Outcome.ret_andThen] at hvt
            split_ifs at hvt
            · cases hvt
            · cases hvt; exact hu
        refine Good.andThen (establishListen_good b sys _ _ _ t hnt) ?_
        intro v2 t2 _
        split_ifs
        · exact BINDERROR_good port t2
        · exact Good.ret _ (Frame.refl t2)
  · rw [if_neg htcp]
    exact ⟨Frame.refl s, by simp [Outcome.fatal?]⟩

theorem parseListenConfigParam_good (b : Build) (sys : Sys) (port : Nat)
    (param : Option ConfigParam) (s : State) (hn : 0 ≤ s.numberOfListenSockets) :
    (parseListenConfigParam b sys port param s).Good s := by
  have h0 := initUseIpv6_frame b sys s
  have hn0 := h0.nonneg hn
  unfold parseListenConfigParam
  simp only []
  cases param with
  | none => exact Good.of_frame (wildcardBind_good b sys _ _ _ hn0) h0
  | some p =>
    simp only []
    by_cases h1 : p.value = "any"
    · rw [if_pos h1]
      exact Good.of_frame (wildcardBind_good b sys _ _ _ hn0) h0
    rw [if_neg h1]
    by_cases h2 : (b.HAVE_UN && p.value.data.head? == some '/') = true
    · rw [if_pos h2]
      by_cases h3 : p.value.utf8ByteSize ≥ b.sizeof_sun_path
      · rw [if_pos h3]
        exact ⟨h0, by simp [Outcome.fatal?]⟩
      · rw [if_neg h3]
        refine Good.andThen_from (establishListen_good b sys _ _ _ _ hn0)
          (Frame.trans h0 (Frame.sysCall sys _ _)) ?_
        intro v t _
        split_ifs
        · exact ⟨Frame.refl t, by simp [Outcome.fatal?]⟩
        · exact Good.ret _ (Frame.sysCall _ _ _)
    rw [if_neg h2]
    by_cases h4 : b.HAVE_TCP = true
    · rw [if_pos h4]
      split_ifs with h5
      · exact ⟨Frame.trans h0 (Frame.trans (Frame.DEBUG _ _) (Frame.sysCall _ _ _)),
          by simp [Outcome.fatal?]⟩
      · refine Good.andThen_from (bindAddrinfo_good b sys _ _ _ hn0)
          (Frame.trans h0 (Frame.trans (Frame.DEBUG _ _) (Frame.sysCall sys _ _))) ?_
        intro v t _
        exact Good.ret _ (Frame.emit _ _)
    · rw [if_neg h4]
      exact ⟨h0, by simp [Outcome.fatal?]⟩

theorem redirect_stdin_good (sys : Sys) (s : State) : (redirect_stdin sys s).Good s := by
  unfold redirect_stdin
  simp only []
  split_ifs
  all_goals first
    | refine Good.ret _ ?_
    | refine ⟨?_, by simp [Outcome.fatal?]⟩
  all_goals
    repeat (first
      | exact Frame.refl _
      | refine Frame.trans ?_ (Frame.sysCall _ _ _)
      | refine Frame.trans ?_ (Frame.DEBUG _ _))

theorem runEntries_good (b : Build) (sys : Sys) (port : Nat) (es : List (Option ConfigParam)) :
    ∀ s : State, 0 ≤ s.numberOfListenSockets → (runEntries b sys port es s).Good s := by
  induction es with
  | nil => intro s _; exact Good.ret _ (Frame.refl s)
  | cons e rest ih =>
    intro s hn
    unfold runEntries
    refine Good.andThen (parseListenConfigParam_good b sys port e s hn) ?_
    intro v t hvt
    have hfr : Frame s t := by
      have := (parseListenConfigParam_good b sys port e s hn).1
      rw [hvt] at this; exact this
    exact ih t (hfr.nonneg hn)

theorem Outcome.andThen_ret (o : Outcome Unit) :
    (o.andThen fun _ s1 => Outcome.ret () s1) = o := by
  cases o <;> rfl

theorem listenLoop_eq_runEntries (b : Build) (sys : Sys) (port : Nat) (ps : List ConfigParam) :
    ∀ s : State, listenLoop b sys port ps s = runEntries b sys port (ps.map some) s := by
  induction ps with
  | nil => intro s; rfl
  | cons p rest ih =>
    intro s
    simp only [listenLoop, List.map_cons, runEntries]
    congr 1
    funext _ s1
    exact ih s1

/-- The integer the port check lets through is a positive `int`. -/
theorem parsePort_range (portParam : Option ConfigParam) (v : Int)
    (h : parsePort portParam = some v) : 0 < v ∧ v ≤ 2147483647 := by
  unfold parsePort at h
  cases portParam with
  | none =>
    simp only [Option.some.injEq] at h
    rw [← h]; decide
  | some pp =>
    simp only [] at h
    split_ifs at h with hc
    simp only [Option.some.injEq] at h
    subst h
    have hpos : 0 < toInt32 (strtol pp.value.data).1 := by
      by_contra hneg
      exact hc (Or.inl (not_lt.mp hneg))
    refine ⟨hpos, ?_⟩
    unfold toInt32
    omega

theorem parsePort_toNat (portParam : Option ConfigParam) (v : Int)
    (h : parsePort portParam = some v) : (v % 4294967296).toNat = v.toNat := by
  obtain ⟨h1, h2⟩ := parsePort_range portParam v h
  rw [Int.emod_eq_of_lt (le_of_lt h1) (by omega)]

/-- The run of `listenOnPort` once the port check is passed: `boundPort` is assigned, then
`redirect_stdin` runs, then the entries are resolved in order with the port. -/
theorem listenOnPort_eq (b : Build) (sys : Sys) (bindParams : List ConfigParam)
    (portParam : Option ConfigParam) (s : State) (v : Int)
    (h : parsePort portParam = some v) :
    listenOnPort b sys bindParams portParam s =
      (redirect_stdin sys { s with boundPort := v }).andThen fun _ s2 =>
        runEntries b sys v.toNat (entriesOf bindParams) s2 := by
  unfold listenOnPort
  rw [h]
  simp only [parsePort_toNat portParam v h]
  congr 1
  funext _ s2
  cases bindParams with
  | nil =>
    simp only [entriesOf, runEntries]
    exact (Outcome.andThen_ret _).symm
  | cons p rest =>
    simp only [entriesOf]
    exact listenLoop_eq_runEntries b sys _ _ s2

theorem runEntries_append (b : Build) (sys : Sys) (port : Nat)
    (es1 es2 : List (Option ConfigParam)) :
    ∀ s : State, runEntries b sys port (es1 ++ es2) s =
      (runEntries b sys port es1 s).andThen fun _ s1 => runEntries b sys port es2 s1 := by
  induction es1 with
  | nil => intro s; rfl
  | cons e rest ih =>
    intro s
    simp only [List.cons_append, runEntries]
    cases parseListenConfigParam b sys port e s with
    | fatal f t => rfl
    | ret v t => exact ih t

theorem runEntries_single (b : Build) (sys : Sys) (port : Nat) (e : Option ConfigParam)
    (s : State) : runEntries b sys port [e] s = parseListenConfigParam b sys port e s := by
  simp only [runEntries]
  exact Outcome.andThen_ret _

/-- The registry after the entries is the registry before them followed by what each entry
contributed, in order. -/
theorem runEntries_registry (b : Build) (sys : Sys) (port : Nat)
    (es : List (Option ConfigParam)) :
    ∀ s : State, 0 ≤ s.numberOfListenSockets →
      registry (runEntries b sys port es s).state =
        registry s ++ (entrySockets b sys port es s).flatten ∧
      ((runEntries b sys port es s).isFatal = false →
        (entrySockets b sys port es s).length = es.length) := by
  induction es with
  | nil => intro s _; simp [runEntries, entrySockets, Outcome.state]
  | cons e rest ih =>
    intro s hn
    obtain ⟨⟨socks, evs, hr, hc, -, -⟩, -⟩ := parseListenConfigParam_good b sys port e s hn
    have hdrop : (registry (parseListenConfigParam b sys port e s).state).drop
        (registry s).length = socks := by
      rw [hr, List.drop_left]
    simp only [runEntries, entrySockets, hdrop, List.flatten_cons, List.length_cons]
    cases hp : parseListenConfigParam b sys port e s with
    | fatal f t =>
      rw [hp] at hr
      have e1 : (Outcome.fatal f t : Outcome Unit).isFatal = true := rfl
      rw [e1]
      simp only [if_true, List.flatten_nil, List.append_nil]
      exact ⟨hr, fun h => by cases h⟩
    | ret v t =>
      rw [hp] at hr hc
      have e1 : (Outcome.ret v t : Outcome Unit).isFatal = false := rfl
      have e2 : (Outcome.ret v t : Outcome Unit).state = t := rfl
      rw [e2] at hr hc
      obtain ⟨i1, i2⟩ := ih t (by rw [hc]; exact Int.add_nonneg hn (Int.natCast_nonneg _))
      rw [Outcome.ret_andThen, e1, e2]
      simp only [Bool.false_eq_true, if_false]
      exact ⟨by rw [i1, hr, List.append_assoc], fun h => by rw [i2 h]⟩

/-- The addresses a wildcard entry binds hold the low 16 bits of the port. -/
theorem wildcard_bind_targets (b : Build) (sys : Sys) (port : Nat)
    (param : Option ConfigParam) (s : State)
    (htcp : b.HAVE_TCP = true) (hany : isWildcard param = true)
    (hn : 0 ≤ s.numberOfListenSockets) :
    ∀ e ∈ newEvents s (parseListenConfigParam b sys port param s).state,
      ∀ k a l, e.call = .bind k a l →
        a = .in6 (htons port) in6addr_any ∨ a = .in4 (htons port) INADDR_ANY := by
  obtain ⟨pre, s0, hpre, hcalls, -, -, hrun⟩ :=
    parseListenConfigParam_wildcard_run b sys port param s htcp hany hn
  intro e he k a l hcall
  generalize parseListenConfigParam b sys port param s = o at hrun he
  generalize (initUseIpv6 b sys s).1 = v6 at hrun
  have key : ∀ (X : List Event), o.state.trace = s0.trace ++ wildcardDebug s0 :: X →
      (∀ x ∈ X, ∀ k a l, x.call = .bind k a l →
        a = .in6 (htons port) in6addr_any ∨ a = .in4 (htons port) INADDR_ANY) →
      a = .in6 (htons port) in6addr_any ∨ a = .in4 (htons port) INADDR_ANY := by
    intro X htr hX
    rw [hpre, List.append_assoc] at htr
    rw [newEvents_append s _ _ htr] at he
    simp only [List.mem_append, List.mem_cons] at he
    rcases he with he | he | he
    · rw [hcalls e he] at hcall; cases hcall
    · subst he; simp [wildcardDebug] at hcall
    · exact hX e he k a l hcall
  cases hrun with
  | v6Fatal f k' evs t hsh htr hr hc =>
    rw [htons_mod] at hsh
    exact key evs htr fun x hx k a l h =>
      Or.inl ((fatalShape_facts hsh).2.2.2 x hx k a l h).2.1
  | v6Failed k' evs t hsh htr hr hc =>
    rw [htons_mod] at hsh
    exact key evs htr fun x hx k a l h =>
      Or.inl ((failShape_facts hsh).2.2.2.2.2.2 x hx k a l h).2.1
  | v6Ok_v4Fatal f sock6 sock4 evs6 evs4 t hsh6 hsh4 htr hr hc =>
    rw [htons_mod] at hsh6 hsh4
    refine key (evs6 ++ evs4) htr fun x hx k a l h => ?_
    rcases List.mem_append.mp hx with hx | hx
    · exact Or.inl ((okShape_facts hsh6).2.2.2.2.2.2 x hx k a l h).2.1
    · exact Or.inr ((fatalShape_facts hsh4).2.2.2 x hx k a l h).2.1
  | v6Ok_v4Failed sock6 sock4 evs6 evs4 t hsh6 hsh4 htr hr hc =>
    rw [htons_mod] at hsh6 hsh4
    refine key (evs6 ++ evs4) htr fun x hx k a l h => ?_
    rcases List.mem_append.mp hx with hx | hx
    · exact Or.inl ((okShape_facts hsh6).2.2.2.2.2.2 x hx k a l h).2.1
    · exact Or.inr ((failShape_facts hsh4).2.2.2.2.2.2 x hx k a l h).2.1
  | v6Ok_v4Ok sock6 sock4 evs6 evs4 t hsh6 hsh4 htr hr hc =>
    rw [htons_mod] at hsh6 hsh4
    refine key (evs6 ++ evs4) htr fun x hx k a l h => ?_
    rcases List.mem_append.mp hx with hx | hx
    · exact Or.inl ((okShape_facts hsh6).2.2.2.2.2.2 x hx k a l h).2.1
    · exact Or.inr ((okShape_facts hsh4).2.2.2.2.2.2 x hx k a l h).2.1
  | v4Fatal f k' evs t hsh htr hr hc =>
    rw [htons_mod] at hsh
    exact key evs htr fun x hx k a l h =>
      Or.inr ((fatalShape_facts hsh).2.2.2 x hx k a l h).2.1
  | v4Failed k' evs t hsh htr hr hc =>
    rw [htons_mod] at hsh
    exact key evs htr fun x hx k a l h =>
      Or.inr ((failShape_facts hsh).2.2.2.2.2.2 x hx k a l h).2.1
  | v4Ok k' evs t hsh htr hr hc =>
    rw [htons_mod] at hsh
    exact key evs htr fun x hx k a l h =>
      Or.inr ((okShape_facts hsh).2.2.2.2.2.2 x hx k a l h).2.1

/-- The state `listenOnPort` leaves holds the port in `boundPort`. -/
theorem listenOnPort_boundPort (b : Build) (sys : Sys) (bindParams : List ConfigParam)
    (portParam : Option ConfigParam) (s : State) (v : Int)
    (h : parsePort portParam = some v) (hn : 0 ≤ s.numberOfListenSockets) :
    (listenOnPort b sys bindParams portParam s).Good { s with boundPort := v } := by
  rw [listenOnPort_eq b sys bindParams portParam s v h]
  refine Good.andThen (redirect_stdin_good sys _) ?_
  intro u t hut
  have hfr : Frame { s with boundPort := v } t := by
    have := (redirect_stdin_good sys { s with boundPort := v }).1
    rw [hut] at this; exact this
  exact runEntries_good b sys _ _ t (hfr.nonneg hn)

/-- The function `redirect_stdin` leaves the registry variables alone. -/
theorem redirect_stdin_registry (sys : Sys) (s : State) :
    registry (redirect_stdin sys s).state = registry s := by
  unfold redirect_stdin
  simp only []
  split_ifs <;> exact registry_congr rfl rfl

/-- C15: once the port check is passed and `redirect_stdin` has returned, in state `t`, the run
of `listenOnPort` is the resolution, one after the other and in configuration order, of the
entries of `entriesOf bindParams`: the configured entries, each once, or the absent entry once
when none is configured, which is a single wildcard resolution.  Each entry is resolved by one
call of `parseListenConfigParam` in the state the entries before it have left, followed by the
entries after it.  The final registry is the initial one followed by the sockets each entry
contributed, in configuration order, and in a run that is not terminated there is one such
sequence for each entry. -/
theorem listenOnPort_entries (b : Build) (sys : Sys) (bindParams : List ConfigParam)
    (portParam : Option ConfigParam) (s : State) (v : Int)
    (h : parsePort portParam = some v) (hn : 0 ≤ s.numberOfListenSockets)
    (hr : (redirect_stdin sys { s with boundPort := v }).isFatal = false) :
    let t := (redirect_stdin sys { s with boundPort := v }).state
    let out := listenOnPort b sys bindParams portParam s
    out = runEntries b sys v.toNat (entriesOf bindParams) t ∧
    (bindParams = [] → isWildcard none = true ∧
      out = parseListenConfigParam b sys v.toNat none t) ∧
    (bindParams ≠ [] → entriesOf bindParams = bindParams.map some) ∧
    (∀ es1 e es2 t1, entriesOf bindParams = es1 ++ e :: es2 →
      runEntries b sys v.toNat es1 t = .ret () t1 →
      out = (parseListenConfigParam b sys v.toNat e t1).andThen fun _ t2 =>
        runEntries b sys v.toNat es2 t2) ∧
    registry out.state =
      registry s ++ (entrySockets b sys v.toNat (entriesOf bindParams) t).flatten ∧
    (out.isFatal = false →
      (entrySockets b sys v.toNat (entriesOf bindParams) t).length =
        (entriesOf bindParams).length) := by
  intro t out
  have hout : out = runEntries b sys v.toNat (entriesOf bindParams) t := by
    simp only [out, t]
    rw [listenOnPort_eq b sys bindParams portParam s v h]
    cases hrs : redirect_stdin sys { s with boundPort := v } with
    | fatal f u => rw [hrs] at hr; cases hr
    | ret x u => rfl
  have hreg : registry t = registry s := by
    simp only [t]
    rw [redirect_stdin_registry]
    exact registry_congr rfl rfl
  have hnt : 0 ≤ t.numberOfListenSockets :=
    (redirect_stdin_good sys { s with boundPort := v }).1.nonneg hn
  obtain ⟨h1, h2⟩ := runEntries_registry b sys v.toNat (entriesOf bindParams) t hnt
  refine ⟨hout, ?_, ?_, ?_, ?_, ?_⟩
  · intro he
    refine ⟨rfl, ?_⟩
    rw [hout, he]
    exact runEntries_single b sys _ none t
  · intro hne
    cases bindParams with
    | nil => exact absurd rfl hne
    | cons p ps => rfl
  · intro es1 e es2 t1 hsplit hrun
    rw [hout, hsplit, runEntries_append, hrun]
    rfl
  · rw [hout, h1, hreg]
  · intro hnf
    rw [hout] at hnf
    exact h2 hnf

theorem listenOnPort_entries_witness :
    parsePort none = some 6600 ∧ 0 ≤ State.init.numberOfListenSockets ∧
    (redirect_stdin sysAllOk { State.init with boundPort := 6600 }).isFatal = false ∧
    registry (listenOnPort Build.linux sysAllOk [⟨"any", 1⟩, ⟨"/tmp/mpd.sock", 2⟩] none
      State.init).state = [3, 4, 5] ∧
    entrySockets Build.linux sysAllOk 6600 [some ⟨"any", 1⟩, some ⟨"/tmp/mpd.sock", 2⟩]
      (redirect_stdin sysAllOk { State.init with boundPort := 6600 }).state = [[3, 4], [5]] :=
  ⟨rfl, by decide, by decide,
    (listenOnPort_entries Build.linux sysAllOk [⟨"any", 1⟩, ⟨"/tmp/mpd.sock", 2⟩] none
      State.init 6600 rfl (by decide) (by decide)).2.2.2.2.1.trans (by decide),
    by decide⟩

/-- C17: with no `port` entry the port is `DEFAULT_PORT`, 6600, and the run does not end in the
port configuration error.  In every run that passes the port check with value `v`: the run is
the assignment of `v` to `boundPort`, made before any call, then `redirect_stdin`, then the
resolution of the entries, each by `parseListenConfigParam` with the port `v`; from the state
with `boundPort = v` on, the program only makes calls and registers sockets, so `boundPort` is
`v` at the end, and the run does not end in the port configuration error. -/
theorem listenOnPort_default_port (b : Build) (sys : Sys) (bindParams : List ConfigParam)
    (portParam : Option ConfigParam) (s : State) (v : Int)
    (hn : 0 ≤ s.numberOfListenSockets) (h : parsePort portParam = some v) :
    parsePort none = some 6600 ∧
    (∀ x l, (listenOnPort b sys bindParams none s).fatal? ≠ some (.port x l)) ∧
    (listenOnPort b sys bindParams none s).state.boundPort = 6600 ∧
    listenOnPort b sys bindParams portParam s =
      ((redirect_stdin sys { s with boundPort := v }).andThen fun _ s2 =>
        runEntries b sys v.toNat (entriesOf bindParams) s2) ∧
    ((v.toNat : Int) = v) ∧
    (∃ evs, (listenOnPort b sys bindParams portParam s).state.trace =
      ({ s with boundPort := v } : State).trace ++ evs) ∧
    (listenOnPort b sys bindParams portParam s).state.boundPort = v ∧
    (∀ x l, (listenOnPort b sys bindParams portParam s).fatal? ≠ some (.port x l)) := by
  have g0 := listenOnPort_boundPort b sys bindParams none s 6600 rfl hn
  have g := listenOnPort_boundPort b sys bindParams portParam s v h hn
  obtain ⟨⟨-, -, -, -, hb0, -⟩, hf0⟩ := g0
  obtain ⟨⟨-, evs, -, -, hb, ht⟩, hf⟩ := g
  refine ⟨rfl, hf0, hb0, listenOnPort_eq b sys bindParams portParam s v h, ?_, ⟨evs, ht⟩, hb, hf⟩
  exact Int.toNat_of_nonneg (le_of_lt (parsePort_range portParam v h).1)

theorem listenOnPort_default_port_witness :
    0 ≤ State.init.numberOfListenSockets ∧ parsePort (some ⟨"8000", 3⟩) = some 8000 ∧
    (listenOnPort Build.linux sysAllOk [] (some ⟨"8000", 3⟩) State.init).state.boundPort =
      8000 :=
  ⟨by decide, by decide,
    (listenOnPort_default_port Build.linux sysAllOk [] (some ⟨"8000", 3⟩) State.init 8000
      (by decide) (by decide)).2.2.2.2.2.2.1⟩

/-- C16 (counterexample): the port entry "72136" is accepted, `boundPort` is 72136, and the
IPv6 and IPv4 wildcard addresses that are bound hold the port 6600. -/
theorem wildcard_port_above_65535 :
    parsePort (some ⟨"72136", 1⟩) = some 72136 ∧
    (listenOnPort Build.linux sysAllOk [] (some ⟨"72136", 1⟩) State.init).isFatal = false ∧
    (listenOnPort Build.linux sysAllOk [] (some ⟨"72136", 1⟩) State.init).state.boundPort =
      72136 ∧
    (bindCalls (newEvents State.init
      (listenOnPort Build.linux sysAllOk [] (some ⟨"72136", 1⟩) State.init).state)).map
        Prod.snd = [.in6 6600 in6addr_any, .in4 6600 INADDR_ANY] := by
  refine ⟨by decide, by decide, by decide, by decide⟩

/-- C16 (amended): for every port value `v` accepted by `listenOnPort`, the run assigns `v` to
`boundPort`, which still holds it at the end, and resolves every entry with the port `v`.  With
that port, every address a wildcard entry binds is the IPv6 or the IPv4 wildcard address
holding the port number `v mod 65536`, which is `v` exactly when `v` is at most 65535; and the
one lookup a hostname entry makes is for the service string that is the decimal form of `v`
itself, also above 65535. -/
theorem listenOnPort_port_targets (b : Build) (sys : Sys) (bindParams : List ConfigParam)
    (portParam : Option ConfigParam) (s : State) (v : Int)
    (h : parsePort portParam = some v) (hn : 0 ≤ s.numberOfListenSockets)
    (htcp : b.HAVE_TCP = true) :
    let out := listenOnPort b sys bindParams portParam s
    out = ((redirect_stdin sys { s with boundPort := v }).andThen fun _ s2 =>
      runEntries b sys v.toNat (entriesOf bindParams) s2) ∧
    out.state.boundPort = v ∧ ((v.toNat : Int) = v) ∧
    (∀ (e : Option ConfigParam) (t : State), isWildcard e = true →
      0 ≤ t.numberOfListenSockets →
      ∀ ev ∈ newEvents t (parseListenConfigParam b sys v.toNat e t).state,
        ∀ k a l, ev.call = .bind k a l →
          a = .in6 (v.toNat % 65536) in6addr_any ∨ a = .in4 (v.toNat % 65536) INADDR_ANY) ∧
    (∀ (p : ConfigParam) (t : State), p.value ≠ "any" →
      ¬ (b.HAVE_UN = true ∧ p.value.data.head? = some '/') →
      0 ≤ t.numberOfListenSockets →
      lookupCalls (newEvents t (parseListenConfigParam b sys v.toNat (some p) t).state) =
        [(p.value, Nat.repr v.toNat)]) ∧
    (v.toNat % 65536 = v.toNat ↔ v ≤ 65535) := by
  intro out
  obtain ⟨hpos, hmax⟩ := parsePort_range portParam v h
  have hnat : ((v.toNat : Int) = v) := Int.toNat_of_nonneg (le_of_lt hpos)
  have hlt : v.toNat < 4294967296 := by omega
  obtain ⟨⟨-, -, -, -, hb, -⟩, -⟩ := listenOnPort_boundPort b sys bindParams portParam s v h hn
  refine ⟨listenOnPort_eq b sys bindParams portParam s v h, hb, hnat, ?_, ?_, ?_⟩
  · intro e t hany hnt ev hev k a l hcall
    exact wildcard_bind_targets b sys v.toNat e t htcp hany hnt ev hev k a l hcall
  · intro p t hany hpath hnt
    have := (parseListenConfigParam_hostname_run b sys v.toNat p t htcp hany hpath hnt).1
    rw [Nat.mod_eq_of_lt hlt] at this
    exact this
  · constructor
    · intro hm
      have : v.toNat < 65536 := by
        rw [← hm]; exact Nat.mod_lt _ (by decide)
      omega
    · intro hle
      exact Nat.mod_eq_of_lt (by omega)

theorem listenOnPort_port_targets_witness :
    parsePort (some ⟨"72136", 1⟩) = some 72136 ∧ 0 ≤ State.init.numberOfListenSockets ∧
    Build.linux.HAVE_TCP = true ∧
    (listenOnPort Build.linux sysAllOk [] (some ⟨"72136", 1⟩) State.init).state.boundPort =
      72136 :=
  ⟨by decide, by decide, rfl,
    (listenOnPort_port_targets Build.linux sysAllOk [] (some ⟨"72136", 1⟩) State.init 72136
      (by decide) (by decide) rfl).2.1⟩

theorem strlen_cons (c : Int) (cs : List Int) (hc : c ≠ 0) :
    strlen (c :: cs) = strlen cs + 1 := by
  simp [strlen, List.takeWhile_cons, hc]

theorem parse_key_value_loop_done (str : List Int) (len : Nat) (n i : Nat) (value : Int)
    (e : Nat) :
    parse_key_value_loop str len n i value .KEY_PARSER_DONE e = .ok (value, e) := by
  cases n with
  | zero => rfl
  | succ n => simp [parse_key_value_loop]

/-- The counter of the loop is no restriction: a larger one gives the same result, and the
loop started with `len - i` ends by its own condition. -/
theorem parse_key_value_loop_fuel (str : List Int) (len : Nat) :
    ∀ (n i : Nat) (value : Int) (state : key_parser_state_t) (e : Nat), len - i ≤ n →
      parse_key_value_loop str len n i value state e =
        parse_key_value_loop str len (len - i) i value state e := by
  intro n
  induction n with
  | zero =>
    intro i value state e h
    have : len - i = 0 := by omega
    rw [this]
  | succ n ih =>
    intro i value state e h
    by_cases hi : i < len
    · obtain ⟨k, hk⟩ : ∃ k, len - i = k + 1 := ⟨len - i - 1, by omega⟩
      have hk2 : len - (i + 1) = k := by omega
      have hn : len - (i + 1) ≤ n := by omega
      rw [hk]
      unfold parse_key_value_loop
      simp only [ih (i + 1) _ _ _ hn, hk2]
    · have : len - i = 0 := by omega
      rw [this]
      unfold parse_key_value_loop
      simp [hi]

/-- An early return of the loop returns -1 and leaves `*end` as it was. -/
theorem parse_key_value_loop_error (str : List Int) (len : Nat) :
    ∀ (n i : Nat) (value : Int) (state : key_parser_state_t) (e : Nat) (r : Int × Nat),
      parse_key_value_loop str len n i value state e = .error r → r = (-1, e) := by
  intro n
  induction n with
  | zero => intro i value state e r h; simp [parse_key_value_loop] at h
  | succ n ih =>
    intro i value state e r h
    unfold parse_key_value_loop at h
    by_cases hc : i < len ∧ state ≠ .KEY_PARSER_DONE
    · rw [if_pos hc] at h
      simp only [] at h
      generalize (if i + 1 < len then charAt str (i + 1) else 0) = next at h
      cases state with
      | KEY_PARSER_UNKNOWN =>
        simp only [] at h
        split_ifs at h
        · exact ih _ _ _ _ _ h
        · exact ih _ _ _ _ _ h
        · exact ih _ _ _ _ _ h
        · cases h; rfl
      | KEY_PARSER_CHAR =>
        simp only [] at h
        split_ifs at h
        · cases h; rfl
        · rw [parse_key_value_loop_done] at h; cases h
      | KEY_PARSER_DEC =>
        simp only [] at h
        rw [parse_key_value_loop_done] at h; cases h
      | KEY_PARSER_HEX =>
        simp only [] at h
        split_ifs at h
        · rw [parse_key_value_loop_done] at h; cases h
        · cases h; rfl
      | KEY_PARSER_DONE => exact absurd rfl hc.2
    · rw [if_neg hc] at h
      cases h

theorem parse_key_value_end_le (str : List Int) (len : Nat) :
    (parse_key_value str len).2 ≤ len := by
  unfold parse_key_value
  cases h : parse_key_value_loop str len len 0 0 .KEY_PARSER_UNKNOWN 0 with
  | error r =>
    have := parse_key_value_loop_error str len _ _ _ _ _ r h
    subst this
    exact Nat.zero_le _
  | ok r =>
    obtain ⟨v, e⟩ := r
    simp only []
    split_ifs <;> omega

theorem takeDigits_length_le (base : Nat) :
    ∀ s : List Int, (Conf.takeDigits base s).length ≤ strlen s := by
  intro s
  induction s with
  | nil => simp [Conf.takeDigits]
  | cons c cs ih =>
    unfold Conf.takeDigits
    cases hd : Conf.digitValue c with
    | none => simp
    | some d =>
      have hc : c ≠ 0 := by
        intro h0
        subst h0
        simp [Conf.digitValue] at hd
      simp only []
      split_ifs
      · rw [strlen_cons c cs hc, List.length_cons]
        omega
      · simp

theorem takeDigits_of_isdigit (base : Nat) (hb : 10 ≤ base) (d : Int) (rest : List Int)
    (hd : Conf.isdigit d = true) :
    Conf.takeDigits base (d :: rest) = (d - 48).toNat :: Conf.takeDigits base rest := by
  simp only [Conf.isdigit, Bool.and_eq_true, decide_eq_true_eq] at hd
  have hv : Conf.digitValue d = some (d - 48).toNat := by
    simp [Conf.digitValue, hd.1, hd.2]
  have hlt : (d - 48).toNat < base := by omega
  simp only [Conf.takeDigits, hv, if_pos hlt]

/-- On a text that begins with a decimal digit and, in base 16, not with a "0x" prefix,
`strtol` reads the leading run of digits of the base. -/
theorem strtol_of_isdigit (base : Nat) (hb : 10 ≤ base) (d : Int) (rest : List Int)
    (hd : Conf.isdigit d = true)
    (hpre : ¬ (d = 48 ∧ (charAt rest 0 = 120 ∨ charAt rest 0 = 88))) :
    Conf.strtol (d :: rest) base =
      (min LONG_MAX (Conf.valueOf base (Conf.takeDigits base (d :: rest)) : Int),
        (Conf.takeDigits base (d :: rest)).length) := by
  have hd2 := hd
  simp only [Conf.isdigit, Bool.and_eq_true, decide_eq_true_eq] at hd2
  have hsp : Conf.isspace d = false := by
    simp only [Conf.isspace, Bool.or_eq_false_iff, Bool.and_eq_false_iff, decide_eq_false_iff_not]
    omega
  have hne : Conf.takeDigits base (d :: rest) ≠ [] := by
    rw [takeDigits_of_isdigit base hb d rest hd]; simp
  have h45 : ¬ (d = 45 ∨ d = 43) := by omega
  have h45b : ¬ d = 45 := by omega
  have hpre2 : ¬ (base = 16 ∧ d = 48 ∧ (charAt rest 0 = 120 ∨ charAt rest 0 = 88) ∧
      Conf.takeDigits 16 (List.drop 2 (d :: rest)) ≠ []) := by
    intro h; exact hpre ⟨h.2.1, h.2.2.1⟩
  have c0 : charAt (d :: rest) 0 = d := rfl
  have c1 : charAt (d :: rest) 1 = charAt rest 0 := rfl
  unfold Conf.strtol
  have h43 : ¬ d = 43 := by omega
  simp only [List.takeWhile_cons, hsp, Bool.false_eq_true, if_false, List.length_nil,
    List.drop_zero, c0, c1, h45b, h43, or_self, hpre2, hne, Nat.zero_add, decide_False]
  have hnn : (0 : Int) ≤ (Conf.valueOf base (Conf.takeDigits base (d :: rest)) : Int) :=
    Int.natCast_nonneg _
  congr 1
  unfold LONG_MIN LONG_MAX
  omega

theorem toInt32_of_small (v : Nat) (h : (v : Int) ≤ 2147483647) :
    toInt32 (min LONG_MAX (v : Int)) = v := by
  have h1 : min LONG_MAX (v : Int) = v := by
    unfold LONG_MAX; omega
  rw [h1]
  unfold toInt32
  omega

theorem parse_key_value_quoted (c : Int) (rest : List Int) (hc : c ≠ 0) :
    parse_key_value (39 :: c :: 39 :: rest) (strlen (39 :: c :: 39 :: rest) + 1) = (c, 3) := by
  rw [strlen_cons 39 _ (by decide), strlen_cons c _ hc, strlen_cons 39 _ (by decide)]
  unfold parse_key_value
  simp [parse_key_value_loop, charAt, parse_key_value_loop_done]

theorem parse_key_value_other (str : List Int) (h1 : charAt str 0 ≠ 39)
    (h2 : Conf.isdigit (charAt str 0) = false) :
    parse_key_value str (strlen str + 1) = (-1, 0) := by
  have h48 : charAt str 0 ≠ 48 := by
    intro h; rw [h] at h2; exact absurd h2 (by decide)
  unfold parse_key_value
  simp [parse_key_value_loop, h1, h2, h48]

theorem parse_key_value_hex_no_digit (rest : List Int)
    (h : Conf.isdigit (charAt rest 0) = false) :
    parse_key_value (48 :: 120 :: rest) (strlen (48 :: 120 :: rest) + 1) = (-1, 0) := by
  rw [strlen_cons 48 _ (by decide), strlen_cons 120 _ (by decide)]
  have c2 : charAt (48 :: 120 :: rest) 2 = charAt rest 0 := rfl
  have h0 : Conf.isdigit 0 = false := by decide
  unfold parse_key_value
  simp only [parse_key_value_loop]
  simp [charAt, h0]
  simp [charAt] at h
  simp [h]

theorem isdigit_ne (d : Int) (hd : Conf.isdigit d = true) : d ≠ 0 ∧ d ≠ 39 := by
  simp only [Conf.isdigit, Bool.and_eq_true, decide_eq_true_eq] at hd
  constructor <;> omega

theorem parse_key_value_dec (d : Int) (rest : List Int) (hd : Conf.isdigit d = true)
    (hx : ¬ (d = 48 ∧ charAt rest 0 = 120)) :
    parse_key_value (d :: rest) (strlen (d :: rest) + 1) =
      (toInt32 (min LONG_MAX (Conf.valueOf 10 (Conf.takeDigits 10 (d :: rest)) : Int)),
        (Conf.takeDigits 10 (d :: rest)).length) := by
  obtain ⟨h0, h39⟩ := isdigit_ne d hd
  have hpre : ¬ (d = 48 ∧ (charAt rest 0 = 120 ∨ charAt rest 0 = 88)) ∨
      (d = 48 ∧ charAt rest 0 = 88) := by
    by_cases h : d = 48 ∧ charAt rest 0 = 88
    · exact Or.inr h
    · refine Or.inl ?_
      rintro ⟨h1, h2 | h2⟩
      · exact hx ⟨h1, h2⟩
      · exact h ⟨h1, h2⟩
  have hst : Conf.strtol (d :: rest) 10 =
      (min LONG_MAX (Conf.valueOf 10 (Conf.takeDigits 10 (d :: rest)) : Int),
        (Conf.takeDigits 10 (d :: rest)).length) := by
    rcases hpre with hpre | hpre
    · exact strtol_of_isdigit 10 (by decide) d rest hd hpre
    · have hd2 := hd
      simp only [Conf.isdigit, Bool.and_eq_true, decide_eq_true_eq] at hd2
      have hsp : Conf.isspace d = false := by
        simp only [Conf.isspace, Bool.or_eq_false_iff, Bool.and_eq_false_iff,
          decide_eq_false_iff_not]
        omega
      have hne : Conf.takeDigits 10 (d :: rest) ≠ [] := by
        rw [takeDigits_of_isdigit 10 (by decide) d rest hd]; simp
      have h45b : ¬ d = 45 := by omega
      have h43 : ¬ d = 43 := by omega
      have c0 : charAt (d :: rest) 0 = d := rfl
      unfold Conf.strtol
      simp only [List.takeWhile_cons, hsp, Bool.false_eq_true, if_false, List.length_nil,
        List.drop_zero, c0, h45b, h43, or_self, hne, Nat.zero_add, decide_False,
        show ¬ (10 = 16) by decide, false_and]
      have hnn : (0 : Int) ≤ (Conf.valueOf 10 (Conf.takeDigits 10 (d :: rest)) : Int) :=
        Int.natCast_nonneg _
      congr 1
      unfold LONG_MIN LONG_MAX
      omega
  have hlen := takeDigits_length_le 10 (d :: rest)
  rw [strlen_cons d rest h0] at hlen ⊢
  have c0 : charAt (d :: rest) 0 = d := rfl
  have c1 : charAt (d :: rest) (0 + 1) = charAt rest 0 := rfl
  unfold parse_key_value
  simp only [parse_key_value_loop, c0, c1, h39, hx, hd, if_false, if_true,
    parse_key_value_loop_done, Nat.sub_self, List.drop_zero, hst, Nat.zero_add]
  simp only [Nat.lt_add_left_iff_pos, Nat.zero_lt_succ, Nat.lt_add_one, if_true, ne_eq,
    not_false_eq_true, and_self, reduceCtorEq, Nat.one_lt_succ_succ, if_neg hx]
  simp only [gt_iff_lt, Prod.mk.injEq, true_and, ite_eq_right_iff]
  omega

theorem parse_key_value_hex (d : Int) (rest : List Int) (hd : Conf.isdigit d = true)
    (hpre : ¬ (d = 48 ∧ (charAt rest 0 = 120 ∨ charAt rest 0 = 88))) :
    parse_key_value (48 :: 120 :: d :: rest) (strlen (48 :: 120 :: d :: rest) + 1) =
      (toInt32 (min LONG_MAX (Conf.valueOf 16 (Conf.takeDigits 16 (d :: rest)) : Int)),
        2 + (Conf.takeDigits 16 (d :: rest)).length) := by
  obtain ⟨h0, -⟩ := isdigit_ne d hd
  have hst := strtol_of_isdigit 16 (by decide) d rest hd hpre
  have hlen := takeDigits_length_le 16 (d :: rest)
  rw [strlen_cons d rest h0] at hlen
  rw [strlen_cons 48 _ (by decide), strlen_cons 120 _ (by decide), strlen_cons d rest h0]
  have c0 : charAt (48 :: 120 :: d :: rest) 0 = 48 := rfl
  have c1 : charAt (48 :: 120 :: d :: rest) (0 + 1) = 120 := rfl
  have c2 : charAt (48 :: 120 :: d :: rest) (0 + 1 + 1) = d := rfl
  have dr : List.drop (0 + 1 + 1) (48 :: 120 :: d :: rest) = d :: rest := rfl
  unfold parse_key_value
  simp only [parse_key_value_loop, c0, c1, c2, dr, hd, hst, parse_key_value_loop_done]
  simp only [Nat.lt_add_left_iff_pos, Nat.zero_lt_succ, Nat.lt_add_one, if_true, ne_eq,
    not_false_eq_true, and_self, reduceCtorEq, Nat.one_lt_succ_succ, Nat.zero_add,
    Nat.reduceAdd, Nat.lt_add_left_iff_pos, and_true, not_true_eq_false, if_false]
  simp [hd]
  omega

/-- C19 (counterexample): in "0xff" the text after "0x" consists of the hexadecimal digits
"ff", of value 255, and `parse_key_value` returns -1 with `*end = str`.  Further, the decimal
text "2147483648" gives -2147483648, and "0x0x1f", where the digit after "0x" begins a second
prefix, gives 31 with `*end` at the end of the text. -/
theorem hex_letter_after_0x_refused :
    keyText "0xff" = 48 :: 120 :: keyText "ff" ∧
    Conf.takeDigits 16 (keyText "ff") = [15, 15] ∧ Conf.valueOf 16 [15, 15] = 255 ∧
    parse_key_value (keyText "0xff") (strlen (keyText "0xff") + 1) = (-1, 0) ∧
    parse_key_value (keyText "2147483648") (strlen (keyText "2147483648") + 1) =
      (-2147483648, 10) ∧
    parse_key_value (keyText "0x0x1f") (strlen (keyText "0x0x1f") + 1) = (31, 6) := by
  refine ⟨by decide, by decide, by decide, by decide, by decide, by decide⟩

/-- C19 (amended): for a text `str` in memory and `len = strlen(str) + 1`, the result `r` of
`parse_key_value`, value and `*end`, is: for a quoted character 'c', the code of `c` with
`*end = str + 3`; for a text
starting with a decimal digit and not with "0x", `*end` just past the leading decimal digits
and, when it is at most 2147483647, their decimal value; for "0x" followed by a decimal digit
that does not begin a second "0x" or "0X" prefix, `*end` just past the hexadecimal digits
after "0x" and, when it is at most 2147483647, their hexadecimal value; -1 with `*end = str`
for "0x" followed by anything but a decimal digit; and -1 with `*end = str` for a text that
starts with neither a quote nor a decimal digit.  In every case `*end` lies within
`[str, str + len]`. -/
theorem parse_key_value_cases (str : List Int) (r : Int × Nat)
    (hr : r = parse_key_value str (strlen str + 1)) :
    (∀ c rest, str = 39 :: c :: 39 :: rest → c ≠ 0 → r = (c, 3)) ∧
    (∀ d rest, str = d :: rest → Conf.isdigit d = true →
      ¬ (d = 48 ∧ charAt rest 0 = 120) →
      r.2 = (Conf.takeDigits 10 str).length ∧
      ((Conf.valueOf 10 (Conf.takeDigits 10 str) : Int) ≤ 2147483647 →
        r.1 = Conf.valueOf 10 (Conf.takeDigits 10 str))) ∧
    (∀ d rest, str = 48 :: 120 :: d :: rest → Conf.isdigit d = true →
      ¬ (d = 48 ∧ (charAt rest 0 = 120 ∨ charAt rest 0 = 88)) →
      r.2 = 2 + (Conf.takeDigits 16 (d :: rest)).length ∧
      ((Conf.valueOf 16 (Conf.takeDigits 16 (d :: rest)) : Int) ≤ 2147483647 →
        r.1 = Conf.valueOf 16 (Conf.takeDigits 16 (d :: rest)))) ∧
    (∀ rest, str = 48 :: 120 :: rest → Conf.isdigit (charAt rest 0) = false →
      r = (-1, 0)) ∧
    (charAt str 0 ≠ 39 → Conf.isdigit (charAt str 0) = false → r = (-1, 0)) ∧
    r.2 ≤ strlen str + 1 := by
  subst hr
  refine ⟨?_, ?_, ?_, ?_, ?_, parse_key_value_end_le str _⟩
  · intro c rest hs hc
    subst hs
    exact parse_key_value_quoted c rest hc
  · intro d rest hs hd hx
    subst hs
    have h := parse_key_value_dec d rest hd hx
    refine ⟨congrArg Prod.snd h, fun hv => ?_⟩
    exact (congrArg Prod.fst h).trans (toInt32_of_small _ hv)
  · intro d rest hs hd hpre
    subst hs
    have h := parse_key_value_hex d rest hd hpre
    refine ⟨congrArg Prod.snd h, fun hv => ?_⟩
    exact (congrArg Prod.fst h).trans (toInt32_of_small _ hv)
  · intro rest hs hd
    subst hs
    exact parse_key_value_hex_no_digit rest hd
  · intro h1 h2
    exact parse_key_value_other str h1 h2

theorem parse_key_value_cases_witness :
    Conf.isdigit 49 = true ∧ Conf.valueOf 16 (Conf.takeDigits 16 [49, 102]) = 31 ∧
    (parse_key_value (keyText "0x1f") (strlen (keyText "0x1f") + 1)).1 =
      Conf.valueOf 16 (Conf.takeDigits 16 [49, 102]) ∧
    parse_key_value (keyText "'a'") (strlen (keyText "'a'") + 1) = (97, 3) :=
  ⟨by decide, by decide,
    ((parse_key_value_cases (keyText "0x1f") _ rfl).2.2.1 49 [102] (by decide) (by decide)
      (by decide)).2 (by decide),
    (parse_key_value_cases (keyText "'a'") _ rfl).1 97 [] (by decide) (by decide)⟩

/-- The variable `useIpv6` of a TCP build is what `ipv6Supported()` answers in the entry state,
in a build with HAVE_IPV6, and false in a build without. -/
theorem initUseIpv6_value (b : Build) (sys : Sys) (s : State) (htcp : b.HAVE_TCP = true) :
    (initUseIpv6 b sys s).1 = (b.HAVE_IPV6 && decide (sys.ret s.trace .ipv6Supported ≠ 0)) := by
  unfold initUseIpv6
  rw [htcp]
  cases b.HAVE_IPV6 <;> simp [bne, beq_eq_decide]

/-- In a TCP build with HAVE_IPV6 the first call made is `ipv6Supported()`. -/
theorem initUseIpv6_call (b : Build) (sys : Sys) (s : State) (htcp : b.HAVE_TCP = true)
    (hv6 : b.HAVE_IPV6 = true) :
    ∃ e : Event, (initUseIpv6 b sys s).2.trace = s.trace ++ [e] ∧ e.call = .ipv6Supported ∧
      e.ret = sys.ret s.trace .ipv6Supported := by
  unfold initUseIpv6
  rw [htcp, hv6]
  exact ⟨_, sysCall_trace _ _ _, rfl, rfl⟩

/-- C1: on a wildcard entry (absent or "any") of a TCP build, `useIpv6` is what the environment
answers to `ipv6Supported()`, the first call made, in a build with HAVE_IPV6 (and false in a
build without).  `parseListenConfigParam` first attempts the IPv6 wildcard bind exactly when
that answer is true, and then the IPv4 wildcard bind: the families of the `socket` calls made
are the first one or two of the expected ones and all of them unless the process was
terminated.  When no set-up step of an attempt fails there is no fatal error, the addresses
bound are the IPv6 wildcard (if supported) and then the IPv4 wildcard with the configured port,
and the registry grows by exactly the descriptors bound, in that order: two if IPv6 is
supported, one otherwise. -/
theorem parseListenConfigParam_wildcard_binds (b : Build) (sys : Sys) (port : Nat)
    (param : Option ConfigParam) (s : State)
    (htcp : b.HAVE_TCP = true) (hany : isWildcard param = true)
    (hn : 0 ≤ s.numberOfListenSockets) :
    let out := parseListenConfigParam b sys port param s
    let evs := newEvents s out.state
    let useIpv6 := b.HAVE_IPV6 && decide (sys.ret s.trace .ipv6Supported ≠ 0)
    let families := if useIpv6 then [PF_INET6, PF_INET] else [PF_INET]
    let targets :=
      if useIpv6 then [SockAddr.in6 (htons port) in6addr_any, SockAddr.in4 (htons port) INADDR_ANY]
      else [SockAddr.in4 (htons port) INADDR_ANY]
    (b.HAVE_IPV6 = true →
      ∃ e, evs.head? = some e ∧ e.call = .ipv6Supported ∧
        e.ret = sys.ret s.trace .ipv6Supported) ∧
    (socketCalls evs).head? = families.head? ∧
    socketCalls evs <+: families ∧
    (out.isFatal = false → socketCalls evs = families) ∧
    ((∀ e ∈ evs, setupFailed e = false) →
      out.isFatal = false ∧
      socketCalls evs = families ∧
      (bindCalls evs).map Prod.snd = targets ∧
      registry out.state = registry s ++ (bindCalls evs).map Prod.fst ∧
      out.state.numberOfListenSockets = s.numberOfListenSockets + families.length) := by
  intro out evs useIpv6 families targets
  have h := parseListenConfigParam_wildcard_attempts b sys port param s htcp hany hn
  simp only [initUseIpv6_value b sys s htcp] at h
  refine ⟨?_, h⟩
  intro hv6
  obtain ⟨e, he, hcall, hret⟩ := initUseIpv6_call b sys s htcp hv6
  have hcnt : 0 ≤ (initUseIpv6 b sys s).2.numberOfListenSockets :=
    (initUseIpv6_frame b sys s).nonneg hn
  obtain ⟨⟨-, evs2, -, -, -, htr⟩, -⟩ :=
    wildcardBind_good b sys (port % 4294967296) (initUseIpv6 b sys s).1 _ hcnt
  rw [← parseListenConfigParam_wildcard b sys port param s hany, he, List.append_assoc] at htr
  refine ⟨e, ?_, hcall, hret⟩
  simp only [evs, out]
  rw [newEvents_append s _ _ htr]
  rfl

theorem parseListenConfigParam_wildcard_binds_witness :
    Build.linux.HAVE_TCP = true ∧ isWildcard none = true ∧
    0 ≤ State.init.numberOfListenSockets ∧
    (∀ e ∈ newEvents State.init
        (parseListenConfigParam Build.linux sysAllOk 6600 none State.init).state,
      setupFailed e = false) ∧
    sysAllOk.ret State.init.trace .ipv6Supported = 1 ∧
    registry (parseListenConfigParam Build.linux sysAllOk 6600 none State.init).state = [3, 4] :=
  ⟨rfl, rfl, by decide, by decide, rfl,
    ((parseListenConfigParam_wildcard_binds Build.linux sysAllOk 6600 none State.init rfl rfl
      (by decide)).2.2.2.2 (by decide)).2.2.2.1.trans (by decide)⟩

/-- C14 (counterexample): the port entry "72136" is accepted; for the entry "localhost" the
lookup is made for the service "72136" and returns two addresses, no call fails, the run
returns and the registry grows by two descriptors, and both are bound with the port 6600. -/
theorem hostname_port_above_65535 :
    parsePort (some ⟨"72136", 1⟩) = some 72136 ∧
    lookupCalls (newEvents State.init (parseListenConfigParam Build.linux sysServiceResolver
      72136 (some ⟨"localhost", 4⟩) State.init).state) = [("localhost", "72136")] ∧
    (∀ e ∈ newEvents State.init (parseListenConfigParam Build.linux sysServiceResolver
      72136 (some ⟨"localhost", 4⟩) State.init).state, 0 ≤ e.ret) ∧
    (parseListenConfigParam Build.linux sysServiceResolver 72136 (some ⟨"localhost", 4⟩)
      State.init).isFatal = false ∧
    registry (parseListenConfigParam Build.linux sysServiceResolver 72136
      (some ⟨"localhost", 4⟩) State.init).state = [3, 4] ∧
    (bindCalls (newEvents State.init (parseListenConfigParam Build.linux sysServiceResolver
      72136 (some ⟨"localhost", 4⟩) State.init).state)).map (fun x => x.2.port) =
      [some 6600, some 6600] := by
  refine ⟨by decide, by decide, by decide, by decide, by decide, by decide⟩

/-- C14 (amended): for an entry that is neither absent, "any", nor a local-socket path, in a
TCP build: `parseListenConfigParam` makes exactly one lookup, for the entry's text and the
decimal form of the configured port.  If the lookup fails the run is fatal, with no socket
created and the registry as before.  If it succeeds, only addresses of the resolver's list are
bound, as the resolver returned them, so every address bound holds the port the resolver's
addresses hold; when no set-up step fails the run returns, one socket is created and bound for
each address of the list, in the list's order, and the registry grows by exactly these
descriptors, as many as there are addresses; and when a bind fails the run is fatal with the
bind error.  The 16-bit port `htons port` that a resolver filling the port field from the
service number returns is the configured port when that port is at most 65535. -/
theorem parseListenConfigParam_hostname (b : Build) (sys : Sys) (port : Nat) (p : ConfigParam)
    (s : State) (htcp : b.HAVE_TCP = true) (hany : p.value ≠ "any")
    (hpath : ¬ (b.HAVE_UN = true ∧ p.value.data.head? = some '/'))
    (hn : 0 ≤ s.numberOfListenSockets) :
    let out := parseListenConfigParam b sys port (some p) s
    let evs := newEvents s out.state
    let call := Call.getaddrinfo p.value (Nat.repr (port % 4294967296))
    let ret := sys.ret (hostLookupTrace b sys p s) call
    let ais := sys.addrinfo (hostLookupTrace b sys p s) call
    lookupCalls evs = [(p.value, Nat.repr (port % 4294967296))] ∧
    (ret ≠ 0 →
      out.fatal? = some (.lookup p.value p.line ret) ∧ socketCalls evs = [] ∧
      registry out.state = registry s ∧
      out.state.numberOfListenSockets = s.numberOfListenSockets) ∧
    (ret = 0 →
      (∀ e ∈ evs, ∀ k a l, e.call = .bind k a l →
        ∃ ai ∈ ais, a = ai.ai_addr ∧ l = ai.ai_addrlen) ∧
      (∀ q, (∀ ai ∈ ais, ai.ai_addr.port = some q) →
        ∀ e ∈ evs, ∀ k a l, e.call = .bind k a l → a.port = some q) ∧
      ((∀ e ∈ evs, setupFailed e = false) →
        out.isFatal = false ∧
        socketCalls evs = ais.map (·.ai_family) ∧
        (bindCalls evs).map Prod.snd = ais.map (·.ai_addr) ∧
        registry out.state = registry s ++ (bindCalls evs).map Prod.fst ∧
        out.state.numberOfListenSockets = s.numberOfListenSockets + ais.length) ∧
      ((∃ e ∈ evs, ∃ k a l, e.call = .bind k a l ∧ e.ret < 0) →
        out.fatal? = some (.bind (port % 4294967296) out.state.errno))) ∧
    (port ≤ 65535 → htons port = port) := by
  intro out evs call ret ais
  obtain ⟨h1, h2, h3⟩ := parseListenConfigParam_hostname_run b sys port p s htcp hany hpath hn
  refine ⟨h1, h2, fun hret => ?_, fun hp => ?_⟩
  · obtain ⟨g1, g2, g3⟩ := h3 hret
    refine ⟨g1, ?_, g2, g3⟩
    intro q hq e he k a l hcall
    obtain ⟨ai, hai, ha, -⟩ := g1 e he k a l hcall
    rw [ha]
    exact hq ai hai
  · unfold htons
    exact Nat.mod_eq_of_lt (by omega)

theorem parseListenConfigParam_hostname_witness :
    Build.linux.HAVE_TCP = true ∧ "localhost" ≠ "any" ∧
    ¬ (Build.linux.HAVE_UN = true ∧ "localhost".data.head? = some '/') ∧
    0 ≤ State.init.numberOfListenSockets ∧
    lookupCalls (newEvents State.init
      (parseListenConfigParam Build.linux sysServiceResolver 6600 (some ⟨"localhost", 4⟩)
        State.init).state) = [("localhost", "6600")] ∧
    registry (parseListenConfigParam Build.linux sysServiceResolver 6600
      (some ⟨"localhost", 4⟩) State.init).state = [3, 4] ∧
    (∀ e ∈ newEvents State.init
        (parseListenConfigParam Build.linux sysServiceResolver 6600 (some ⟨"localhost", 4⟩)
          State.init).state,
      ∀ k a l, e.call = .bind k a l → a.port = some 6600) :=
  ⟨rfl, by decide, by decide, by decide,
    (parseListenConfigParam_hostname Build.linux sysServiceResolver 6600 ⟨"localhost", 4⟩
      State.init rfl (by decide) (by decide) (by decide)).1.trans (by decide),
    by decide,
    ((parseListenConfigParam_hostname Build.linux sysServiceResolver 6600 ⟨"localhost", 4⟩
      State.init rfl (by decide) (by decide) (by decide)).2.2.1 (by decide)).2.1 6600
      (by decide)⟩

end Mpd
